import Mathlib

/-! Receipt processor: the points-calculation rule engine.

A shallow embedding of the Go packages `models`, `errors`, `services/rules`,
`services`, `storage` and `api` of the receipt processor, followed by theorems
about them.

Conventions of the embedding.

* Go `int` is the 64-bit two's-complement integer of the 64-bit targets: values
  are `Int`, and every addition that can leave the range is reduced by `wrap64`.
* Go `float64` is IEEE 754 binary64, modelled exactly by `Float64`: a finite
  value is a sign and a count of units of `2^(-1074)`, and arithmetic rounds to
  nearest, ties to even.
* Go `string` is modelled by `String`: the strings that reach the engine through
  the JSON decoder are valid UTF-8, `len` is the UTF-8 byte count and `range`
  visits the code points.
* What the Go toolchain fixes but the repository does not (the Unicode tables
  above Latin-1, the result of an out-of-range float-to-int conversion) is a
  field of `GoRuntime`, over which every theorem is universally quantified.
* Library functions whose full grammar or message text is not reproduced
  (`strconv.ParseFloat`, the text of a `time.Parse` error) are fields of
  `GoLibrary`, a parameter of decoding and validation.
* A method of the store takes the store it finds and returns the store it
  leaves; the identifier `uuid.New()` draws is an argument of the call, and so
  is what the scheduler and `select` decide in a call of `Count`.
-/

namespace ReceiptProcessor

/-! ## Go `int` -/

/-- Reduction of an integer to the 64-bit two's-complement range, the result Go
gives to an `int` operation whose exact result is `i`. -/
def wrap64 (i : Int) : Int := (i + 2 ^ 63) % 2 ^ 64 - 2 ^ 63

/-- Go `+` on `int`. -/
def intAdd (a b : Int) : Int := wrap64 (a + b)

/-- Membership in the range of `int`. -/
def InInt64 (i : Int) : Prop := -(2 ^ 63) ≤ i ∧ i < 2 ^ 63

instance (i : Int) : Decidable (InInt64 i) := by unfold InInt64; infer_instance

/-! ## Go `float64` -/

/-- IEEE 754 binary64 values. Every finite binary64 value is an integer multiple
of `2^(-1074)`; `fin neg k` is the value `(-1)^neg * k * 2^(-1074)`. -/
inductive Float64 where
  | nan : Float64
  | inf (neg : Bool) : Float64
  | fin (neg : Bool) (k : Nat) : Float64
deriving DecidableEq, Repr

namespace Float64

/-- Number of units of `2^(-1074)` in `1.0`. -/
def unit : Nat := 2 ^ 1074

/-- Loop of `bitLength`: halve until zero. -/
def bitLengthAux : Nat → Nat → Nat
  | 0, _ => 0
  | fuel + 1, n => if n = 0 then 0 else bitLengthAux fuel (n / 2) + 1

/-- Number of binary digits of `n` (0 for 0). -/
def bitLength (n : Nat) : Nat := bitLengthAux n n

/-- Nearest integer to `n / d`, ties to even. -/
def roundHalfEven (n d : Nat) : Nat :=
  if 2 * (n % d) < d then n / d
  else if d < 2 * (n % d) then n / d + 1
  else if (n / d) % 2 = 0 then n / d else n / d + 1

/-- Rounding of the non-negative rational `n / d`, counted in units of
`2^(-1074)`, to the nearest count that has at most 53 significant bits. -/
def roundUnits (n d : Nat) : Nat :=
  roundHalfEven n (d * 2 ^ (bitLength (n / d) - 53)) * 2 ^ (bitLength (n / d) - 53)

/-- Round-to-nearest-even of `(-1)^neg * (n / d) * 2^(-1074)` to binary64; a
result of magnitude `2^1024` or more is an infinity. -/
def round (neg : Bool) (n d : Nat) : Float64 :=
  if roundUnits n d < 2 ^ 2098 then fin neg (roundUnits n d) else inf neg

/-- The binary64 value nearest to the decimal or rational constant
`(-1)^neg * p / q`: a Go floating-point constant converted to `float64`, or the
result of `strconv.ParseFloat` on a decimal numeral. -/
def ofFraction (neg : Bool) (p q : Nat) : Float64 := round neg (p * unit) q

/-- The `float64` of a natural number constant. -/
def ofNat (n : Nat) : Float64 := ofFraction false n 1

/-- Go `*` on `float64`. -/
def mul : Float64 → Float64 → Float64
  | nan, _ => nan
  | _, nan => nan
  | inf s, inf t => inf (s != t)
  | inf s, fin t k => if k = 0 then nan else inf (s != t)
  | fin s k, inf t => if k = 0 then nan else inf (s != t)
  | fin s a, fin t b => round (s != t) (a * b) unit

/-- Go `==` on `float64`. -/
def eq : Float64 → Float64 → Bool
  | inf s, inf t => s == t
  | fin s a, fin t b => (a == 0 && b == 0) || (s == t && a == b)
  | _, _ => false

/-- Go `<=` on `float64`. -/
def le : Float64 → Float64 → Bool
  | nan, _ => false
  | _, nan => false
  | inf s, inf t => s || !t
  | inf s, fin _ _ => s
  | fin _ _, inf t => !t
  | fin false a, fin false b => a ≤ b
  | fin true a, fin true b => b ≤ a
  | fin true _, fin false _ => true
  | fin false a, fin true b => a == 0 && b == 0

/-- Go `math.Floor`. -/
def floor : Float64 → Float64
  | fin false k => fin false (k / unit * unit)
  | fin true k => fin true ((k + (unit - 1)) / unit * unit)
  | x => x

/-- Go `math.Ceil`. -/
def ceil : Float64 → Float64
  | fin false k => fin false ((k + (unit - 1)) / unit * unit)
  | fin true k => fin true (k / unit * unit)
  | x => x

/-- Go `math.Mod(x, y)`: the exact remainder, with the sign of `x`. -/
def mod : Float64 → Float64 → Float64
  | nan, _ => nan
  | _, nan => nan
  | inf _, _ => nan
  | fin s a, inf _ => fin s a
  | fin s a, fin _ b => if b = 0 then nan else fin s (a % b)

/-- Integer part of a finite value (truncation toward zero). -/
def truncate : Float64 → Option Int
  | fin false k => some (Int.ofNat (k / unit))
  | fin true k => some (-Int.ofNat (k / unit))
  | _ => none

/-- Go `fmt` verb `%.2f`: the exact value rounded half-even to two decimals. -/
def format2 : Float64 → String
  | nan => "NaN"
  | inf false => "+Inf"
  | inf true => "-Inf"
  | fin s k =>
    (if s then "-" else "") ++ toString (roundHalfEven (k * 100) unit / 100) ++ "."
      ++ toString (roundHalfEven (k * 100) unit % 100 / 10)
      ++ toString (roundHalfEven (k * 100) unit % 10)

end Float64

/-! ## The Go toolchain -/

/-- What the Go toolchain fixes and the repository does not. -/
structure GoRuntime where
  /-- Membership in the range table `unicode.Letter`, consulted above Latin-1. -/
  letterTable : Char → Bool
  /-- Membership in the range table `unicode.Digit`, consulted above Latin-1. -/
  digitTable : Char → Bool
  /-- Result of converting to `int` a `float64` that is NaN or whose integer
  part is outside the range of `int` (implementation-dependent in Go). -/
  floatToIntOverflow : Float64 → Int

/-- Go conversion `int(x)` of a `float64`: truncation toward zero when the
integer part is in range. -/
def GoRuntime.intOfFloat (rt : GoRuntime) (x : Float64) : Int :=
  match x.truncate with
  | some t => if InInt64 t then t else wrap64 (rt.floatToIntOverflow x)
  | none => wrap64 (rt.floatToIntOverflow x)

/-- A runtime with the amd64 conversion (every out-of-range conversion gives the
least `int`) and range tables cut off above Latin-1; it is used only to
instantiate theorems at inputs that stay inside Latin-1. -/
def sampleRuntime : GoRuntime where
  letterTable := fun _ => false
  digitTable := fun _ => false
  floatToIntOverflow := fun _ => -(2 ^ 63)

/-! ## Go `unicode` and `strings` -/

/-- Latin-1 part of `unicode.IsLetter` (the letter bits of `unicode.properties`). -/
def latin1Letter (n : Nat) : Bool :=
  (0x41 ≤ n && n ≤ 0x5A) || (0x61 ≤ n && n ≤ 0x7A) || n == 0xAA || n == 0xB5 || n == 0xBA
    || (0xC0 ≤ n && n ≤ 0xD6) || (0xD8 ≤ n && n ≤ 0xF6) || (0xF8 ≤ n && n ≤ 0xFF)

/-- Go `unicode.IsLetter`. -/
def IsLetter (rt : GoRuntime) (r : Char) : Bool :=
  if r.toNat ≤ 0xFF then latin1Letter r.toNat else rt.letterTable r

/-- Go `unicode.IsDigit`. -/
def IsDigit (rt : GoRuntime) (r : Char) : Bool :=
  if r.toNat ≤ 0xFF then (0x30 ≤ r.toNat && r.toNat ≤ 0x39) else rt.digitTable r

/-- Go `unicode.IsSpace`: the Latin-1 switch, then the `White_Space` table. -/
def IsSpace (r : Char) : Bool :=
  if r.toNat ≤ 0xFF then
    r.toNat == 0x09 || r.toNat == 0x0A || r.toNat == 0x0B || r.toNat == 0x0C || r.toNat == 0x0D
      || r.toNat == 0x20 || r.toNat == 0x85 || r.toNat == 0xA0
  else
    r.toNat == 0x1680 || (0x2000 ≤ r.toNat && r.toNat ≤ 0x200A) || r.toNat == 0x2028
      || r.toNat == 0x2029 || r.toNat == 0x202F || r.toNat == 0x205F || r.toNat == 0x3000

/-- Go `strings.TrimSpace`: leading and trailing white space removed. -/
def TrimSpace (s : String) : String :=
  String.mk ((s.data.dropWhile IsSpace).reverse.dropWhile IsSpace).reverse

/-- Go `len` of a string: its length in bytes. -/
def len (s : String) : Nat := s.utf8ByteSize

/-- Go `%d` of an `int`. -/
def fmtInt (i : Int) : String := toString i

/-! ## The range tables of package `unicode`

The rules read `unicode.Letter` and `unicode.Digit` above Latin-1. The tables
below are those of Unicode 15.0.0, the version of package `unicode` since
Go 1.21 (the release that introduced `log/slog`, which the program imports).
Go stores a table as ranges with a stride; here each table is the list of its
maximal runs of consecutive code points, as pairs of the first and the last
code point of a run, in ascending order. -/

/-- Go `unicode.Is`, in the form of its linear search: the runs are tried in
order, and a code point below the start of a run is in no later run. -/
def Is (rangeTab : List (Nat × Nat)) (r : Char) : Bool :=
  match rangeTab with
  | [] => false
  | run :: rest =>
    if r.toNat < run.1 then false
    else if r.toNat ≤ run.2 then true
    else Is rest r

/-- Table `unicode.Letter`: the code points of general category L. -/
def Letter : List (Nat × Nat) :=
  [(0x0041, 0x005A), (0x0061, 0x007A), (0x00AA, 0x00AA), (0x00B5, 0x00B5), (0x00BA, 0x00BA),
   (0x00C0, 0x00D6), (0x00D8, 0x00F6), (0x00F8, 0x02C1), (0x02C6, 0x02D1), (0x02E0, 0x02E4),
   (0x02EC, 0x02EC), (0x02EE, 0x02EE), (0x0370, 0x0374), (0x0376, 0x0377), (0x037A, 0x037D),
   (0x037F, 0x037F), (0x0386, 0x0386), (0x0388, 0x038A), (0x038C, 0x038C), (0x038E, 0x03A1),
   (0x03A3, 0x03F5), (0x03F7, 0x0481), (0x048A, 0x052F), (0x0531, 0x0556), (0x0559, 0x0559),
   (0x0560, 0x0588), (0x05D0, 0x05EA), (0x05EF, 0x05F2), (0x0620, 0x064A), (0x066E, 0x066F),
   (0x0671, 0x06D3), (0x06D5, 0x06D5), (0x06E5, 0x06E6), (0x06EE, 0x06EF), (0x06FA, 0x06FC),
   (0x06FF, 0x06FF), (0x0710, 0x0710), (0x0712, 0x072F), (0x074D, 0x07A5), (0x07B1, 0x07B1),
   (0x07CA, 0x07EA), (0x07F4, 0x07F5), (0x07FA, 0x07FA), (0x0800, 0x0815), (0x081A, 0x081A),
   (0x0824, 0x0824), (0x0828, 0x0828), (0x0840, 0x0858), (0x0860, 0x086A), (0x0870, 0x0887),
   (0x0889, 0x088E), (0x08A0, 0x08C9), (0x0904, 0x0939), (0x093D, 0x093D), (0x0950, 0x0950),
   (0x0958, 0x0961), (0x0971, 0x0980), (0x0985, 0x098C), (0x098F, 0x0990), (0x0993, 0x09A8),
   (0x09AA, 0x09B0), (0x09B2, 0x09B2), (0x09B6, 0x09B9), (0x09BD, 0x09BD), (0x09CE, 0x09CE),
   (0x09DC, 0x09DD), (0x09DF, 0x09E1), (0x09F0, 0x09F1), (0x09FC, 0x09FC), (0x0A05, 0x0A0A),
   (0x0A0F, 0x0A10), (0x0A13, 0x0A28), (0x0A2A, 0x0A30), (0x0A32, 0x0A33), (0x0A35, 0x0A36),
   (0x0A38, 0x0A39), (0x0A59, 0x0A5C), (0x0A5E, 0x0A5E), (0x0A72, 0x0A74), (0x0A85, 0x0A8D),
   (0x0A8F, 0x0A91), (0x0A93, 0x0AA8), (0x0AAA, 0x0AB0), (0x0AB2, 0x0AB3), (0x0AB5, 0x0AB9),
   (0x0ABD, 0x0ABD), (0x0AD0, 0x0AD0), (0x0AE0, 0x0AE1), (0x0AF9, 0x0AF9), (0x0B05, 0x0B0C),
   (0x0B0F, 0x0B10), (0x0B13, 0x0B28), (0x0B2A, 0x0B30), (0x0B32, 0x0B33), (0x0B35, 0x0B39),
   (0x0B3D, 0x0B3D), (0x0B5C, 0x0B5D), (0x0B5F, 0x0B61), (0x0B71, 0x0B71), (0x0B83, 0x0B83),
   (0x0B85, 0x0B8A), (0x0B8E, 0x0B90), (0x0B92, 0x0B95), (0x0B99, 0x0B9A), (0x0B9C, 0x0B9C),
   (0x0B9E, 0x0B9F), (0x0BA3, 0x0BA4), (0x0BA8, 0x0BAA), (0x0BAE, 0x0BB9), (0x0BD0, 0x0BD0),
   (0x0C05, 0x0C0C), (0x0C0E, 0x0C10), (0x0C12, 0x0C28), (0x0C2A, 0x0C39), (0x0C3D, 0x0C3D),
   (0x0C58, 0x0C5A), (0x0C5D, 0x0C5D), (0x0C60, 0x0C61), (0x0C80, 0x0C80), (0x0C85, 0x0C8C),
   (0x0C8E, 0x0C90), (0x0C92, 0x0CA8), (0x0CAA, 0x0CB3), (0x0CB5, 0x0CB9), (0x0CBD, 0x0CBD),
   (0x0CDD, 0x0CDE), (0x0CE0, 0x0CE1), (0x0CF1, 0x0CF2), (0x0D04, 0x0D0C), (0x0D0E, 0x0D10),
   (0x0D12, 0x0D3A), (0x0D3D, 0x0D3D), (0x0D4E, 0x0D4E), (0x0D54, 0x0D56), (0x0D5F, 0x0D61),
   (0x0D7A, 0x0D7F), (0x0D85, 0x0D96), (0x0D9A, 0x0DB1), (0x0DB3, 0x0DBB), (0x0DBD, 0x0DBD),
   (0x0DC0, 0x0DC6), (0x0E01, 0x0E30), (0x0E32, 0x0E33), (0x0E40, 0x0E46), (0x0E81, 0x0E82),
   (0x0E84, 0x0E84), (0x0E86, 0x0E8A), (0x0E8C, 0x0EA3), (0x0EA5, 0x0EA5), (0x0EA7, 0x0EB0),
   (0x0EB2, 0x0EB3), (0x0EBD, 0x0EBD), (0x0EC0, 0x0EC4), (0x0EC6, 0x0EC6), (0x0EDC, 0x0EDF),
   (0x0F00, 0x0F00), (0x0F40, 0x0F47), (0x0F49, 0x0F6C), (0x0F88, 0x0F8C), (0x1000, 0x102A),
   (0x103F, 0x103F), (0x1050, 0x1055), (0x105A, 0x105D), (0x1061, 0x1061), (0x1065, 0x1066),
   (0x106E, 0x1070), (0x1075, 0x1081), (0x108E, 0x108E), (0x10A0, 0x10C5), (0x10C7, 0x10C7),
   (0x10CD, 0x10CD), (0x10D0, 0x10FA), (0x10FC, 0x1248), (0x124A, 0x124D), (0x1250, 0x1256),
   (0x1258, 0x1258), (0x125A, 0x125D), (0x1260, 0x1288), (0x128A, 0x128D), (0x1290, 0x12B0),
   (0x12B2, 0x12B5), (0x12B8, 0x12BE), (0x12C0, 0x12C0), (0x12C2, 0x12C5), (0x12C8, 0x12D6),
   (0x12D8, 0x1310), (0x1312, 0x1315), (0x1318, 0x135A), (0x1380, 0x138F), (0x13A0, 0x13F5),
   (0x13F8, 0x13FD), (0x1401, 0x166C), (0x166F, 0x167F), (0x1681, 0x169A), (0x16A0, 0x16EA),
   (0x16F1, 0x16F8), (0x1700, 0x1711), (0x171F, 0x1731), (0x1740, 0x1751), (0x1760, 0x176C),
   (0x176E, 0x1770), (0x1780, 0x17B3), (0x17D7, 0x17D7), (0x17DC, 0x17DC), (0x1820, 0x1878),
   (0x1880, 0x1884), (0x1887, 0x18A8), (0x18AA, 0x18AA), (0x18B0, 0x18F5), (0x1900, 0x191E),
   (0x1950, 0x196D), (0x1970, 0x1974), (0x1980, 0x19AB), (0x19B0, 0x19C9), (0x1A00, 0x1A16),
   (0x1A20, 0x1A54), (0x1AA7, 0x1AA7), (0x1B05, 0x1B33), (0x1B45, 0x1B4C), (0x1B83, 0x1BA0),
   (0x1BAE, 0x1BAF), (0x1BBA, 0x1BE5), (0x1C00, 0x1C23), (0x1C4D, 0x1C4F), (0x1C5A, 0x1C7D),
   (0x1C80, 0x1C88), (0x1C90, 0x1CBA), (0x1CBD, 0x1CBF), (0x1CE9, 0x1CEC), (0x1CEE, 0x1CF3),
   (0x1CF5, 0x1CF6), (0x1CFA, 0x1CFA), (0x1D00, 0x1DBF), (0x1E00, 0x1F15), (0x1F18, 0x1F1D),
   (0x1F20, 0x1F45), (0x1F48, 0x1F4D), (0x1F50, 0x1F57), (0x1F59, 0x1F59), (0x1F5B, 0x1F5B),
   (0x1F5D, 0x1F5D), (0x1F5F, 0x1F7D), (0x1F80, 0x1FB4), (0x1FB6, 0x1FBC), (0x1FBE, 0x1FBE),
   (0x1FC2, 0x1FC4), (0x1FC6, 0x1FCC), (0x1FD0, 0x1FD3), (0x1FD6, 0x1FDB), (0x1FE0, 0x1FEC),
   (0x1FF2, 0x1FF4), (0x1FF6, 0x1FFC), (0x2071, 0x2071), (0x207F, 0x207F), (0x2090, 0x209C),
   (0x2102, 0x2102), (0x2107, 0x2107), (0x210A, 0x2113), (0x2115, 0x2115), (0x2119, 0x211D),
   (0x2124, 0x2124), (0x2126, 0x2126), (0x2128, 0x2128), (0x212A, 0x212D), (0x212F, 0x2139),
   (0x213C, 0x213F), (0x2145, 0x2149), (0x214E, 0x214E), (0x2183, 0x2184), (0x2C00, 0x2CE4),
   (0x2CEB, 0x2CEE), (0x2CF2, 0x2CF3), (0x2D00, 0x2D25), (0x2D27, 0x2D27), (0x2D2D, 0x2D2D),
   (0x2D30, 0x2D67), (0x2D6F, 0x2D6F), (0x2D80, 0x2D96), (0x2DA0, 0x2DA6), (0x2DA8, 0x2DAE),
   (0x2DB0, 0x2DB6), (0x2DB8, 0x2DBE), (0x2DC0, 0x2DC6), (0x2DC8, 0x2DCE), (0x2DD0, 0x2DD6),
   (0x2DD8, 0x2DDE), (0x2E2F, 0x2E2F), (0x3005, 0x3006), (0x3031, 0x3035), (0x303B, 0x303C),
   (0x3041, 0x3096), (0x309D, 0x309F), (0x30A1, 0x30FA), (0x30FC, 0x30FF), (0x3105, 0x312F),
   (0x3131, 0x318E), (0x31A0, 0x31BF), (0x31F0, 0x31FF), (0x3400, 0x4DBF), (0x4E00, 0xA48C),
   (0xA4D0, 0xA4FD), (0xA500, 0xA60C), (0xA610, 0xA61F), (0xA62A, 0xA62B), (0xA640, 0xA66E),
   (0xA67F, 0xA69D), (0xA6A0, 0xA6E5), (0xA717, 0xA71F), (0xA722, 0xA788), (0xA78B, 0xA7CA),
   (0xA7D0, 0xA7D1), (0xA7D3, 0xA7D3), (0xA7D5, 0xA7D9), (0xA7F2, 0xA801), (0xA803, 0xA805),
   (0xA807, 0xA80A), (0xA80C, 0xA822), (0xA840, 0xA873), (0xA882, 0xA8B3), (0xA8F2, 0xA8F7),
   (0xA8FB, 0xA8FB), (0xA8FD, 0xA8FE), (0xA90A, 0xA925), (0xA930, 0xA946), (0xA960, 0xA97C),
   (0xA984, 0xA9B2), (0xA9CF, 0xA9CF), (0xA9E0, 0xA9E4), (0xA9E6, 0xA9EF), (0xA9FA, 0xA9FE),
   (0xAA00, 0xAA28), (0xAA40, 0xAA42), (0xAA44, 0xAA4B), (0xAA60, 0xAA76), (0xAA7A, 0xAA7A),
   (0xAA7E, 0xAAAF), (0xAAB1, 0xAAB1), (0xAAB5, 0xAAB6), (0xAAB9, 0xAABD), (0xAAC0, 0xAAC0),
   (0xAAC2, 0xAAC2), (0xAADB, 0xAADD), (0xAAE0, 0xAAEA), (0xAAF2, 0xAAF4), (0xAB01, 0xAB06),
   (0xAB09, 0xAB0E), (0xAB11, 0xAB16), (0xAB20, 0xAB26), (0xAB28, 0xAB2E), (0xAB30, 0xAB5A),
   (0xAB5C, 0xAB69), (0xAB70, 0xABE2), (0xAC00, 0xD7A3), (0xD7B0, 0xD7C6), (0xD7CB, 0xD7FB),
   (0xF900, 0xFA6D), (0xFA70, 0xFAD9), (0xFB00, 0xFB06), (0xFB13, 0xFB17), (0xFB1D, 0xFB1D),
   (0xFB1F, 0xFB28), (0xFB2A, 0xFB36), (0xFB38, 0xFB3C), (0xFB3E, 0xFB3E), (0xFB40, 0xFB41),
   (0xFB43, 0xFB44), (0xFB46, 0xFBB1), (0xFBD3, 0xFD3D), (0xFD50, 0xFD8F), (0xFD92, 0xFDC7),
   (0xFDF0, 0xFDFB), (0xFE70, 0xFE74), (0xFE76, 0xFEFC), (0xFF21, 0xFF3A), (0xFF41, 0xFF5A),
   (0xFF66, 0xFFBE), (0xFFC2, 0xFFC7), (0xFFCA, 0xFFCF), (0xFFD2, 0xFFD7), (0xFFDA, 0xFFDC),
   (0x10000, 0x1000B), (0x1000D, 0x10026), (0x10028, 0x1003A), (0x1003C, 0x1003D),
   (0x1003F, 0x1004D), (0x10050, 0x1005D), (0x10080, 0x100FA), (0x10280, 0x1029C),
   (0x102A0, 0x102D0), (0x10300, 0x1031F), (0x1032D, 0x10340), (0x10342, 0x10349),
   (0x10350, 0x10375), (0x10380, 0x1039D), (0x103A0, 0x103C3), (0x103C8, 0x103CF),
   (0x10400, 0x1049D), (0x104B0, 0x104D3), (0x104D8, 0x104FB), (0x10500, 0x10527),
   (0x10530, 0x10563), (0x10570, 0x1057A), (0x1057C, 0x1058A), (0x1058C, 0x10592),
   (0x10594, 0x10595), (0x10597, 0x105A1), (0x105A3, 0x105B1), (0x105B3, 0x105B9),
   (0x105BB, 0x105BC), (0x10600, 0x10736), (0x10740, 0x10755), (0x10760, 0x10767),
   (0x10780, 0x10785), (0x10787, 0x107B0), (0x107B2, 0x107BA), (0x10800, 0x10805),
   (0x10808, 0x10808), (0x1080A, 0x10835), (0x10837, 0x10838), (0x1083C, 0x1083C),
   (0x1083F, 0x10855), (0x10860, 0x10876), (0x10880, 0x1089E), (0x108E0, 0x108F2),
   (0x108F4, 0x108F5), (0x10900, 0x10915), (0x10920, 0x10939), (0x10980, 0x109B7),
   (0x109BE, 0x109BF), (0x10A00, 0x10A00), (0x10A10, 0x10A13), (0x10A15, 0x10A17),
   (0x10A19, 0x10A35), (0x10A60, 0x10A7C), (0x10A80, 0x10A9C), (0x10AC0, 0x10AC7),
   (0x10AC9, 0x10AE4), (0x10B00, 0x10B35), (0x10B40, 0x10B55), (0x10B60, 0x10B72),
   (0x10B80, 0x10B91), (0x10C00, 0x10C48), (0x10C80, 0x10CB2), (0x10CC0, 0x10CF2),
   (0x10D00, 0x10D23), (0x10E80, 0x10EA9), (0x10EB0, 0x10EB1), (0x10F00, 0x10F1C),
   (0x10F27, 0x10F27), (0x10F30, 0x10F45), (0x10F70, 0x10F81), (0x10FB0, 0x10FC4),
   (0x10FE0, 0x10FF6), (0x11003, 0x11037), (0x11071, 0x11072), (0x11075, 0x11075),
   (0x11083, 0x110AF), (0x110D0, 0x110E8), (0x11103, 0x11126), (0x11144, 0x11144),
   (0x11147, 0x11147), (0x11150, 0x11172), (0x11176, 0x11176), (0x11183, 0x111B2),
   (0x111C1, 0x111C4), (0x111DA, 0x111DA), (0x111DC, 0x111DC), (0x11200, 0x11211),
   (0x11213, 0x1122B), (0x1123F, 0x11240), (0x11280, 0x11286), (0x11288, 0x11288),
   (0x1128A, 0x1128D), (0x1128F, 0x1129D), (0x1129F, 0x112A8), (0x112B0, 0x112DE),
   (0x11305, 0x1130C), (0x1130F, 0x11310), (0x11313, 0x11328), (0x1132A, 0x11330),
   (0x11332, 0x11333), (0x11335, 0x11339), (0x1133D, 0x1133D), (0x11350, 0x11350),
   (0x1135D, 0x11361), (0x11400, 0x11434), (0x11447, 0x1144A), (0x1145F, 0x11461),
   (0x11480, 0x114AF), (0x114C4, 0x114C5), (0x114C7, 0x114C7), (0x11580, 0x115AE),
   (0x115D8, 0x115DB), (0x11600, 0x1162F), (0x11644, 0x11644), (0x11680, 0x116AA),
   (0x116B8, 0x116B8), (0x11700, 0x1171A), (0x11740, 0x11746), (0x11800, 0x1182B),
   (0x118A0, 0x118DF), (0x118FF, 0x11906), (0x11909, 0x11909), (0x1190C, 0x11913),
   (0x11915, 0x11916), (0x11918, 0x1192F), (0x1193F, 0x1193F), (0x11941, 0x11941),
   (0x119A0, 0x119A7), (0x119AA, 0x119D0), (0x119E1, 0x119E1), (0x119E3, 0x119E3),
   (0x11A00, 0x11A00), (0x11A0B, 0x11A32), (0x11A3A, 0x11A3A), (0x11A50, 0x11A50),
   (0x11A5C, 0x11A89), (0x11A9D, 0x11A9D), (0x11AB0, 0x11AF8), (0x11C00, 0x11C08),
   (0x11C0A, 0x11C2E), (0x11C40, 0x11C40), (0x11C72, 0x11C8F), (0x11D00, 0x11D06),
   (0x11D08, 0x11D09), (0x11D0B, 0x11D30), (0x11D46, 0x11D46), (0x11D60, 0x11D65),
   (0x11D67, 0x11D68), (0x11D6A, 0x11D89), (0x11D98, 0x11D98), (0x11EE0, 0x11EF2),
   (0x11F02, 0x11F02), (0x11F04, 0x11F10), (0x11F12, 0x11F33), (0x11FB0, 0x11FB0),
   (0x12000, 0x12399), (0x12480, 0x12543), (0x12F90, 0x12FF0), (0x13000, 0x1342F),
   (0x13441, 0x13446), (0x14400, 0x14646), (0x16800, 0x16A38), (0x16A40, 0x16A5E),
   (0x16A70, 0x16ABE), (0x16AD0, 0x16AED), (0x16B00, 0x16B2F), (0x16B40, 0x16B43),
   (0x16B63, 0x16B77), (0x16B7D, 0x16B8F), (0x16E40, 0x16E7F), (0x16F00, 0x16F4A),
   (0x16F50, 0x16F50), (0x16F93, 0x16F9F), (0x16FE0, 0x16FE1), (0x16FE3, 0x16FE3),
   (0x17000, 0x187F7), (0x18800, 0x18CD5), (0x18D00, 0x18D08), (0x1AFF0, 0x1AFF3),
   (0x1AFF5, 0x1AFFB), (0x1AFFD, 0x1AFFE), (0x1B000, 0x1B122), (0x1B132, 0x1B132),
   (0x1B150, 0x1B152), (0x1B155, 0x1B155), (0x1B164, 0x1B167), (0x1B170, 0x1B2FB),
   (0x1BC00, 0x1BC6A), (0x1BC70, 0x1BC7C), (0x1BC80, 0x1BC88), (0x1BC90, 0x1BC99),
   (0x1D400, 0x1D454), (0x1D456, 0x1D49C), (0x1D49E, 0x1D49F), (0x1D4A2, 0x1D4A2),
   (0x1D4A5, 0x1D4A6), (0x1D4A9, 0x1D4AC), (0x1D4AE, 0x1D4B9), (0x1D4BB, 0x1D4BB),
   (0x1D4BD, 0x1D4C3), (0x1D4C5, 0x1D505), (0x1D507, 0x1D50A), (0x1D50D, 0x1D514),
   (0x1D516, 0x1D51C), (0x1D51E, 0x1D539), (0x1D53B, 0x1D53E), (0x1D540, 0x1D544),
   (0x1D546, 0x1D546), (0x1D54A, 0x1D550), (0x1D552, 0x1D6A5), (0x1D6A8, 0x1D6C0),
   (0x1D6C2, 0x1D6DA), (0x1D6DC, 0x1D6FA), (0x1D6FC, 0x1D714), (0x1D716, 0x1D734),
   (0x1D736, 0x1D74E), (0x1D750, 0x1D76E), (0x1D770, 0x1D788), (0x1D78A, 0x1D7A8),
   (0x1D7AA, 0x1D7C2), (0x1D7C4, 0x1D7CB), (0x1DF00, 0x1DF1E), (0x1DF25, 0x1DF2A),
   (0x1E030, 0x1E06D), (0x1E100, 0x1E12C), (0x1E137, 0x1E13D), (0x1E14E, 0x1E14E),
   (0x1E290, 0x1E2AD), (0x1E2C0, 0x1E2EB), (0x1E4D0, 0x1E4EB), (0x1E7E0, 0x1E7E6),
   (0x1E7E8, 0x1E7EB), (0x1E7ED, 0x1E7EE), (0x1E7F0, 0x1E7FE), (0x1E800, 0x1E8C4),
   (0x1E900, 0x1E943), (0x1E94B, 0x1E94B), (0x1EE00, 0x1EE03), (0x1EE05, 0x1EE1F),
   (0x1EE21, 0x1EE22), (0x1EE24, 0x1EE24), (0x1EE27, 0x1EE27), (0x1EE29, 0x1EE32),
   (0x1EE34, 0x1EE37), (0x1EE39, 0x1EE39), (0x1EE3B, 0x1EE3B), (0x1EE42, 0x1EE42),
   (0x1EE47, 0x1EE47), (0x1EE49, 0x1EE49), (0x1EE4B, 0x1EE4B), (0x1EE4D, 0x1EE4F),
   (0x1EE51, 0x1EE52), (0x1EE54, 0x1EE54), (0x1EE57, 0x1EE57), (0x1EE59, 0x1EE59),
   (0x1EE5B, 0x1EE5B), (0x1EE5D, 0x1EE5D), (0x1EE5F, 0x1EE5F), (0x1EE61, 0x1EE62),
   (0x1EE64, 0x1EE64), (0x1EE67, 0x1EE6A), (0x1EE6C, 0x1EE72), (0x1EE74, 0x1EE77),
   (0x1EE79, 0x1EE7C), (0x1EE7E, 0x1EE7E), (0x1EE80, 0x1EE89), (0x1EE8B, 0x1EE9B),
   (0x1EEA1, 0x1EEA3), (0x1EEA5, 0x1EEA9), (0x1EEAB, 0x1EEBB), (0x20000, 0x2A6DF),
   (0x2A700, 0x2B739), (0x2B740, 0x2B81D), (0x2B820, 0x2CEA1), (0x2CEB0, 0x2EBE0),
   (0x2F800, 0x2FA1D), (0x30000, 0x3134A), (0x31350, 0x323AF)]

/-- Table `unicode.Digit`: the code points of general category Nd. -/
def Digit : List (Nat × Nat) :=
  [(0x0030, 0x0039), (0x0660, 0x0669), (0x06F0, 0x06F9), (0x07C0, 0x07C9), (0x0966, 0x096F),
   (0x09E6, 0x09EF), (0x0A66, 0x0A6F), (0x0AE6, 0x0AEF), (0x0B66, 0x0B6F), (0x0BE6, 0x0BEF),
   (0x0C66, 0x0C6F), (0x0CE6, 0x0CEF), (0x0D66, 0x0D6F), (0x0DE6, 0x0DEF), (0x0E50, 0x0E59),
   (0x0ED0, 0x0ED9), (0x0F20, 0x0F29), (0x1040, 0x1049), (0x1090, 0x1099), (0x17E0, 0x17E9),
   (0x1810, 0x1819), (0x1946, 0x194F), (0x19D0, 0x19D9), (0x1A80, 0x1A89), (0x1A90, 0x1A99),
   (0x1B50, 0x1B59), (0x1BB0, 0x1BB9), (0x1C40, 0x1C49), (0x1C50, 0x1C59), (0xA620, 0xA629),
   (0xA8D0, 0xA8D9), (0xA900, 0xA909), (0xA9D0, 0xA9D9), (0xA9F0, 0xA9F9), (0xAA50, 0xAA59),
   (0xABF0, 0xABF9), (0xFF10, 0xFF19), (0x104A0, 0x104A9), (0x10D30, 0x10D39), (0x11066, 0x1106F),
   (0x110F0, 0x110F9), (0x11136, 0x1113F), (0x111D0, 0x111D9), (0x112F0, 0x112F9),
   (0x11450, 0x11459), (0x114D0, 0x114D9), (0x11650, 0x11659), (0x116C0, 0x116C9),
   (0x11730, 0x11739), (0x118E0, 0x118E9), (0x11950, 0x11959), (0x11C50, 0x11C59),
   (0x11D50, 0x11D59), (0x11DA0, 0x11DA9), (0x11F50, 0x11F59), (0x16A60, 0x16A69),
   (0x16AC0, 0x16AC9), (0x16B50, 0x16B59), (0x1D7CE, 0x1D7FF), (0x1E140, 0x1E149),
   (0x1E2F0, 0x1E2F9), (0x1E4F0, 0x1E4F9), (0x1E950, 0x1E959), (0x1FBF0, 0x1FBF9)]

/-- Table `unicode.Punct`: the code points of general category P. -/
def Punct : List (Nat × Nat) :=
  [(0x0021, 0x0023), (0x0025, 0x002A), (0x002C, 0x002F), (0x003A, 0x003B), (0x003F, 0x0040),
   (0x005B, 0x005D), (0x005F, 0x005F), (0x007B, 0x007B), (0x007D, 0x007D), (0x00A1, 0x00A1),
   (0x00A7, 0x00A7), (0x00AB, 0x00AB), (0x00B6, 0x00B7), (0x00BB, 0x00BB), (0x00BF, 0x00BF),
   (0x037E, 0x037E), (0x0387, 0x0387), (0x055A, 0x055F), (0x0589, 0x058A), (0x05BE, 0x05BE),
   (0x05C0, 0x05C0), (0x05C3, 0x05C3), (0x05C6, 0x05C6), (0x05F3, 0x05F4), (0x0609, 0x060A),
   (0x060C, 0x060D), (0x061B, 0x061B), (0x061D, 0x061F), (0x066A, 0x066D), (0x06D4, 0x06D4),
   (0x0700, 0x070D), (0x07F7, 0x07F9), (0x0830, 0x083E), (0x085E, 0x085E), (0x0964, 0x0965),
   (0x0970, 0x0970), (0x09FD, 0x09FD), (0x0A76, 0x0A76), (0x0AF0, 0x0AF0), (0x0C77, 0x0C77),
   (0x0C84, 0x0C84), (0x0DF4, 0x0DF4), (0x0E4F, 0x0E4F), (0x0E5A, 0x0E5B), (0x0F04, 0x0F12),
   (0x0F14, 0x0F14), (0x0F3A, 0x0F3D), (0x0F85, 0x0F85), (0x0FD0, 0x0FD4), (0x0FD9, 0x0FDA),
   (0x104A, 0x104F), (0x10FB, 0x10FB), (0x1360, 0x1368), (0x1400, 0x1400), (0x166E, 0x166E),
   (0x169B, 0x169C), (0x16EB, 0x16ED), (0x1735, 0x1736), (0x17D4, 0x17D6), (0x17D8, 0x17DA),
   (0x1800, 0x180A), (0x1944, 0x1945), (0x1A1E, 0x1A1F), (0x1AA0, 0x1AA6), (0x1AA8, 0x1AAD),
   (0x1B5A, 0x1B60), (0x1B7D, 0x1B7E), (0x1BFC, 0x1BFF), (0x1C3B, 0x1C3F), (0x1C7E, 0x1C7F),
   (0x1CC0, 0x1CC7), (0x1CD3, 0x1CD3), (0x2010, 0x2027), (0x2030, 0x2043), (0x2045, 0x2051),
   (0x2053, 0x205E), (0x207D, 0x207E), (0x208D, 0x208E), (0x2308, 0x230B), (0x2329, 0x232A),
   (0x2768, 0x2775), (0x27C5, 0x27C6), (0x27E6, 0x27EF), (0x2983, 0x2998), (0x29D8, 0x29DB),
   (0x29FC, 0x29FD), (0x2CF9, 0x2CFC), (0x2CFE, 0x2CFF), (0x2D70, 0x2D70), (0x2E00, 0x2E2E),
   (0x2E30, 0x2E4F), (0x2E52, 0x2E5D), (0x3001, 0x3003), (0x3008, 0x3011), (0x3014, 0x301F),
   (0x3030, 0x3030), (0x303D, 0x303D), (0x30A0, 0x30A0), (0x30FB, 0x30FB), (0xA4FE, 0xA4FF),
   (0xA60D, 0xA60F), (0xA673, 0xA673), (0xA67E, 0xA67E), (0xA6F2, 0xA6F7), (0xA874, 0xA877),
   (0xA8CE, 0xA8CF), (0xA8F8, 0xA8FA), (0xA8FC, 0xA8FC), (0xA92E, 0xA92F), (0xA95F, 0xA95F),
   (0xA9C1, 0xA9CD), (0xA9DE, 0xA9DF), (0xAA5C, 0xAA5F), (0xAADE, 0xAADF), (0xAAF0, 0xAAF1),
   (0xABEB, 0xABEB), (0xFD3E, 0xFD3F), (0xFE10, 0xFE19), (0xFE30, 0xFE52), (0xFE54, 0xFE61),
   (0xFE63, 0xFE63), (0xFE68, 0xFE68), (0xFE6A, 0xFE6B), (0xFF01, 0xFF03), (0xFF05, 0xFF0A),
   (0xFF0C, 0xFF0F), (0xFF1A, 0xFF1B), (0xFF1F, 0xFF20), (0xFF3B, 0xFF3D), (0xFF3F, 0xFF3F),
   (0xFF5B, 0xFF5B), (0xFF5D, 0xFF5D), (0xFF5F, 0xFF65), (0x10100, 0x10102), (0x1039F, 0x1039F),
   (0x103D0, 0x103D0), (0x1056F, 0x1056F), (0x10857, 0x10857), (0x1091F, 0x1091F),
   (0x1093F, 0x1093F), (0x10A50, 0x10A58), (0x10A7F, 0x10A7F), (0x10AF0, 0x10AF6),
   (0x10B39, 0x10B3F), (0x10B99, 0x10B9C), (0x10EAD, 0x10EAD), (0x10F55, 0x10F59),
   (0x10F86, 0x10F89), (0x11047, 0x1104D), (0x110BB, 0x110BC), (0x110BE, 0x110C1),
   (0x11140, 0x11143), (0x11174, 0x11175), (0x111C5, 0x111C8), (0x111CD, 0x111CD),
   (0x111DB, 0x111DB), (0x111DD, 0x111DF), (0x11238, 0x1123D), (0x112A9, 0x112A9),
   (0x1144B, 0x1144F), (0x1145A, 0x1145B), (0x1145D, 0x1145D), (0x114C6, 0x114C6),
   (0x115C1, 0x115D7), (0x11641, 0x11643), (0x11660, 0x1166C), (0x116B9, 0x116B9),
   (0x1173C, 0x1173E), (0x1183B, 0x1183B), (0x11944, 0x11946), (0x119E2, 0x119E2),
   (0x11A3F, 0x11A46), (0x11A9A, 0x11A9C), (0x11A9E, 0x11AA2), (0x11B00, 0x11B09),
   (0x11C41, 0x11C45), (0x11C70, 0x11C71), (0x11EF7, 0x11EF8), (0x11F43, 0x11F4F),
   (0x11FFF, 0x11FFF), (0x12470, 0x12474), (0x12FF1, 0x12FF2), (0x16A6E, 0x16A6F),
   (0x16AF5, 0x16AF5), (0x16B37, 0x16B3B), (0x16B44, 0x16B44), (0x16E97, 0x16E9A),
   (0x16FE2, 0x16FE2), (0x1BC9F, 0x1BC9F), (0x1DA87, 0x1DA8B), (0x1E95E, 0x1E95F)]

/-- Table `unicode.Symbol`: the code points of general category S. -/
def Symbol : List (Nat × Nat) :=
  [(0x0024, 0x0024), (0x002B, 0x002B), (0x003C, 0x003E), (0x005E, 0x005E), (0x0060, 0x0060),
   (0x007C, 0x007C), (0x007E, 0x007E), (0x00A2, 0x00A6), (0x00A8, 0x00A9), (0x00AC, 0x00AC),
   (0x00AE, 0x00B1), (0x00B4, 0x00B4), (0x00B8, 0x00B8), (0x00D7, 0x00D7), (0x00F7, 0x00F7),
   (0x02C2, 0x02C5), (0x02D2, 0x02DF), (0x02E5, 0x02EB), (0x02ED, 0x02ED), (0x02EF, 0x02FF),
   (0x0375, 0x0375), (0x0384, 0x0385), (0x03F6, 0x03F6), (0x0482, 0x0482), (0x058D, 0x058F),
   (0x0606, 0x0608), (0x060B, 0x060B), (0x060E, 0x060F), (0x06DE, 0x06DE), (0x06E9, 0x06E9),
   (0x06FD, 0x06FE), (0x07F6, 0x07F6), (0x07FE, 0x07FF), (0x0888, 0x0888), (0x09F2, 0x09F3),
   (0x09FA, 0x09FB), (0x0AF1, 0x0AF1), (0x0B70, 0x0B70), (0x0BF3, 0x0BFA), (0x0C7F, 0x0C7F),
   (0x0D4F, 0x0D4F), (0x0D79, 0x0D79), (0x0E3F, 0x0E3F), (0x0F01, 0x0F03), (0x0F13, 0x0F13),
   (0x0F15, 0x0F17), (0x0F1A, 0x0F1F), (0x0F34, 0x0F34), (0x0F36, 0x0F36), (0x0F38, 0x0F38),
   (0x0FBE, 0x0FC5), (0x0FC7, 0x0FCC), (0x0FCE, 0x0FCF), (0x0FD5, 0x0FD8), (0x109E, 0x109F),
   (0x1390, 0x1399), (0x166D, 0x166D), (0x17DB, 0x17DB), (0x1940, 0x1940), (0x19DE, 0x19FF),
   (0x1B61, 0x1B6A), (0x1B74, 0x1B7C), (0x1FBD, 0x1FBD), (0x1FBF, 0x1FC1), (0x1FCD, 0x1FCF),
   (0x1FDD, 0x1FDF), (0x1FED, 0x1FEF), (0x1FFD, 0x1FFE), (0x2044, 0x2044), (0x2052, 0x2052),
   (0x207A, 0x207C), (0x208A, 0x208C), (0x20A0, 0x20C0), (0x2100, 0x2101), (0x2103, 0x2106),
   (0x2108, 0x2109), (0x2114, 0x2114), (0x2116, 0x2118), (0x211E, 0x2123), (0x2125, 0x2125),
   (0x2127, 0x2127), (0x2129, 0x2129), (0x212E, 0x212E), (0x213A, 0x213B), (0x2140, 0x2144),
   (0x214A, 0x214D), (0x214F, 0x214F), (0x218A, 0x218B), (0x2190, 0x2307), (0x230C, 0x2328),
   (0x232B, 0x2426), (0x2440, 0x244A), (0x249C, 0x24E9), (0x2500, 0x2767), (0x2794, 0x27C4),
   (0x27C7, 0x27E5), (0x27F0, 0x2982), (0x2999, 0x29D7), (0x29DC, 0x29FB), (0x29FE, 0x2B73),
   (0x2B76, 0x2B95), (0x2B97, 0x2BFF), (0x2CE5, 0x2CEA), (0x2E50, 0x2E51), (0x2E80, 0x2E99),
   (0x2E9B, 0x2EF3), (0x2F00, 0x2FD5), (0x2FF0, 0x2FFB), (0x3004, 0x3004), (0x3012, 0x3013),
   (0x3020, 0x3020), (0x3036, 0x3037), (0x303E, 0x303F), (0x309B, 0x309C), (0x3190, 0x3191),
   (0x3196, 0x319F), (0x31C0, 0x31E3), (0x3200, 0x321E), (0x322A, 0x3247), (0x3250, 0x3250),
   (0x3260, 0x327F), (0x328A, 0x32B0), (0x32C0, 0x33FF), (0x4DC0, 0x4DFF), (0xA490, 0xA4C6),
   (0xA700, 0xA716), (0xA720, 0xA721), (0xA789, 0xA78A), (0xA828, 0xA82B), (0xA836, 0xA839),
   (0xAA77, 0xAA79), (0xAB5B, 0xAB5B), (0xAB6A, 0xAB6B), (0xFB29, 0xFB29), (0xFBB2, 0xFBC2),
   (0xFD40, 0xFD4F), (0xFDCF, 0xFDCF), (0xFDFC, 0xFDFF), (0xFE62, 0xFE62), (0xFE64, 0xFE66),
   (0xFE69, 0xFE69), (0xFF04, 0xFF04), (0xFF0B, 0xFF0B), (0xFF1C, 0xFF1E), (0xFF3E, 0xFF3E),
   (0xFF40, 0xFF40), (0xFF5C, 0xFF5C), (0xFF5E, 0xFF5E), (0xFFE0, 0xFFE6), (0xFFE8, 0xFFEE),
   (0xFFFC, 0xFFFD), (0x10137, 0x1013F), (0x10179, 0x10189), (0x1018C, 0x1018E),
   (0x10190, 0x1019C), (0x101A0, 0x101A0), (0x101D0, 0x101FC), (0x10877, 0x10878),
   (0x10AC8, 0x10AC8), (0x1173F, 0x1173F), (0x11FD5, 0x11FF1), (0x16B3C, 0x16B3F),
   (0x16B45, 0x16B45), (0x1BC9C, 0x1BC9C), (0x1CF50, 0x1CFC3), (0x1D000, 0x1D0F5),
   (0x1D100, 0x1D126), (0x1D129, 0x1D164), (0x1D16A, 0x1D16C), (0x1D183, 0x1D184),
   (0x1D18C, 0x1D1A9), (0x1D1AE, 0x1D1EA), (0x1D200, 0x1D241), (0x1D245, 0x1D245),
   (0x1D300, 0x1D356), (0x1D6C1, 0x1D6C1), (0x1D6DB, 0x1D6DB), (0x1D6FB, 0x1D6FB),
   (0x1D715, 0x1D715), (0x1D735, 0x1D735), (0x1D74F, 0x1D74F), (0x1D76F, 0x1D76F),
   (0x1D789, 0x1D789), (0x1D7A9, 0x1D7A9), (0x1D7C3, 0x1D7C3), (0x1D800, 0x1D9FF),
   (0x1DA37, 0x1DA3A), (0x1DA6D, 0x1DA74), (0x1DA76, 0x1DA83), (0x1DA85, 0x1DA86),
   (0x1E14F, 0x1E14F), (0x1E2FF, 0x1E2FF), (0x1ECAC, 0x1ECAC), (0x1ECB0, 0x1ECB0),
   (0x1ED2E, 0x1ED2E), (0x1EEF0, 0x1EEF1), (0x1F000, 0x1F02B), (0x1F030, 0x1F093),
   (0x1F0A0, 0x1F0AE), (0x1F0B1, 0x1F0BF), (0x1F0C1, 0x1F0CF), (0x1F0D1, 0x1F0F5),
   (0x1F10D, 0x1F1AD), (0x1F1E6, 0x1F202), (0x1F210, 0x1F23B), (0x1F240, 0x1F248),
   (0x1F250, 0x1F251), (0x1F260, 0x1F265), (0x1F300, 0x1F6D7), (0x1F6DC, 0x1F6EC),
   (0x1F6F0, 0x1F6FC), (0x1F700, 0x1F776), (0x1F77B, 0x1F7D9), (0x1F7E0, 0x1F7EB),
   (0x1F7F0, 0x1F7F0), (0x1F800, 0x1F80B), (0x1F810, 0x1F847), (0x1F850, 0x1F859),
   (0x1F860, 0x1F887), (0x1F890, 0x1F8AD), (0x1F8B0, 0x1F8B1), (0x1F900, 0x1FA53),
   (0x1FA60, 0x1FA6D), (0x1FA70, 0x1FA7C), (0x1FA80, 0x1FA88), (0x1FA90, 0x1FABD),
   (0x1FABF, 0x1FAC5), (0x1FACE, 0x1FADB), (0x1FAE0, 0x1FAE8), (0x1FAF0, 0x1FAF8),
   (0x1FB00, 0x1FB92), (0x1FB94, 0x1FBCA)]

/-- Table `unicode.White_Space`: the code points with the property White_Space. -/
def White_Space : List (Nat × Nat) :=
  [(0x0009, 0x000D), (0x0020, 0x0020), (0x0085, 0x0085), (0x00A0, 0x00A0), (0x1680, 0x1680),
   (0x2000, 0x200A), (0x2028, 0x2029), (0x202F, 0x202F), (0x205F, 0x205F), (0x3000, 0x3000)]

/-- Latin-1 part of `unicode.IsPunct` (the bit `pP` of `unicode.properties`). -/
def latin1Punct (n : Nat) : Bool :=
  (0x21 ≤ n && n ≤ 0x23) || (0x25 ≤ n && n ≤ 0x2A) || (0x2C ≤ n && n ≤ 0x2F)
    || n == 0x3A || n == 0x3B || n == 0x3F || n == 0x40 || (0x5B ≤ n && n ≤ 0x5D) || n == 0x5F
    || n == 0x7B || n == 0x7D || n == 0xA1 || n == 0xA7 || n == 0xAB || n == 0xB6 || n == 0xB7
    || n == 0xBB || n == 0xBF

/-- Latin-1 part of `unicode.IsSymbol` (the bit `pS` of `unicode.properties`). -/
def latin1Symbol (n : Nat) : Bool :=
  n == 0x24 || n == 0x2B || (0x3C ≤ n && n ≤ 0x3E) || n == 0x5E || n == 0x60 || n == 0x7C
    || n == 0x7E || (0xA2 ≤ n && n ≤ 0xA6) || n == 0xA8 || n == 0xA9 || n == 0xAC
    || (0xAE ≤ n && n ≤ 0xB1) || n == 0xB4 || n == 0xB8 || n == 0xD7 || n == 0xF7

/-- Go `unicode.IsPunct`: the punctuation characters, general category P. -/
def IsPunct (r : Char) : Bool :=
  if r.toNat ≤ 0xFF then latin1Punct r.toNat else Is Punct r

/-- Go `unicode.IsSymbol`: the symbol characters, general category S. -/
def IsSymbol (r : Char) : Bool :=
  if r.toNat ≤ 0xFF then latin1Symbol r.toNat else Is Symbol r

/-- The runtime of Go 1.21 and later: `unicode.Letter` and `unicode.Digit` are
the tables above; the result of an out-of-range conversion stays a parameter. -/
def unicodeRuntime (floatToIntOverflow : Float64 → Int) : GoRuntime where
  letterTable := fun r => Is Letter r
  digitTable := fun r => Is Digit r
  floatToIntOverflow := floatToIntOverflow

/-- A range table is well formed: every run is non-empty, and the runs ascend
with at least one code point between two of them. -/
def rangesSorted : List (Nat × Nat) → Bool
  | [] => true
  | [p] => decide (p.1 ≤ p.2)
  | p :: q :: rest => decide (p.1 ≤ p.2) && decide (p.2 + 1 < q.1) && rangesSorted (q :: rest)

/-- Number of code points of a range table. -/
def rangesCount (t : List (Nat × Nat)) : Nat := (t.map (fun p => p.2 + 1 - p.1)).sum

/-- One pass over two ascending range tables that succeeds only if no run of
one meets a run of the other: the run that ends first is dropped. -/
def disjointRuns : Nat → List (Nat × Nat) → List (Nat × Nat) → Bool
  | 0, _, _ => false
  | _ + 1, [], _ => true
  | _ + 1, _ :: _, [] => true
  | fuel + 1, p :: a, q :: b =>
    if p.2 < q.1 then disjointRuns fuel a (q :: b)
    else if q.2 < p.1 then disjointRuns fuel (p :: a) b
    else false

/-- Two ascending range tables have no code point in common. -/
def rangesDisjoint (a b : List (Nat × Nat)) : Bool :=
  rangesSorted a && rangesSorted b && disjointRuns (a.length + b.length + 1) a b

/-! ## Go `time.Parse` for the two layouts the repository uses -/

/-- ASCII digit test of package `time` (`isDigit`). -/
def isDigitChar (c : Char) : Bool := 0x30 ≤ c.toNat && c.toNat ≤ 0x39

/-- Value of an ASCII digit. -/
def digitVal (c : Char) : Nat := c.toNat - 0x30

/-- Package `time`, `getnum`: a one- or two-digit number, two digits when
`fixed`; returns the number and the rest of the input. -/
def getnum (s : List Char) (fixed : Bool) : Option (Nat × List Char) :=
  match s with
  | [] => none
  | [c0] => if isDigitChar c0 && !fixed then some (digitVal c0, []) else none
  | c0 :: c1 :: rest =>
    if !isDigitChar c0 then none
    else if !isDigitChar c1 then (if fixed then none else some (digitVal c0, c1 :: rest))
    else some (digitVal c0 * 10 + digitVal c1, rest)

/-- Package `time`, the `stdLongYear` chunk: exactly four digits. -/
def longYear (s : List Char) : Option (Nat × List Char) :=
  match s with
  | c0 :: c1 :: c2 :: c3 :: rest =>
    if isDigitChar c0 && isDigitChar c1 && isDigitChar c2 && isDigitChar c3 then
      some (digitVal c0 * 1000 + digitVal c1 * 100 + digitVal c2 * 10 + digitVal c3, rest)
    else none
  | _ => none

/-- Package `time`, `skip` for a one-character literal of the layout. -/
def skipChar (s : List Char) (p : Char) : Option (List Char) :=
  match s with
  | c :: rest => if c = p then some rest else none
  | [] => none

/-- Package `time`, `isLeap`. -/
def isLeap (year : Nat) : Bool := year % 4 == 0 && (year % 100 != 0 || year % 400 == 0)

/-- Package `time`, `daysIn`. -/
def daysIn (month year : Nat) : Nat :=
  if month == 2 && isLeap year then 29
  else if month == 2 then 28
  else if month == 4 || month == 6 || month == 9 || month == 11 then 30
  else 31

/-- The fields of a `time.Time` the repository reads. -/
structure GoTime where
  Year : Nat
  Month : Nat
  Day : Nat
  Hour : Nat
  Minute : Nat
deriving DecidableEq, Repr

/-- The zero `time.Time`: January 1, year 1, 00:00. -/
def GoTime.zero : GoTime := ⟨1, 1, 1, 0, 0⟩

/-- Go `time.Parse("2006-01-02", value)`; `none` is a parse error. -/
def parseDate (value : String) : Option GoTime := do
  let (year, v) ← longYear value.data
  let v ← skipChar v (Char.ofNat 0x2D)
  let (month, v) ← getnum v true
  if month = 0 ∨ 12 < month then none
  let v ← skipChar v (Char.ofNat 0x2D)
  let (day, v) ← getnum v true
  if v ≠ [] then none
  if day < 1 ∨ daysIn month year < day then none
  some ⟨year, month, day, 0, 0⟩

/-- Go `time.Parse("15:04", value)`; `none` is a parse error. -/
def parseClock (value : String) : Option GoTime := do
  let (hour, v) ← getnum value.data false
  if 24 ≤ hour then none
  let v ← skipChar v (Char.ofNat 0x3A)
  let (minute, v) ← getnum v true
  if 60 ≤ minute then none
  if v ≠ [] then none
  some ⟨0, 1, 1, hour, minute⟩

/-! ## Package `models` -/

/-- Go `models.Item`. -/
structure Item where
  ShortDescription : String
  Price : Float64
deriving DecidableEq, Repr

/-- Go `models.Receipt`; `Date` and `Time` are string types. -/
structure Receipt where
  Retailer : String
  PurchaseDate : String
  PurchaseTime : String
  Items : List Item
  Total : Float64
deriving DecidableEq, Repr

/-! ## Package `errors` -/

/-- Go `errors.ErrorCode`, a string type. -/
abbrev ErrorCode := String

def ErrInternal : ErrorCode := "RP0001"
def ErrInvalidJSON : ErrorCode := "RP0002"
def ErrContextCancelled : ErrorCode := "RP0003"
def ErrRequestTooLarge : ErrorCode := "RP0004"
def ErrInvalidRequest : ErrorCode := "RP0005"
def ErrInvalidReceiptData : ErrorCode := "RP0101"
def ErrInvalidRetailer : ErrorCode := "RP0102"
def ErrInvalidPurchaseDate : ErrorCode := "RP0103"
def ErrInvalidPurchaseTime : ErrorCode := "RP0104"
def ErrInvalidTotal : ErrorCode := "RP0105"
def ErrMissingItems : ErrorCode := "RP0106"
def ErrInvalidItemData : ErrorCode := "RP0107"
def ErrInvalidItemDescription : ErrorCode := "RP0108"
def ErrInvalidItemPrice : ErrorCode := "RP0109"
def ErrReceiptNotFound : ErrorCode := "RP0201"
def ErrStorageFailure : ErrorCode := "RP0202"
def ErrCalculationFailed : ErrorCode := "RP0301"

/-- Go `errors.errorMap`, as the list of its key/value pairs. -/
def errorMap : List (ErrorCode × String) :=
  [ (ErrInternal, "Internal server error"),
    (ErrInvalidJSON, "Invalid JSON in request body"),
    (ErrContextCancelled, "Request cancelled or timed out"),
    (ErrRequestTooLarge, "Request body too large"),
    (ErrInvalidRequest, "Invalid request"),
    (ErrInvalidReceiptData, "Invalid or missing receipt data"),
    (ErrInvalidRetailer, "Invalid or missing retailer name"),
    (ErrInvalidPurchaseDate, "Invalid purchase date format"),
    (ErrInvalidPurchaseTime, "Invalid purchase time format"),
    (ErrInvalidTotal, "Invalid total amount"),
    (ErrMissingItems, "Receipt must contain at least one item"),
    (ErrInvalidItemData, "Invalid item data"),
    (ErrInvalidItemDescription, "Invalid item description"),
    (ErrInvalidItemPrice, "Invalid item price"),
    (ErrReceiptNotFound, "Receipt not found"),
    (ErrStorageFailure, "Failed to store receipt data"),
    (ErrCalculationFailed, "Failed to calculate receipt points") ]

/-- Values of the Go interface `error` that occur in the repository: `nil`, the
two errors of package `context`, an error carrying only a text, and an
`*AppError` with its four fields. -/
inductive GoError where
  | nil : GoError
  | Canceled : GoError
  | DeadlineExceeded : GoError
  | errorString (text : String) : GoError
  | appError (Code : ErrorCode) (Message : String) (Detail : String) (Err : GoError) : GoError
deriving DecidableEq, Repr

/-- Go `errors.AppError`. -/
structure AppError where
  Code : ErrorCode
  Message : String
  Detail : String
  Err : GoError
deriving DecidableEq, Repr

/-- An `*AppError` as a value of the interface `error`. -/
def AppError.toError (e : AppError) : GoError := GoError.appError e.Code e.Message e.Detail e.Err

/-- Go `(*AppError).Unwrap`. -/
def AppError.Unwrap (e : AppError) : GoError := e.Err

/-- Go `errors.New`. -/
def New (code : ErrorCode) (detail : String) : AppError :=
  { Code := code, Message := (errorMap.lookup code).getD "Unknown error", Detail := detail,
    Err := GoError.nil }

/-- Go `errors.Wrap`. -/
def Wrap (code : ErrorCode) (err : GoError) (detail : String) : AppError :=
  { Code := code, Message := (errorMap.lookup code).getD "Unknown error", Detail := detail,
    Err := err }

/-- Go `errors.IsCode`. -/
def IsCode (err : GoError) (code : ErrorCode) : Bool :=
  match err with
  | GoError.appError c _ _ _ => c == code
  | _ => false

/-- Go `errors.GetCode`. -/
def GetCode (err : GoError) : ErrorCode :=
  match err with
  | GoError.appError c _ _ _ => c
  | _ => ""

/-! ## Package `services/rules` -/

/-- Go `rules.PointRule`. The `context.Context` argument of `Apply` is left out:
no rule reads it. -/
structure PointRule where
  Name : String
  Description : String
  Apply : Receipt → Int
  FormatLogMessage : Int → Receipt → String

/-- Go `countAlphanumericChars`. The counter cannot overflow: it is at most the
byte length of the string. -/
def countAlphanumericChars (rt : GoRuntime) (s : String) : Int :=
  s.data.foldl (fun count char => if IsLetter rt char || IsDigit rt char then count + 1 else count) 0

/-- Go `RetailerNameRule`. -/
def RetailerNameRule (rt : GoRuntime) : PointRule where
  Name := "RetailerNameRule"
  Description := "One point for every alphanumeric character in the retailer name"
  Apply := fun r => countAlphanumericChars rt r.Retailer
  FormatLogMessage := fun points r =>
    "Rule 1: Added " ++ fmtInt points
      ++ " points for alphanumeric characters in retailer name \x27" ++ r.Retailer ++ "\x27"

/-- Go `RoundDollarRule`. -/
def RoundDollarRule : PointRule where
  Name := "RoundDollarRule"
  Description := "50 points if the total is a round dollar amount"
  Apply := fun r => if Float64.eq r.Total (Float64.floor r.Total) then 50 else 0
  FormatLogMessage := fun points r =>
    if points = 0 then ""
    else "Rule 2: Added 50 points for round dollar amount $" ++ Float64.format2 r.Total

/-- Go `QuarterMultipleRule`. -/
def QuarterMultipleRule : PointRule where
  Name := "QuarterMultipleRule"
  Description := "25 points if the total is a multiple of 0.25"
  Apply := fun r =>
    if Float64.eq (Float64.mod (Float64.mul r.Total (Float64.ofNat 100)) (Float64.ofNat 25))
        (Float64.ofNat 0) then 25 else 0
  FormatLogMessage := fun points r =>
    if points = 0 then ""
    else "Rule 3: Added 25 points for total $" ++ Float64.format2 r.Total
      ++ " being a multiple of 0.25"

/-- Go `ItemPairsRule`. The product cannot overflow: a slice has far fewer than
`2^63 / 5` elements. -/
def ItemPairsRule : PointRule where
  Name := "ItemPairsRule"
  Description := "5 points for every two items"
  Apply := fun r => (Int.ofNat r.Items.length / 2) * 5
  FormatLogMessage := fun points r =>
    "Rule 4: Added " ++ fmtInt points ++ " points for " ++ fmtInt (Int.ofNat r.Items.length / 2)
      ++ " pairs of items (" ++ fmtInt (Int.ofNat r.Items.length) ++ " items total)"

/-- One iteration of the loop of `calculateItemDescriptionPoints`: the new value
of `totalPoints`. The constant `0.2` is the `float64` nearest to 2/10. -/
def itemDescriptionStep (rt : GoRuntime) (totalPoints : Int) (item : Item) : Int :=
  if len (TrimSpace item.ShortDescription) > 0 ∧ len (TrimSpace item.ShortDescription) % 3 = 0 then
    intAdd totalPoints
      (rt.intOfFloat (Float64.ceil (Float64.mul item.Price (Float64.ofFraction false 2 10))))
  else totalPoints

/-- Go `calculateItemDescriptionPoints`. -/
def calculateItemDescriptionPoints (rt : GoRuntime) (r : Receipt) : Int :=
  r.Items.foldl (itemDescriptionStep rt) 0

/-- Go `ItemDescriptionLengthRule`. -/
def ItemDescriptionLengthRule (rt : GoRuntime) : PointRule where
  Name := "ItemDescriptionLengthRule"
  Description :=
    "If trimmed item description length is a multiple of 3, add ceil(price * 0.2) points"
  Apply := fun r => calculateItemDescriptionPoints rt r
  FormatLogMessage := fun points _ =>
    if points = 0 then ""
    else "Rule 5: Added " ++ fmtInt points
      ++ " points for items with description length multiple of 3"

/-- Go `OddDayRule`. In `FormatLogMessage` the parse error is discarded, which
leaves the zero `time.Time`. -/
def OddDayRule : PointRule where
  Name := "OddDayRule"
  Description := "6 points if purchase day is odd"
  Apply := fun r =>
    match parseDate r.PurchaseDate with
    | none => 0
    | some purchaseDate => if purchaseDate.Day % 2 = 0 then 0 else 6
  FormatLogMessage := fun points r =>
    if points = 0 then ""
    else "Rule 6: Added 6 points for purchase day "
      ++ fmtInt (Int.ofNat ((parseDate r.PurchaseDate).getD GoTime.zero).Day) ++ " being odd"

/-- Go `calculateAfternoonTimePoints`. -/
def calculateAfternoonTimePoints (r : Receipt) : Int :=
  match parseClock r.PurchaseTime with
  | none => 0
  | some purchaseTime =>
    if purchaseTime.Hour * 60 + purchaseTime.Minute ≤ 14 * 60
        ∨ purchaseTime.Hour * 60 + purchaseTime.Minute ≥ 16 * 60 then 0
    else 10

/-- Go `AfternoonTimeRule`. -/
def AfternoonTimeRule : PointRule where
  Name := "AfternoonTimeRule"
  Description := "10 points if purchase time is between 14:00 and 16:00 (exclusive)"
  Apply := fun r => calculateAfternoonTimePoints r
  FormatLogMessage := fun points r =>
    if points = 0 then ""
    else "Rule 7: Added 10 points for purchase time " ++ r.PurchaseTime
      ++ " being between 14:00 and 16:00"

/-- Go `GetAllRules`. -/
def GetAllRules (rt : GoRuntime) : List PointRule :=
  [ RetailerNameRule rt,
    RoundDollarRule,
    QuarterMultipleRule,
    ItemPairsRule,
    ItemDescriptionLengthRule rt,
    OddDayRule,
    AfternoonTimeRule ]

/-! ## Package `services` -/

/-- A `context.Context` as one call observes it: `Err n` is the value of
`ctx.Err()` at the `n`-th poll of `ctx.Done()` made by the call, `GoError.nil`
while the `Done` channel is still open. -/
structure Context where
  Err : Nat → GoError

/-- Go `context.Background()`: never cancelled. -/
def Context.Background : Context := ⟨fun _ => GoError.nil⟩

/-- A context that every poll from the `n`-th on finds cancelled with `e`. -/
def Context.cancelledFrom (n : Nat) (e : GoError) : Context :=
  ⟨fun i => if i < n then GoError.nil else e⟩

/-- An attribute value of a log record. -/
inductive LogValue where
  | str (s : String) : LogValue
  | int (i : Int) : LogValue
deriving DecidableEq, Repr

/-- What a call does besides returning: a record handed to `slog.InfoContext`,
or the invocation of the `Apply` of the named rule. -/
inductive Event where
  | info (msg : String) (attrs : List (String × LogValue)) : Event
  | applied (rule : String) : Event
deriving DecidableEq, Repr

/-- Result of `CalculatePoints`: the two returned values and the events of the
call, in order. -/
structure Outcome where
  points : Int
  err : GoError
  trace : List Event
deriving DecidableEq, Repr

/-- The `for i, rule := range pointRules` loop of `CalculatePoints` and what
follows it, started at index `i` with `totalPoints` accumulated. The poll
before the rule of index `i` is the poll number `i + 1` of the call. -/
def rulesLoop (ctx : Context) (receipt : Receipt) :
    List PointRule → Nat → Int → List Event → Outcome
  | [], _, totalPoints, trace =>
    { points := totalPoints, err := GoError.nil,
      trace := trace ++ [Event.info "Total points calculated"
        [("retailer", LogValue.str receipt.Retailer), ("total_points", LogValue.int totalPoints)]] }
  | rule :: rest, i, totalPoints, trace =>
    if ctx.Err (i + 1) ≠ GoError.nil then
      { points := 0,
        err := (Wrap ErrContextCancelled (ctx.Err (i + 1))
          "context cancelled during rule evaluation").toError,
        trace := trace }
    else if rule.Apply receipt > 0 then
      rulesLoop ctx receipt rest (i + 1) (intAdd totalPoints (rule.Apply receipt))
        (trace ++ [Event.applied rule.Name] ++
          (if rule.FormatLogMessage (rule.Apply receipt) receipt ≠ "" then
            [Event.info (rule.FormatLogMessage (rule.Apply receipt) receipt)
              [("rule_number", LogValue.int (Int.ofNat i + 1)),
               ("points", LogValue.int (rule.Apply receipt))]]
           else []))
    else
      rulesLoop ctx receipt rest (i + 1) totalPoints (trace ++ [Event.applied rule.Name])

/-- Go `services.CalculatePoints`. -/
def CalculatePoints (rt : GoRuntime) (ctx : Context) (receipt : Receipt) : Outcome :=
  if ctx.Err 0 ≠ GoError.nil then
    { points := 0,
      err := (Wrap ErrContextCancelled (ctx.Err 0)
        "context cancelled during point calculation").toError,
      trace := [] }
  else
    rulesLoop ctx receipt (GetAllRules rt) 0 0
      [Event.info "Calculating points for receipt"
        [("retailer", LogValue.str receipt.Retailer), ("date", LogValue.str receipt.PurchaseDate),
         ("time", LogValue.str receipt.PurchaseTime),
         ("items_count", LogValue.int (Int.ofNat receipt.Items.length))]]

/-- The names of the rules whose `Apply` a trace records, in order. -/
def appliedRules (trace : List Event) : List String :=
  trace.filterMap (fun e => match e with
    | Event.applied rule => some rule
    | Event.info _ _ => none)

/-- The items for which `ceil(price * 0.2)` is finite with an integer part in the
range of `int`, so that its conversion is fixed by the Go specification. -/
def Item.pointsInRange (item : Item) : Bool :=
  match (Float64.ceil (Float64.mul item.Price (Float64.ofFraction false 2 10))).truncate with
  | some t => decide (InInt64 t)
  | none => false

/-- The receipts on which no field of the runtime is consulted: the retailer
stays inside Latin-1 and the integer part of every `ceil(price * 0.2)` is in the
range of `int`. -/
def Receipt.runtimeFree (r : Receipt) : Bool :=
  r.Retailer.data.all (fun c => decide (c.toNat ≤ 0xFF))
    && r.Items.all (fun item => item.pointsInRange)

/-! ## Library functions taken as parameters -/

/-- Go `(*AppError).Error`. -/
def AppError.Error (e : AppError) : String :=
  if e.Detail ≠ "" then "[" ++ e.Code ++ "] " ++ e.Message ++ ": " ++ e.Detail
  else "[" ++ e.Code ++ "] " ++ e.Message

/-- The method `Error()` of an `error` value: the two texts of package `context`,
the text an error was built with, and `(*AppError).Error`. It is not called on
`nil`, for which the model gives the empty text. -/
def GoError.Error : GoError → String
  | GoError.nil => ""
  | GoError.Canceled => "context canceled"
  | GoError.DeadlineExceeded => "context deadline exceeded"
  | GoError.errorString text => text
  | GoError.appError code message detail err => AppError.Error ⟨code, message, detail, err⟩

/-- Standard-library behaviour the repository relies on and does not fix. -/
structure GoLibrary where
  /-- Go `strconv.ParseFloat(s, 64)`: the value and the error it returns. -/
  ParseFloat : String → Float64 × GoError
  /-- The text of the error of a failed `time.Parse(layout, value)`. -/
  timeParseErrorText : String → String → String

/-- Value of a list of ASCII digits read in base ten. -/
def digitsValue (ds : List Char) : Nat := ds.foldl (fun n c => n * 10 + digitVal c) 0

/-- The plain decimal numerals: an optional sign, then digits with at most one
point among them and at least one digit. Returns the sign, the digits before
the point and the digits after it. -/
def splitDecimal (s : String) : Option (Bool × List Char × List Char) :=
  match s.data with
  | [] => none
  | c :: cs =>
    let neg := c = Char.ofNat 0x2D
    let body := if c = Char.ofNat 0x2B ∨ c = Char.ofNat 0x2D then cs else c :: cs
    match body.dropWhile isDigitChar with
    | [] => if body ≠ [] then some (neg, body, []) else none
    | d :: frac =>
      if d = Char.ofNat 0x2E ∧ frac.all isDigitChar
          ∧ (body.takeWhile isDigitChar ≠ [] ∨ frac ≠ []) then
        some (neg, body.takeWhile isDigitChar, frac)
      else none

/-- Go `strconv.ParseFloat(s, 64)` on the plain decimal numerals, where it
returns the correctly rounded value, with a range error when that is an
infinity. On every other string this function reports a syntax error, which
agrees with Go only when the string is no numeral at all: it is a stand-in for
the library parameter at plain decimal numerals, not a model of the exponent,
hexadecimal, underscore, `Inf` and `NaN` forms. -/
def decimalParseFloat (s : String) : Float64 × GoError :=
  match splitDecimal s with
  | none =>
    (Float64.fin false 0, GoError.errorString ("strconv.ParseFloat: parsing " ++ s.quote
      ++ ": invalid syntax"))
  | some (neg, whole, frac) =>
    match Float64.ofFraction neg (digitsValue (whole ++ frac)) (10 ^ frac.length) with
    | Float64.inf n =>
      (Float64.inf n, GoError.errorString ("strconv.ParseFloat: parsing " ++ s.quote
        ++ ": value out of range"))
    | x => (x, GoError.nil)

/-- A library used to instantiate theorems at plain decimal numerals; its
parse-error text keeps only the beginning of the text of `*time.ParseError`. -/
def sampleLibrary : GoLibrary where
  ParseFloat := decimalParseFloat
  timeParseErrorText := fun layout value =>
    "parsing time " ++ value.quote ++ " as " ++ layout.quote

/-! ## Package `models`: decoding and validation -/

/-- Go `(*Price).UnmarshalJSON` applied to a JSON string literal whose content is
`str`, with `p` the value of the receiver before the call: the value of the
receiver after the call and the returned error. -/
def Price.UnmarshalJSON (lib : GoLibrary) (p : Float64) (str : String) : Float64 × GoError :=
  if (lib.ParseFloat str).2 ≠ GoError.nil then
    (p, GoError.errorString ("invalid price format: " ++ (lib.ParseFloat str).2.Error))
  else ((lib.ParseFloat str).1, GoError.nil)

/-- Go `Date.Validate`. -/
def Date.Validate (lib : GoLibrary) (d : String) : GoError :=
  match parseDate d with
  | none => GoError.errorString ("invalid date format: " ++ lib.timeParseErrorText "2006-01-02" d)
  | some _ => GoError.nil

/-- Go `Time.Validate`. -/
def Time.Validate (lib : GoLibrary) (t : String) : GoError :=
  match parseClock t with
  | none => GoError.errorString ("invalid time format: " ++ lib.timeParseErrorText "15:04" t)
  | some _ => GoError.nil

/-- Go `(*Item).Validate`. -/
def Item.Validate (i : Item) : GoError :=
  if TrimSpace i.ShortDescription = "" then GoError.errorString "short description is required"
  else GoError.nil

/-- The loop `for i, item := range r.Items` of `Receipt.Validate`, from index `i`. -/
def validateItems : List Item → Nat → GoError
  | [], _ => GoError.nil
  | item :: rest, i =>
    if item.Validate ≠ GoError.nil then
      GoError.errorString ("item " ++ fmtInt (Int.ofNat i + 1) ++ ": " ++ item.Validate.Error)
    else validateItems rest (i + 1)

/-- Go `(*Receipt).Validate`. -/
def Receipt.Validate (lib : GoLibrary) (r : Receipt) : GoError :=
  if TrimSpace r.Retailer = "" then GoError.errorString "retailer is required"
  else if Date.Validate lib r.PurchaseDate ≠ GoError.nil then Date.Validate lib r.PurchaseDate
  else if Time.Validate lib r.PurchaseTime ≠ GoError.nil then Time.Validate lib r.PurchaseTime
  else if r.Items.length = 0 then GoError.errorString "at least one item is required"
  else validateItems r.Items 0

/-- A JSON receipt in which every member is present once, in the order of the
fields of `models.Receipt`, with the JSON type the decoder expects: three
strings, the items (a description and the text of a price each) and the text of
the total. -/
structure ReceiptJSON where
  retailer : String
  purchaseDate : String
  purchaseTime : String
  items : List (String × String)
  total : String
deriving DecidableEq, Repr

/-- Decoding of the items of a `ReceiptJSON`: every price goes through
`Price.UnmarshalJSON`, and the first error ends the decoding. -/
def decodeItems (lib : GoLibrary) : List (String × String) → Except GoError (List Item)
  | [] => Except.ok []
  | (description, price) :: rest =>
    if (Price.UnmarshalJSON lib (Float64.fin false 0) price).2 ≠ GoError.nil then
      Except.error (Price.UnmarshalJSON lib (Float64.fin false 0) price).2
    else
      match decodeItems lib rest with
      | Except.error e => Except.error e
      | Except.ok items =>
        Except.ok (⟨description, (Price.UnmarshalJSON lib (Float64.fin false 0) price).1⟩ :: items)

/-- Decoding of a `ReceiptJSON` into a `Receipt` (`json.Unmarshal` into
`models.Receipt`): the members are decoded in the order of the document and the
first error of `Price.UnmarshalJSON` ends the decoding. -/
def decodeReceipt (lib : GoLibrary) (doc : ReceiptJSON) : Except GoError Receipt :=
  match decodeItems lib doc.items with
  | Except.error e => Except.error e
  | Except.ok items =>
    if (Price.UnmarshalJSON lib (Float64.fin false 0) doc.total).2 ≠ GoError.nil then
      Except.error (Price.UnmarshalJSON lib (Float64.fin false 0) doc.total).2
    else
      Except.ok
        { Retailer := doc.retailer, PurchaseDate := doc.purchaseDate,
          PurchaseTime := doc.purchaseTime, Items := items,
          Total := (Price.UnmarshalJSON lib (Float64.fin false 0) doc.total).1 }

/-! ## Values of `float64` as rational numbers -/

/-- The rational value of a finite `float64`. -/
def Float64.toRat : Float64 → Option ℚ
  | Float64.fin false k => some ((k : ℚ) / (Float64.unit : ℚ))
  | Float64.fin true k => some (-((k : ℚ) / (Float64.unit : ℚ)))
  | _ => none

/-- The contribution of one item that the item-description rule counts:
`int(math.Ceil(price * 0.2))`. -/
def itemPoints (rt : GoRuntime) (item : Item) : Int :=
  rt.intOfFloat (Float64.ceil (Float64.mul item.Price (Float64.ofFraction false 2 10)))

/-- The items the item-description rule counts: the trimmed description has a
byte length that is a positive multiple of 3. -/
def Item.counted (item : Item) : Bool :=
  decide (len (TrimSpace item.ShortDescription) > 0
    ∧ len (TrimSpace item.ShortDescription) % 3 = 0)

/-! ## Package `storage` -/

/-- A value of `uuid.UUID` (package `github.com/google/uuid`): sixteen bytes, given
by the number they spell, most significant byte first. -/
structure UUID where
  value : Nat
deriving DecidableEq, Repr

/-- The last `n` digits of `v` in base 16, in lower case. -/
def hexDigits : Nat → Nat → List Char
  | 0, _ => []
  | n + 1, v => hexDigits n (v / 16) ++ [Nat.digitChar (v % 16)]

/-- Go `UUID.String`: the form `xxxxxxxx-xxxx-xxxx-xxxx-xxxxxxxxxxxx`. -/
def UUID.String (u : UUID) : String :=
  String.mk (hexDigits 8 (u.value / 2 ^ 96) ++ [Char.ofNat 0x2D]
    ++ hexDigits 4 (u.value / 2 ^ 80) ++ [Char.ofNat 0x2D]
    ++ hexDigits 4 (u.value / 2 ^ 64) ++ [Char.ofNat 0x2D]
    ++ hexDigits 4 (u.value / 2 ^ 48) ++ [Char.ofNat 0x2D]
    ++ hexDigits 12 u.value)

/-- Go `storage.MemoryStore`: the map `points` as the list of its key/value
pairs. The mutex makes the body of each method atomic, so a call is a function
of the store it finds. -/
structure MemoryStore where
  points : List (String × Int)
deriving DecidableEq, Repr

/-- Go `NewMemoryStorage`. -/
def NewMemoryStorage : MemoryStore := ⟨[]⟩

/-- Go map assignment `m[k] = v`. -/
def mapAssign (m : List (String × Int)) (k : String) (v : Int) : List (String × Int) :=
  (k, v) :: m.filter (fun e => e.1 ≠ k)

/-- Go `(*MemoryStore).SaveReceipt`: the returned pair and the store after the
call. `u` is the value of `uuid.New()` in this call. The two evaluations of
`ctx.Err()` give the same error: once non-nil it does not change. -/
def MemoryStore.SaveReceipt (s : MemoryStore) (ctx : Context) (points : Int) (u : UUID) :
    (String × GoError) × MemoryStore :=
  if ctx.Err 0 ≠ GoError.nil then
    (("", (Wrap ErrContextCancelled (ctx.Err 0) "context canceled before saving receipt").toError),
      s)
  else
    ((u.String, GoError.nil), { points := mapAssign s.points u.String points })

/-- Go `(*MemoryStore).GetPoints`: the returned pair and the store after the
call. -/
def MemoryStore.GetPoints (s : MemoryStore) (ctx : Context) (id : String) :
    (Int × GoError) × MemoryStore :=
  if ctx.Err 0 ≠ GoError.nil then
    ((0, (Wrap ErrContextCancelled (ctx.Err 0)
      "context canceled before retrieving points").toError), s)
  else
    match s.points.lookup id with
    | none => ((0, (New ErrReceiptNotFound ("receipt with ID " ++ id ++ " not found")).toError), s)
    | some points => ((points, GoError.nil), s)

/-- A sequence of calls of `SaveReceipt`, each with its context, its score and
its generated UUID: the returned pairs, in order, and the store after the last
call. -/
def saveAll (s : MemoryStore) : List (Context × Int × UUID) → List (String × GoError) × MemoryStore
  | [] => ([], s)
  | (ctx, points, u) :: rest =>
    ((s.SaveReceipt ctx points u).1 :: (saveAll (s.SaveReceipt ctx points u).2 rest).1,
      (saveAll (s.SaveReceipt ctx points u).2 rest).2)

/-- Every identifier generated in the sequence of calls is fresh: it is not a
key of the store that its call finds. -/
def freshIds (s : MemoryStore) : List (Context × Int × UUID) → Bool
  | [] => true
  | (ctx, points, u) :: rest =>
    (s.points.lookup u.String).isNone && freshIds (s.SaveReceipt ctx points u).2 rest

/-! ## Package `api` -/

/-- The JSON bodies the handlers write: `errors.APIError`,
`models.ReceiptResponse` and `models.PointsResponse`. -/
inductive Body where
  | apiError (Code : ErrorCode) (Message : String) : Body
  | receiptResponse (ID : String) : Body
  | pointsResponse (Points : Int) : Body
deriving DecidableEq, Repr

/-- The arguments of the call of `c.JSON` a handler makes: the HTTP status and
the body. -/
structure Response where
  status : Nat
  body : Body
deriving DecidableEq, Repr

/-- Go `handleError`: the response it writes. Its log records are left out. -/
def handleError (err : GoError) : Response :=
  match err with
  | GoError.appError code message _ _ =>
    { status :=
        if code = ErrInvalidJSON ∨ code = ErrInvalidReceiptData ∨ code = ErrInvalidRetailer
            ∨ code = ErrInvalidPurchaseDate ∨ code = ErrInvalidPurchaseTime
            ∨ code = ErrInvalidTotal ∨ code = ErrMissingItems ∨ code = ErrInvalidItemData
            ∨ code = ErrInvalidItemDescription ∨ code = ErrInvalidItemPrice then 400
        else if code = ErrReceiptNotFound then 404
        else if code = ErrContextCancelled then 408
        else 500,
      body := Body.apiError code message }
  | _ => { status := 500, body := Body.apiError ErrInternal "An unexpected error occurred" }

/-- The value found under the key `"receipt"` of the gin context: a
`models.Receipt`, or a value of another type. -/
inductive GinValue where
  | receipt (r : Receipt) : GinValue
  | other : GinValue
deriving DecidableEq, Repr

/-- The context as the calls that follow `n` polls observe it. -/
def Context.after (ctx : Context) (n : Nat) : Context := ⟨fun i => ctx.Err (n + i)⟩

/-- Go `(*ReceiptHandler).ProcessReceipt` over a `MemoryStore`: the response
written and the store after the request; the log records are left out.
`receiptVal` is the result of `c.Get("receipt")` and `u` the value of
`uuid.New()` if the store is reached. A call of `CalculatePoints` that returns
no error has polled the context eight times, so `SaveReceipt` observes it from
the ninth poll on. -/
def ReceiptHandler.ProcessReceipt (rt : GoRuntime) (store : MemoryStore) (ctx : Context)
    (receiptVal : Option GinValue) (u : UUID) : Response × MemoryStore :=
  match receiptVal with
  | none =>
    (handleError (New ErrInvalidReceiptData "receipt not found in context").toError, store)
  | some GinValue.other =>
    (handleError (New ErrInvalidReceiptData "invalid receipt type in context").toError, store)
  | some (GinValue.receipt receipt) =>
    if (CalculatePoints rt ctx receipt).err ≠ GoError.nil then
      if IsCode (CalculatePoints rt ctx receipt).err ErrContextCancelled then
        (handleError (CalculatePoints rt ctx receipt).err, store)
      else
        (handleError (Wrap ErrCalculationFailed (CalculatePoints rt ctx receipt).err
          "error calculating points for receipt").toError, store)
    else if (store.SaveReceipt (ctx.after 8) (CalculatePoints rt ctx receipt).points u).1.2
        ≠ GoError.nil then
      if IsCode (store.SaveReceipt (ctx.after 8) (CalculatePoints rt ctx receipt).points u).1.2
          ErrContextCancelled then
        (handleError (store.SaveReceipt (ctx.after 8) (CalculatePoints rt ctx receipt).points u).1.2,
          (store.SaveReceipt (ctx.after 8) (CalculatePoints rt ctx receipt).points u).2)
      else
        (handleError (Wrap ErrStorageFailure
            (store.SaveReceipt (ctx.after 8) (CalculatePoints rt ctx receipt).points u).1.2
            "unable to save receipt points").toError,
          (store.SaveReceipt (ctx.after 8) (CalculatePoints rt ctx receipt).points u).2)
    else
      ({ status := 200,
         body := Body.receiptResponse
           (store.SaveReceipt (ctx.after 8) (CalculatePoints rt ctx receipt).points u).1.1 },
        (store.SaveReceipt (ctx.after 8) (CalculatePoints rt ctx receipt).points u).2)

/-! ## Package `models`: encoding -/

/-- Go `Price.MarshalJSON`: the content of the JSON string it produces, the
price formatted with `%.2f`. -/
def Price.MarshalJSON (p : Float64) : String := Float64.format2 p

/-- The JSON document `json.Marshal` produces for a receipt: the three strings,
and every price through `Price.MarshalJSON`. -/
def encodeReceipt (r : Receipt) : ReceiptJSON where
  retailer := r.Retailer
  purchaseDate := r.PurchaseDate
  purchaseTime := r.PurchaseTime
  items := r.Items.map (fun item => (item.ShortDescription, Price.MarshalJSON item.Price))
  total := Price.MarshalJSON r.Total

/-- Specification side: the amounts with at most two decimal places, as
`float64` values. These are the finite values nearest to a whole number `n` of
hundredths, of either sign: what a constant such as `5.99` or the text "5.99"
gives. -/
def Float64.IsAmount (p : Float64) : Prop :=
  ∃ (neg : Bool) (n : Nat), p = Float64.ofFraction neg n 100 ∧ p ≠ Float64.inf neg

/-- The per-rule records of a trace: the records tagged `rule_number`, each as
its message, its rule number and its points. -/
def ruleEntries (trace : List Event) : List (String × Int × Int) :=
  trace.filterMap (fun e => match e with
    | Event.info msg [("rule_number", LogValue.int n), ("points", LogValue.int p)] => some (msg, n, p)
    | _ => none)

/-- The rules of a list with their 1-based positions, from position `i + 1`. -/
def numbered : List PointRule → Nat → List (Int × PointRule)
  | [], _ => []
  | rule :: rest, i => (Int.ofNat i + 1, rule) :: numbered rest (i + 1)

/-! ## Package `errors`: the standard messages -/

/-- Go `errors.Error`: the standard message of a code. -/
def Error (code : ErrorCode) : String := (errorMap.lookup code).getD "Unknown error"

/-- The constants of the `const` block of `codes.go`, in the order of their
declaration. -/
def declaredCodes : List ErrorCode :=
  [ ErrInternal, ErrInvalidJSON, ErrContextCancelled, ErrRequestTooLarge, ErrInvalidRequest,
    ErrInvalidReceiptData, ErrInvalidRetailer, ErrInvalidPurchaseDate, ErrInvalidPurchaseTime,
    ErrInvalidTotal, ErrMissingItems, ErrInvalidItemData, ErrInvalidItemDescription,
    ErrInvalidItemPrice, ErrReceiptNotFound, ErrStorageFailure, ErrCalculationFailed ]

/-! ## Package `storage`: `Count` -/

/-- What the scheduler and `select` decide in one call of `Count`. The goroutine
that sends the count is started before the `select`; when both cases of the
`select` can proceed, Go picks one at random. -/
structure CountSchedule where
  /-- The goroutine has sent on `ch` when the `select` is evaluated. -/
  sent : Bool
  /-- The case picked when both can proceed: the receive from `ch`. -/
  pickChannel : Bool
  /-- When neither can proceed yet, the send comes before `Done` is closed. -/
  sendFirst : Bool
  /-- The error of the derived context when `Done` is closed while the `select`
  waits: the error of the parent, or `DeadlineExceeded` after 500 ms. -/
  doneErr : GoError
deriving DecidableEq, Repr

/-- Go `(*MemoryStore).Count`: the returned pair and the store after the call.
The context derived by `context.WithTimeout` from a parent that is already
cancelled is done from the start, with the error of the parent. -/
def MemoryStore.Count (s : MemoryStore) (ctx : Context) (sched : CountSchedule) :
    (Int × GoError) × MemoryStore :=
  if ctx.Err 0 ≠ GoError.nil then
    if sched.sent ∧ sched.pickChannel then ((Int.ofNat s.points.length, GoError.nil), s)
    else
      ((0, (Wrap ErrContextCancelled (ctx.Err 0)
        "timeout or cancellation while counting receipts").toError), s)
  else if sched.sent ∨ sched.sendFirst then ((Int.ofNat s.points.length, GoError.nil), s)
  else
    ((0, (Wrap ErrContextCancelled sched.doneErr
      "timeout or cancellation while counting receipts").toError), s)

/-! ## Package `api`: the middleware and the points handler -/

/-- What `JSONValidationMiddleware` does with a request: it writes a response and
aborts, so that the handler is not run, or it calls `c.Next()`, after setting
the key `"receipt"` of the gin context if it bound a receipt. -/
inductive MiddlewareResult where
  | abort (response : Response) : MiddlewareResult
  | next (receipt : Option GinValue) : MiddlewareResult
deriving DecidableEq, Repr

/-- Go `JSONValidationMiddleware(maxBodySize)` applied to a request, given by
the fields the middleware reads and by the result `bound` of
`c.ShouldBindJSON(&receipt)`: the error, or the receipt bound. -/
def JSONValidationMiddleware (lib : GoLibrary) (maxBodySize : Int) (ContentLength : Int)
    (Method FullPath : String) (bound : Except GoError Receipt) : MiddlewareResult :=
  if ContentLength > maxBodySize then
    MiddlewareResult.abort
      { status := 413, body := Body.apiError ErrRequestTooLarge (Error ErrRequestTooLarge) }
  else if Method = "POST" ∧ FullPath = "/receipts/process" then
    match bound with
    | Except.error _ =>
      MiddlewareResult.abort
        { status := 400, body := Body.apiError ErrInvalidJSON (Error ErrInvalidJSON) }
    | Except.ok receipt =>
      if receipt.Validate lib ≠ GoError.nil then
        MiddlewareResult.abort
          { status := 400,
            body := Body.apiError
              (if (receipt.Validate lib).Error = "retailer is required" then ErrInvalidRetailer
               else if (receipt.Validate lib).Error = "at least one item is required" then
                 ErrMissingItems
               else if (receipt.Validate lib).Error = "invalid date format" then
                 ErrInvalidPurchaseDate
               else if (receipt.Validate lib).Error = "invalid time format" then
                 ErrInvalidPurchaseTime
               else ErrInvalidReceiptData)
              (Error
                (if (receipt.Validate lib).Error = "retailer is required" then ErrInvalidRetailer
                 else if (receipt.Validate lib).Error = "at least one item is required" then
                   ErrMissingItems
                 else if (receipt.Validate lib).Error = "invalid date format" then
                   ErrInvalidPurchaseDate
                 else if (receipt.Validate lib).Error = "invalid time format" then
                   ErrInvalidPurchaseTime
                 else ErrInvalidReceiptData)) }
      else MiddlewareResult.next (some (GinValue.receipt receipt))
  else MiddlewareResult.next none

/-- Go `(*ReceiptHandler).GetPoints` over a `MemoryStore`: the response written
and the store after the request; the log records are left out. `id` is the
value of `c.Param("id")`. -/
def ReceiptHandler.GetPoints (store : MemoryStore) (ctx : Context) (id : String) :
    Response × MemoryStore :=
  if id = "" then
    (handleError (New ErrInvalidReceiptData "receipt ID is required").toError, store)
  else if (store.GetPoints ctx id).1.2 ≠ GoError.nil then
    if IsCode (store.GetPoints ctx id).1.2 ErrReceiptNotFound then
      (handleError (store.GetPoints ctx id).1.2, (store.GetPoints ctx id).2)
    else
      (handleError (Wrap ErrInternal (store.GetPoints ctx id).1.2
        ("error retrieving points for ID " ++ id)).toError, (store.GetPoints ctx id).2)
  else
    ({ status := 200, body := Body.pointsResponse (store.GetPoints ctx id).1.1 },
      (store.GetPoints ctx id).2)

/-! ## Sample inputs -/

/-- The reference receipt of the tests ("Target receipt example"). -/
def targetReceipt : Receipt where
  Retailer := "Target"
  PurchaseDate := "2022-01-01"
  PurchaseTime := "13:01"
  Items :=
    [ ⟨"Mountain Dew 12PK", Float64.ofFraction false 649 100⟩,
      ⟨"Emils Cheese Pizza", Float64.ofFraction false 1225 100⟩,
      ⟨"Knorr Creamy Chicken", Float64.ofFraction false 126 100⟩,
      ⟨"Doritos Nacho Cheese", Float64.ofFraction false 335 100⟩,
      ⟨"   Klarbrunn 12-PK 12 FL OZ  ", Float64.ofFraction false 1200 100⟩ ]
  Total := Float64.ofFraction false 3535 100

/-- The second receipt of the tests ("M&M Corner Market receipt example"). -/
def cornerMarketReceipt : Receipt where
  Retailer := "M&M Corner Market"
  PurchaseDate := "2022-03-20"
  PurchaseTime := "14:33"
  Items :=
    [ ⟨"Gatorade", Float64.ofFraction false 225 100⟩,
      ⟨"Gatorade", Float64.ofFraction false 225 100⟩,
      ⟨"Gatorade", Float64.ofFraction false 225 100⟩,
      ⟨"Gatorade", Float64.ofFraction false 225 100⟩ ]
  Total := Float64.ofFraction false 900 100

/-- A receipt with a negative price and total, as the JSON decoder and the
validator accept it (`"price": "-5.00"`). -/
def refundReceipt : Receipt where
  Retailer := "Shop"
  PurchaseDate := "2022-01-02"
  PurchaseTime := "13:01"
  Items := [⟨"abc", Float64.ofFraction true 500 100⟩]
  Total := Float64.ofFraction true 500 100

/-- A receipt with one very large price (`"price": "46116860184273870848.00"`,
a `float64` exactly): the two item contributions are `2^63 - 1024` and `1023`,
which sum to the largest `int`. -/
def overflowReceipt : Receipt where
  Retailer := "Target"
  PurchaseDate := "2022-01-02"
  PurchaseTime := "13:01"
  Items :=
    [ ⟨"abc", Float64.ofFraction false 46116860184273870848 1⟩,
      ⟨"abc", Float64.ofFraction false 511400 100⟩ ]
  Total := Float64.ofFraction false 1 100

/-- A receipt whose date and time do not parse. -/
def malformedReceipt : Receipt where
  Retailer := "Target"
  PurchaseDate := "invalid"
  PurchaseTime := "25:61"
  Items := [⟨"Gatorade", Float64.ofFraction false 225 100⟩]
  Total := Float64.ofFraction false 225 100

/-- The JSON receipt that decodes to `refundReceipt`. -/
def refundJSON : ReceiptJSON where
  retailer := "Shop"
  purchaseDate := "2022-01-02"
  purchaseTime := "13:01"
  items := [("abc", "-5.00")]
  total := "-5.00"

/-- A receipt whose total, 2251799813685247.75, is a `float64` exactly and a
multiple of 0.25 (`"total": "2251799813685247.75"`). -/
def largeQuarterReceipt : Receipt where
  Retailer := "Target"
  PurchaseDate := "2022-01-02"
  PurchaseTime := "13:01"
  Items := [⟨"Gatorade", Float64.ofFraction false 225 100⟩]
  Total := Float64.ofFraction false 225179981368524775 100

/-- A receipt with two items that each contribute `2^63 - 1024`. -/
def doubleOverflowReceipt : Receipt where
  Retailer := "Target"
  PurchaseDate := "2022-01-02"
  PurchaseTime := "13:01"
  Items :=
    [ ⟨"abc", Float64.ofFraction false 46116860184273870848 1⟩,
      ⟨"abc", Float64.ofFraction false 46116860184273870848 1⟩ ]
  Total := Float64.ofFraction false 1 100

/-- The receipt of the test `TestReceiptJSON`. -/
def jsonTestReceipt : Receipt where
  Retailer := "Target"
  PurchaseDate := "2022-01-01"
  PurchaseTime := "13:01"
  Items :=
    [ ⟨"Item 1", Float64.ofFraction false 599 100⟩,
      ⟨"Item 2", Float64.ofFraction false 1000 100⟩ ]
  Total := Float64.ofFraction false 1599 100

/-- A receipt with a malformed purchase date, from the tests ("Invalid date
format"). -/
def badDateReceipt : Receipt where
  Retailer := "Shop"
  PurchaseDate := "01/01/2022"
  PurchaseTime := "13:01"
  Items := [⟨"Item", Float64.ofFraction false 500 100⟩]
  Total := Float64.ofFraction false 500 100

/-- A receipt with a malformed purchase time, from the tests ("Invalid time
format"). -/
def badTimeReceipt : Receipt where
  Retailer := "Shop"
  PurchaseDate := "2022-01-01"
  PurchaseTime := "1:01 PM"
  Items := [⟨"Item", Float64.ofFraction false 500 100⟩]
  Total := Float64.ofFraction false 500 100

/-- A receipt whose total, 9007199254740991.00, is a whole number of dollars and
a `float64` exactly (`"total": "9007199254740991.00"`). -/
def largeRoundReceipt : Receipt where
  Retailer := "Target"
  PurchaseDate := "2022-01-02"
  PurchaseTime := "13:01"
  Items := [⟨"Gatorade", Float64.ofFraction false 225 100⟩]
  Total := Float64.ofFraction false 900719925474099100 100

/-- A receipt with one item whose price is the smallest positive `float64`
(`"price": "5e-324"`). -/
def tinyPriceReceipt : Receipt where
  Retailer := "Target"
  PurchaseDate := "2022-01-02"
  PurchaseTime := "13:01"
  Items := [⟨"abc", Float64.fin false 1⟩]
  Total := Float64.ofFraction false 1 100

/-! # Theorems -/

/-! ## Arithmetic of `int` -/

theorem wrap64_of_inInt64 (i : Int) (h : InInt64 i) : wrap64 i = i := by
  unfold InInt64 at h
  unfold wrap64
  omega

theorem wrap64_add_wrap64 (a b : Int) : wrap64 (wrap64 a + b) = wrap64 (a + b) := by
  unfold wrap64
  omega

theorem wrap64_inInt64 (i : Int) : InInt64 (wrap64 i) := by
  unfold InInt64 wrap64
  omega

/-! ## The rule loop -/

theorem appliedRules_append (t u : List Event) :
    appliedRules (t ++ u) = appliedRules t ++ appliedRules u := by
  simp [appliedRules, List.filterMap_append]

theorem appliedRules_step (trace : List Event) (name msg : String)
    (attrs : List (String × LogValue)) (c : Prop) [Decidable c] :
    appliedRules (trace ++ [Event.applied name] ++ (if c then [Event.info msg attrs] else []))
      = appliedRules trace ++ [name] := by
  rw [appliedRules_append, appliedRules_append]
  split <;> simp [appliedRules]

theorem rulesLoop_cons_pos (ctx : Context) (receipt : Receipt) (rule : PointRule)
    (rest : List PointRule) (i : Nat) (totalPoints : Int) (trace : List Event)
    (h0 : ctx.Err (i + 1) = GoError.nil) (hp : rule.Apply receipt > 0) :
    rulesLoop ctx receipt (rule :: rest) i totalPoints trace
      = rulesLoop ctx receipt rest (i + 1) (intAdd totalPoints (rule.Apply receipt))
          (trace ++ [Event.applied rule.Name] ++
            (if rule.FormatLogMessage (rule.Apply receipt) receipt ≠ "" then
              [Event.info (rule.FormatLogMessage (rule.Apply receipt) receipt)
                [("rule_number", LogValue.int (Int.ofNat i + 1)),
                 ("points", LogValue.int (rule.Apply receipt))]]
             else [])) := by
  rw [rulesLoop, if_neg (by simp [h0]), if_pos hp]

theorem rulesLoop_cons_nonpos (ctx : Context) (receipt : Receipt) (rule : PointRule)
    (rest : List PointRule) (i : Nat) (totalPoints : Int) (trace : List Event)
    (h0 : ctx.Err (i + 1) = GoError.nil) (hp : ¬ rule.Apply receipt > 0) :
    rulesLoop ctx receipt (rule :: rest) i totalPoints trace
      = rulesLoop ctx receipt rest (i + 1) totalPoints (trace ++ [Event.applied rule.Name]) := by
  rw [rulesLoop, if_neg (by simp [h0]), if_neg hp]

theorem rulesLoop_cons_cancelled (ctx : Context) (receipt : Receipt) (rule : PointRule)
    (rest : List PointRule) (i : Nat) (totalPoints : Int) (trace : List Event)
    (h0 : ctx.Err (i + 1) ≠ GoError.nil) :
    rulesLoop ctx receipt (rule :: rest) i totalPoints trace
      = { points := 0,
          err := (Wrap ErrContextCancelled (ctx.Err (i + 1))
            "context cancelled during rule evaluation").toError,
          trace := trace } := by
  rw [rulesLoop, if_pos h0]

theorem rulesLoop_ctx_congr (ctx ctx2 : Context) (receipt : Receipt) (rules : List PointRule) :
    ∀ (i : Nat) (totalPoints : Int) (trace : List Event),
      (∀ j, j < rules.length → ctx.Err (i + 1 + j) = ctx2.Err (i + 1 + j)) →
      rulesLoop ctx receipt rules i totalPoints trace
        = rulesLoop ctx2 receipt rules i totalPoints trace := by
  induction rules with
  | nil => intro i totalPoints trace _; rfl
  | cons rule rest ih =>
    intro i totalPoints trace h
    have h0 : ctx.Err (i + 1) = ctx2.Err (i + 1) := by
      simpa using h 0 (by simp)
    have hrest : ∀ j, j < rest.length → ctx.Err (i + 1 + 1 + j) = ctx2.Err (i + 1 + 1 + j) := by
      intro j hj
      have e : i + 1 + 1 + j = i + 1 + (j + 1) := by omega
      rw [e]
      exact h (j + 1) (by simp; omega)
    simp only [rulesLoop, h0]
    rw [ih (i + 1) _ _ hrest, ih (i + 1) _ _ hrest]

theorem rulesLoop_rules_congr (ctx : Context) (receipt : Receipt) (rules rules2 : List PointRule)
    (h : List.Forall₂ (fun a b => a.Name = b.Name ∧ a.Apply receipt = b.Apply receipt
      ∧ ∀ p, a.FormatLogMessage p receipt = b.FormatLogMessage p receipt) rules rules2) :
    ∀ (i : Nat) (totalPoints : Int) (trace : List Event),
      rulesLoop ctx receipt rules i totalPoints trace
        = rulesLoop ctx receipt rules2 i totalPoints trace := by
  induction h with
  | nil => intro i totalPoints trace; rfl
  | cons hab _ ih =>
    intro i totalPoints trace
    obtain ⟨hn, ha, hf⟩ := hab
    simp only [rulesLoop, hn, ha, hf]
    rw [ih, ih]

theorem rulesLoop_not_cancelled (ctx : Context) (receipt : Receipt) (rules : List PointRule) :
    ∀ (i : Nat) (totalPoints : Int) (trace : List Event),
      (∀ j, j < rules.length → ctx.Err (i + 1 + j) = GoError.nil) →
      (rulesLoop ctx receipt rules i totalPoints trace).err = GoError.nil
      ∧ (rulesLoop ctx receipt rules i totalPoints trace).points
          = rules.foldl (fun total rule =>
              if rule.Apply receipt > 0 then intAdd total (rule.Apply receipt) else total) totalPoints
      ∧ appliedRules (rulesLoop ctx receipt rules i totalPoints trace).trace
          = appliedRules trace ++ rules.map (fun rule => rule.Name) := by
  induction rules with
  | nil =>
    intro i totalPoints trace _
    simp [rulesLoop, appliedRules]
  | cons rule rest ih =>
    intro i totalPoints trace h
    have h0 : ctx.Err (i + 1) = GoError.nil := by simpa using h 0 (by simp)
    have hrest : ∀ j, j < rest.length → ctx.Err (i + 1 + 1 + j) = GoError.nil := by
      intro j hj
      have e : i + 1 + 1 + j = i + 1 + (j + 1) := by omega
      rw [e]
      exact h (j + 1) (by simp; omega)
    by_cases hp : rule.Apply receipt > 0
    · have := ih (i + 1) (intAdd totalPoints (rule.Apply receipt))
        (trace ++ [Event.applied rule.Name] ++
          (if rule.FormatLogMessage (rule.Apply receipt) receipt ≠ "" then
            [Event.info (rule.FormatLogMessage (rule.Apply receipt) receipt)
              [("rule_number", LogValue.int (Int.ofNat i + 1)),
               ("points", LogValue.int (rule.Apply receipt))]]
           else [])) hrest
      rw [rulesLoop_cons_pos _ _ _ _ _ _ _ h0 hp]
      simp only [List.foldl_cons, List.map_cons, if_pos hp]
      refine ⟨this.1, this.2.1, ?_⟩
      rw [this.2.2, appliedRules_step]
      simp
    · have := ih (i + 1) totalPoints (trace ++ [Event.applied rule.Name]) hrest
      rw [rulesLoop_cons_nonpos _ _ _ _ _ _ _ h0 hp]
      simp only [List.foldl_cons, List.map_cons, if_neg hp]
      refine ⟨this.1, this.2.1, ?_⟩
      rw [this.2.2, appliedRules_append]
      simp [appliedRules]

theorem rulesLoop_cancelled_at (ctx : Context) (receipt : Receipt) (rules : List PointRule) :
    ∀ (m i : Nat) (totalPoints : Int) (trace : List Event),
      m < rules.length →
      (∀ j, j < m → ctx.Err (i + 1 + j) = GoError.nil) →
      ctx.Err (i + 1 + m) ≠ GoError.nil →
      (rulesLoop ctx receipt rules i totalPoints trace).points = 0
      ∧ (rulesLoop ctx receipt rules i totalPoints trace).err
          = (Wrap ErrContextCancelled (ctx.Err (i + 1 + m))
              "context cancelled during rule evaluation").toError
      ∧ appliedRules (rulesLoop ctx receipt rules i totalPoints trace).trace
          = appliedRules trace ++ (rules.take m).map (fun rule => rule.Name) := by
  induction rules with
  | nil => intro m i totalPoints trace hm; simp at hm
  | cons rule rest ih =>
    intro m i totalPoints trace hm hbefore hat
    cases m with
    | zero =>
      have hat0 : ctx.Err (i + 1) ≠ GoError.nil := by simpa using hat
      rw [rulesLoop_cons_cancelled _ _ _ _ _ _ _ hat0]
      simp
    | succ m =>
      have h0 : ctx.Err (i + 1) = GoError.nil := by simpa using hbefore 0 (by omega)
      have hm2 : m < rest.length := by simpa using hm
      have hbefore2 : ∀ j, j < m → ctx.Err (i + 1 + 1 + j) = GoError.nil := by
        intro j hj
        have e : i + 1 + 1 + j = i + 1 + (j + 1) := by omega
        rw [e]
        exact hbefore (j + 1) (by omega)
      have hidx : i + 1 + (m + 1) = i + 1 + 1 + m := by omega
      have hat2 : ctx.Err (i + 1 + 1 + m) ≠ GoError.nil := by
        rw [← hidx]; exact hat
      by_cases hp : rule.Apply receipt > 0
      · have := ih m (i + 1) (intAdd totalPoints (rule.Apply receipt))
          (trace ++ [Event.applied rule.Name] ++
            (if rule.FormatLogMessage (rule.Apply receipt) receipt ≠ "" then
              [Event.info (rule.FormatLogMessage (rule.Apply receipt) receipt)
                [("rule_number", LogValue.int (Int.ofNat i + 1)),
                 ("points", LogValue.int (rule.Apply receipt))]]
             else [])) hm2 hbefore2 hat2
        rw [rulesLoop_cons_pos _ _ _ _ _ _ _ h0 hp]
        simp only [List.take_succ_cons, List.map_cons, hidx]
        refine ⟨this.1, this.2.1, ?_⟩
        rw [this.2.2, appliedRules_step]
        simp
      · have := ih m (i + 1) totalPoints (trace ++ [Event.applied rule.Name]) hm2 hbefore2 hat2
        rw [rulesLoop_cons_nonpos _ _ _ _ _ _ _ h0 hp]
        simp only [List.take_succ_cons, List.map_cons, hidx]
        refine ⟨this.1, this.2.1, ?_⟩
        rw [this.2.2, appliedRules_append]
        simp [appliedRules]

theorem foldl_rules_total (receipt : Receipt) (rules : List PointRule) :
    ∀ totalPoints : Int, InInt64 totalPoints →
      rules.foldl (fun total rule =>
          if rule.Apply receipt > 0 then intAdd total (rule.Apply receipt) else total) totalPoints
        = wrap64 (totalPoints + (rules.map (fun rule => max (rule.Apply receipt) 0)).sum) := by
  induction rules with
  | nil => intro totalPoints h; simp [wrap64_of_inInt64 _ h]
  | cons rule rest ih =>
    intro totalPoints h
    simp only [List.foldl_cons, List.map_cons, List.sum_cons]
    by_cases hp : rule.Apply receipt > 0
    · rw [if_pos hp, intAdd, ih _ (wrap64_inInt64 _), wrap64_add_wrap64,
        max_eq_left (le_of_lt hp)]
      congr 1; omega
    · rw [if_neg hp, ih _ h, max_eq_right (not_lt.mp hp)]
      congr 1; omega

theorem CalculatePoints_ctx_congr (rt : GoRuntime) (ctx ctx2 : Context) (receipt : Receipt)
    (h : ∀ i, i ≤ 7 → ctx.Err i = ctx2.Err i) :
    CalculatePoints rt ctx receipt = CalculatePoints rt ctx2 receipt := by
  unfold CalculatePoints
  rw [h 0 (by omega)]
  rw [rulesLoop_ctx_congr ctx ctx2 receipt (GetAllRules rt) 0 0 _ (by
    intro j hj
    have : j < 7 := by simpa [GetAllRules] using hj
    exact h _ (by omega))]

theorem CalculatePoints_not_cancelled (rt : GoRuntime) (ctx : Context) (receipt : Receipt)
    (h : ∀ i, i ≤ 7 → ctx.Err i = GoError.nil) :
    (CalculatePoints rt ctx receipt).err = GoError.nil
    ∧ (CalculatePoints rt ctx receipt).points
        = wrap64 (((GetAllRules rt).map (fun rule => max (rule.Apply receipt) 0)).sum)
    ∧ appliedRules (CalculatePoints rt ctx receipt).trace
        = (GetAllRules rt).map (fun rule => rule.Name) := by
  have hloop := rulesLoop_not_cancelled ctx receipt (GetAllRules rt) 0 0
    [Event.info "Calculating points for receipt"
        [("retailer", LogValue.str receipt.Retailer), ("date", LogValue.str receipt.PurchaseDate),
         ("time", LogValue.str receipt.PurchaseTime),
         ("items_count", LogValue.int (Int.ofNat receipt.Items.length))]] (by
    intro j hj
    have : j < 7 := by simpa [GetAllRules] using hj
    exact h _ (by omega))
  unfold CalculatePoints
  rw [if_neg (by simp [h 0 (by omega)])]
  refine ⟨hloop.1, ?_, ?_⟩
  · rw [hloop.2.1, foldl_rules_total _ _ 0 (by unfold InInt64; omega)]
    simp
  · rw [hloop.2.2]
    simp [appliedRules]

/-! ## Independence of the runtime -/

theorem countAlphanumericChars_foldl_congr (rt rt2 : GoRuntime) (l : List Char) :
    ∀ count : Int, (∀ c ∈ l, c.toNat ≤ 0xFF) →
      l.foldl (fun count char =>
          if IsLetter rt char || IsDigit rt char then count + 1 else count) count
        = l.foldl (fun count char =>
          if IsLetter rt2 char || IsDigit rt2 char then count + 1 else count) count := by
  induction l with
  | nil => intro count _; rfl
  | cons c rest ih =>
    intro count h
    have hc : c.toNat ≤ 0xFF := h c (by simp)
    simp only [List.foldl_cons, IsLetter, IsDigit, if_pos hc]
    exact ih _ (fun d hd => h d (by simp [hd]))

theorem intOfFloat_congr (rt rt2 : GoRuntime) (x : Float64) (t : Int)
    (ht : x.truncate = some t) (hr : InInt64 t) : rt.intOfFloat x = rt2.intOfFloat x := by
  simp [GoRuntime.intOfFloat, ht, hr]

theorem itemDescription_foldl_congr (rt rt2 : GoRuntime) (items : List Item) :
    ∀ totalPoints : Int,
      (items.all (fun item => item.pointsInRange) = true) →
      items.foldl (itemDescriptionStep rt) totalPoints
        = items.foldl (itemDescriptionStep rt2) totalPoints := by
  induction items with
  | nil => intro totalPoints _; rfl
  | cons item rest ih =>
    intro totalPoints h
    simp only [List.all_cons, Bool.and_eq_true] at h
    have hstep : itemDescriptionStep rt totalPoints item = itemDescriptionStep rt2 totalPoints item := by
      unfold itemDescriptionStep
      split
      · have h1 := h.1
        unfold Item.pointsInRange at h1
        generalize hx : (Float64.ceil (Float64.mul item.Price (Float64.ofFraction false 2 10)))
          = x at h1
        cases hxt : x.truncate with
        | none => simp [hxt] at h1
        | some t =>
          rw [hxt] at h1
          rw [intOfFloat_congr rt rt2 x t hxt (by simpa using h1)]
      · rfl
    simp only [List.foldl_cons, hstep]
    exact ih _ h.2

theorem GetAllRules_runtime_indep (rt rt2 : GoRuntime) (receipt : Receipt)
    (h : receipt.runtimeFree = true) :
    List.Forall₂ (fun a b => a.Name = b.Name ∧ a.Apply receipt = b.Apply receipt
      ∧ ∀ p, a.FormatLogMessage p receipt = b.FormatLogMessage p receipt)
      (GetAllRules rt) (GetAllRules rt2) := by
  unfold Receipt.runtimeFree at h
  simp only [Bool.and_eq_true] at h
  have h1 : (RetailerNameRule rt).Apply receipt = (RetailerNameRule rt2).Apply receipt := by
    simp only [RetailerNameRule, countAlphanumericChars]
    exact countAlphanumericChars_foldl_congr rt rt2 _ 0 (by
      intro c hc
      have := List.all_eq_true.mp h.1 c hc
      simpa using this)
  have h5 : (ItemDescriptionLengthRule rt).Apply receipt
      = (ItemDescriptionLengthRule rt2).Apply receipt := by
    simp only [ItemDescriptionLengthRule, calculateItemDescriptionPoints]
    exact itemDescription_foldl_congr rt rt2 _ 0 h.2
  unfold GetAllRules
  refine List.Forall₂.cons ⟨rfl, h1, fun _ => rfl⟩ (List.Forall₂.cons ⟨rfl, rfl, fun _ => rfl⟩
    (List.Forall₂.cons ⟨rfl, rfl, fun _ => rfl⟩ (List.Forall₂.cons ⟨rfl, rfl, fun _ => rfl⟩
    (List.Forall₂.cons ⟨rfl, h5, fun _ => rfl⟩ (List.Forall₂.cons ⟨rfl, rfl, fun _ => rfl⟩
    (List.Forall₂.cons ⟨rfl, rfl, fun _ => rfl⟩ List.Forall₂.nil))))))

theorem CalculatePoints_runtime_indep (rt rt2 : GoRuntime) (ctx : Context) (receipt : Receipt)
    (h : receipt.runtimeFree = true) :
    CalculatePoints rt ctx receipt = CalculatePoints rt2 ctx receipt := by
  unfold CalculatePoints
  rw [rulesLoop_rules_congr ctx receipt _ _ (GetAllRules_runtime_indep rt rt2 receipt h)]

/-- On a receipt that consults no runtime field and under a context that no poll
finds cancelled, `CalculatePoints` is the run under the sample runtime and the
background context. -/
theorem CalculatePoints_eq_sample (rt : GoRuntime) (ctx : Context) (receipt : Receipt)
    (hr : receipt.runtimeFree = true) (h : ∀ i, i ≤ 7 → ctx.Err i = GoError.nil) :
    CalculatePoints rt ctx receipt
      = CalculatePoints sampleRuntime Context.Background receipt := by
  rw [CalculatePoints_runtime_indep rt sampleRuntime ctx receipt hr]
  exact CalculatePoints_ctx_congr _ _ _ _ (fun i hi => by rw [h i hi]; rfl)

/-! ## The engine: sum, reference receipts, cancellation -/

/-- C1, counterexample. On the receipt with one item priced -5.00 the seven
contributions are 4, 50, 25, 0, -1, 0, 0, whose sum is 78, and `CalculatePoints`
returns 79 with a nil error: the negative contribution is not added. -/
theorem C1_sum_counterexample :
    (CalculatePoints sampleRuntime Context.Background refundReceipt).err = GoError.nil
    ∧ (CalculatePoints sampleRuntime Context.Background refundReceipt).points = 79
    ∧ ((GetAllRules sampleRuntime).map (fun rule => rule.Apply refundReceipt)).sum = 78 := by
  decide!

/-- C1, amended. Under a context that none of the eight polls finds cancelled,
`CalculatePoints` returns a nil error and the sum of the contributions that are
greater than zero, reduced to the range of `int`; this is the exact sum of the
seven contributions whenever none of them is negative and the sum is below
`2^63`. -/
theorem C1_sum_of_positive_contributions (rt : GoRuntime) (ctx : Context) (receipt : Receipt)
    (h : ∀ i, i ≤ 7 → ctx.Err i = GoError.nil) :
    (CalculatePoints rt ctx receipt).err = GoError.nil
    ∧ (CalculatePoints rt ctx receipt).points
        = wrap64 (((GetAllRules rt).map (fun rule => max (rule.Apply receipt) 0)).sum)
    ∧ ((∀ rule ∈ GetAllRules rt, 0 ≤ rule.Apply receipt) →
        ((GetAllRules rt).map (fun rule => rule.Apply receipt)).sum < 2 ^ 63 →
        (CalculatePoints rt ctx receipt).points
          = ((GetAllRules rt).map (fun rule => rule.Apply receipt)).sum) := by
  have hc := CalculatePoints_not_cancelled rt ctx receipt h
  refine ⟨hc.1, hc.2.1, ?_⟩
  intro hnonneg hlt
  have hmap : (GetAllRules rt).map (fun rule => max (rule.Apply receipt) 0)
      = (GetAllRules rt).map (fun rule => rule.Apply receipt) :=
    List.map_congr_left (fun rule hrule => max_eq_left (hnonneg rule hrule))
  have hsum0 : 0 ≤ ((GetAllRules rt).map (fun rule => rule.Apply receipt)).sum :=
    List.sum_nonneg (by
      intro x hx
      obtain ⟨rule, hrule, rfl⟩ := List.mem_map.mp hx
      exact hnonneg rule hrule)
  rw [hc.2.1, hmap]
  exact wrap64_of_inInt64 _ ⟨by omega, hlt⟩

/-- C1, witness: the amended statement at the reference receipt, where the
contributions are 6, 0, 0, 10, 6, 6, 0. -/
theorem C1_sum_witness :
    (∀ i, i ≤ 7 → Context.Background.Err i = GoError.nil)
    ∧ (CalculatePoints sampleRuntime Context.Background targetReceipt).points
        = ((GetAllRules sampleRuntime).map (fun rule => rule.Apply targetReceipt)).sum :=
  ⟨fun _ _ => rfl,
   (C1_sum_of_positive_contributions sampleRuntime Context.Background targetReceipt
      (fun _ _ => rfl)).2.2 (by decide!) (by decide!)⟩

/-- C2. For the reference receipt ("Target", 2022-01-01, 13:01, five items, total
35.35) and a context that no poll finds cancelled, `CalculatePoints` returns
28 and a nil error, whatever the runtime. -/
theorem C2_target_receipt (rt : GoRuntime) (ctx : Context)
    (h : ∀ i, i ≤ 7 → ctx.Err i = GoError.nil) :
    (CalculatePoints rt ctx targetReceipt).points = 28
    ∧ (CalculatePoints rt ctx targetReceipt).err = GoError.nil := by
  rw [CalculatePoints_eq_sample rt ctx targetReceipt (by decide!) h]
  decide!

/-- C2, witness: the background context is never cancelled. -/
theorem C2_target_receipt_witness :
    (CalculatePoints sampleRuntime Context.Background targetReceipt).points = 28
    ∧ (CalculatePoints sampleRuntime Context.Background targetReceipt).err = GoError.nil :=
  C2_target_receipt sampleRuntime Context.Background (fun _ _ => rfl)

/-- C3. For the receipt "M&M Corner Market" (2022-03-20, 14:33, four items
"Gatorade" at 2.25, total 9.00) and a context that no poll finds cancelled,
`CalculatePoints` returns 109 and a nil error, whatever the runtime. -/
theorem C3_corner_market_receipt (rt : GoRuntime) (ctx : Context)
    (h : ∀ i, i ≤ 7 → ctx.Err i = GoError.nil) :
    (CalculatePoints rt ctx cornerMarketReceipt).points = 109
    ∧ (CalculatePoints rt ctx cornerMarketReceipt).err = GoError.nil := by
  rw [CalculatePoints_eq_sample rt ctx cornerMarketReceipt (by decide!) h]
  decide!

/-- C3, witness: the background context is never cancelled. -/
theorem C3_corner_market_receipt_witness :
    (CalculatePoints sampleRuntime Context.Background cornerMarketReceipt).points = 109
    ∧ (CalculatePoints sampleRuntime Context.Background cornerMarketReceipt).err = GoError.nil :=
  C3_corner_market_receipt sampleRuntime Context.Background (fun _ _ => rfl)

/-- C4. If the first poll finds the context cancelled, `CalculatePoints`
returns 0 and a non-nil error, the `AppError` built by `Wrap` with code
`ErrContextCancelled` ("RP0003") whose `Unwrap` is the error of the context, and
the call has no event: no rule is applied and nothing is logged. -/
theorem C4_cancelled_before_start (rt : GoRuntime) (ctx : Context) (receipt : Receipt)
    (h : ctx.Err 0 ≠ GoError.nil) :
    (CalculatePoints rt ctx receipt).points = 0
    ∧ (CalculatePoints rt ctx receipt).err
        = (Wrap ErrContextCancelled (ctx.Err 0)
            "context cancelled during point calculation").toError
    ∧ (CalculatePoints rt ctx receipt).err ≠ GoError.nil
    ∧ GetCode (CalculatePoints rt ctx receipt).err = ErrContextCancelled
    ∧ ErrContextCancelled = "RP0003"
    ∧ (Wrap ErrContextCancelled (ctx.Err 0)
        "context cancelled during point calculation").Unwrap = ctx.Err 0
    ∧ (CalculatePoints rt ctx receipt).trace = [] := by
  unfold CalculatePoints
  rw [if_pos h]
  simp [Wrap, AppError.toError, AppError.Unwrap, GetCode, ErrContextCancelled]

/-- C4, witness: a context cancelled from the first poll on, at the reference
receipt. -/
theorem C4_cancelled_before_start_witness :
    (CalculatePoints sampleRuntime (Context.cancelledFrom 0 GoError.Canceled) targetReceipt).points
      = 0
    ∧ (CalculatePoints sampleRuntime (Context.cancelledFrom 0 GoError.Canceled) targetReceipt).err
      = GoError.appError "RP0003" "Request cancelled or timed out"
          "context cancelled during point calculation" GoError.Canceled
    ∧ (CalculatePoints sampleRuntime (Context.cancelledFrom 0 GoError.Canceled)
        targetReceipt).trace = [] :=
  have h := C4_cancelled_before_start sampleRuntime (Context.cancelledFrom 0 GoError.Canceled)
    targetReceipt (by decide)
  ⟨h.1, h.2.1, h.2.2.2.2.2.2⟩

/-- C5. For `k` from 1 to 7, if the polls before rule `k` find the context not
cancelled and the poll made before rule `k` finds it cancelled, `CalculatePoints`
returns 0 (not the points accumulated so far) with the `ErrContextCancelled`
error that wraps the error of the context, and exactly the rules 1 to `k - 1`
have been applied. -/
theorem C5_cancelled_before_rule (rt : GoRuntime) (ctx : Context) (receipt : Receipt) (k : Nat)
    (hk1 : 1 ≤ k) (hk7 : k ≤ 7)
    (hbefore : ∀ i, i < k → ctx.Err i = GoError.nil) (hat : ctx.Err k ≠ GoError.nil) :
    (CalculatePoints rt ctx receipt).points = 0
    ∧ (CalculatePoints rt ctx receipt).err
        = (Wrap ErrContextCancelled (ctx.Err k)
            "context cancelled during rule evaluation").toError
    ∧ GetCode (CalculatePoints rt ctx receipt).err = ErrContextCancelled
    ∧ (Wrap ErrContextCancelled (ctx.Err k)
        "context cancelled during rule evaluation").Unwrap = ctx.Err k
    ∧ appliedRules (CalculatePoints rt ctx receipt).trace
        = ((GetAllRules rt).take (k - 1)).map (fun rule => rule.Name) := by
  obtain ⟨m, rfl⟩ : ∃ m, k = m + 1 := ⟨k - 1, by omega⟩
  have hidx : 0 + 1 + m = m + 1 := by omega
  have hloop := rulesLoop_cancelled_at ctx receipt (GetAllRules rt) m 0 0
    [Event.info "Calculating points for receipt"
        [("retailer", LogValue.str receipt.Retailer), ("date", LogValue.str receipt.PurchaseDate),
         ("time", LogValue.str receipt.PurchaseTime),
         ("items_count", LogValue.int (Int.ofNat receipt.Items.length))]]
    (by simp [GetAllRules]; omega)
    (by intro j hj; rw [show 0 + 1 + j = j + 1 by omega]; exact hbefore _ (by omega))
    (by rw [hidx]; exact hat)
  rw [hidx] at hloop
  unfold CalculatePoints
  rw [if_neg (by simp [hbefore 0 (by omega)])]
  refine ⟨hloop.1, hloop.2.1, ?_, rfl, ?_⟩
  · rw [hloop.2.1]; rfl
  · rw [hloop.2.2]; simp [appliedRules]

/-- C5, witness: a context cancelled from the poll before rule 3 on, at the
second receipt: the 64 points of the first two rules are not returned. -/
theorem C5_cancelled_before_rule_witness :
    (CalculatePoints sampleRuntime (Context.cancelledFrom 3 GoError.DeadlineExceeded)
        cornerMarketReceipt).points = 0
    ∧ appliedRules (CalculatePoints sampleRuntime
        (Context.cancelledFrom 3 GoError.DeadlineExceeded) cornerMarketReceipt).trace
        = ["RetailerNameRule", "RoundDollarRule"] :=
  have h := C5_cancelled_before_rule sampleRuntime
    (Context.cancelledFrom 3 GoError.DeadlineExceeded) cornerMarketReceipt 3
    (by decide) (by decide) (by decide) (by decide)
  ⟨h.1, h.2.2.2.2⟩

/-! ## Malformed date and time -/

/-- C6. Under a context that no poll finds cancelled `CalculatePoints` returns a
nil error for every receipt; a purchase date that does not parse makes the
odd-day rule contribute 0, a purchase time that does not parse makes the
afternoon rule contribute 0, and no other rule reads either field: replacing the
date and the time leaves the contributions of the five other rules unchanged,
replacing the time leaves the odd-day rule unchanged and replacing the date
leaves the afternoon rule unchanged. -/
theorem C6_malformed_date_time (rt : GoRuntime) (ctx : Context) (receipt : Receipt)
    (h : ∀ i, i ≤ 7 → ctx.Err i = GoError.nil) :
    (CalculatePoints rt ctx receipt).err = GoError.nil
    ∧ (parseDate receipt.PurchaseDate = none → OddDayRule.Apply receipt = 0)
    ∧ (parseClock receipt.PurchaseTime = none → AfternoonTimeRule.Apply receipt = 0)
    ∧ (∀ d t : String,
        (RetailerNameRule rt).Apply { receipt with PurchaseDate := d, PurchaseTime := t }
          = (RetailerNameRule rt).Apply receipt
        ∧ RoundDollarRule.Apply { receipt with PurchaseDate := d, PurchaseTime := t }
          = RoundDollarRule.Apply receipt
        ∧ QuarterMultipleRule.Apply { receipt with PurchaseDate := d, PurchaseTime := t }
          = QuarterMultipleRule.Apply receipt
        ∧ ItemPairsRule.Apply { receipt with PurchaseDate := d, PurchaseTime := t }
          = ItemPairsRule.Apply receipt
        ∧ (ItemDescriptionLengthRule rt).Apply { receipt with PurchaseDate := d, PurchaseTime := t }
          = (ItemDescriptionLengthRule rt).Apply receipt
        ∧ OddDayRule.Apply { receipt with PurchaseTime := t } = OddDayRule.Apply receipt
        ∧ AfternoonTimeRule.Apply { receipt with PurchaseDate := d }
          = AfternoonTimeRule.Apply receipt) := by
  refine ⟨(CalculatePoints_not_cancelled rt ctx receipt h).1, ?_, ?_, ?_⟩
  · intro hd
    simp [OddDayRule, hd]
  · intro ht
    simp [AfternoonTimeRule, calculateAfternoonTimePoints, ht]
  · intro d t
    exact ⟨rfl, rfl, rfl, rfl, rfl, rfl, rfl⟩

/-- C6, witness: the receipt with date "invalid" and time "25:61" scores 31
(6 + 25) with a nil error; both parses fail and both rules contribute 0. -/
theorem C6_malformed_date_time_witness :
    parseDate malformedReceipt.PurchaseDate = none
    ∧ parseClock malformedReceipt.PurchaseTime = none
    ∧ (CalculatePoints sampleRuntime Context.Background malformedReceipt).err = GoError.nil
    ∧ OddDayRule.Apply malformedReceipt = 0
    ∧ AfternoonTimeRule.Apply malformedReceipt = 0 :=
  have h := C6_malformed_date_time sampleRuntime Context.Background malformedReceipt
    (fun _ _ => rfl)
  ⟨by decide, by decide, h.1, h.2.1 (by decide), h.2.2.1 (by decide)⟩

/-! ## Non-negativity -/

theorem countAlphanumericChars_foldl (rt : GoRuntime) (l : List Char) :
    ∀ count : Int,
      l.foldl (fun count char =>
          if IsLetter rt char || IsDigit rt char then count + 1 else count) count
        = count + Int.ofNat (l.filter (fun c => IsLetter rt c || IsDigit rt c)).length := by
  induction l with
  | nil => intro count; simp
  | cons c rest ih =>
    intro count
    simp only [List.foldl_cons]
    rw [ih]
    by_cases hc : (IsLetter rt c || IsDigit rt c) = true
    · simp only [hc, if_true, List.filter_cons_of_pos, List.length_cons, Int.ofNat_eq_coe]
      push_cast
      omega
    · simp only [hc, if_false, List.filter_cons_of_neg, Bool.false_eq_true, not_false_eq_true]

theorem itemDescriptionStep_total (rt : GoRuntime) (totalPoints : Int) (item : Item) :
    itemDescriptionStep rt totalPoints item
      = if len (TrimSpace item.ShortDescription) > 0 ∧ len (TrimSpace item.ShortDescription) % 3 = 0
        then wrap64 (totalPoints + itemDescriptionStep rt 0 item) else totalPoints := by
  unfold itemDescriptionStep
  split
  · simp only [intAdd, zero_add]
    unfold wrap64
    omega
  · rfl

theorem itemDescription_foldl_total (rt : GoRuntime) (items : List Item) :
    ∀ totalPoints : Int, InInt64 totalPoints →
      items.foldl (itemDescriptionStep rt) totalPoints
        = wrap64 (totalPoints + (items.map (itemDescriptionStep rt 0)).sum) := by
  induction items with
  | nil => intro totalPoints h; simp [wrap64_of_inInt64 _ h]
  | cons item rest ih =>
    intro totalPoints h
    simp only [List.foldl_cons, List.map_cons, List.sum_cons]
    rw [itemDescriptionStep_total]
    split
    · rw [ih _ (wrap64_inInt64 _), wrap64_add_wrap64, add_assoc]
    · rename_i hc
      have h0 : itemDescriptionStep rt 0 item = 0 := by
        unfold itemDescriptionStep
        rw [if_neg hc]
      rw [ih _ h, h0, zero_add]

theorem pointTwo_finite : ∃ c, Float64.ofFraction false 2 10 = Float64.fin false c :=
  ⟨3602879701896397 * 2 ^ 1020, by decide!⟩

theorem ofNat_zero_eq : Float64.ofNat 0 = Float64.fin false 0 := by decide!

theorem round_neg_zero : Float64.round true 0 Float64.unit = Float64.fin true 0 := by decide!

theorem mul_neg_zero (c : Nat) :
    Float64.mul (Float64.fin true 0) (Float64.fin false c) = Float64.fin true 0 := by
  show Float64.round true (0 * c) Float64.unit = Float64.fin true 0
  rw [Nat.zero_mul]
  exact round_neg_zero

theorem truncate_ceil_neg_zero : (Float64.ceil (Float64.fin true 0)).truncate = some 0 := by
  show some (-Int.ofNat (0 / Float64.unit * Float64.unit / Float64.unit)) = some 0
  rw [Nat.zero_div, Nat.zero_mul, Nat.zero_div]
  rfl

/-- The integer part of `ceil(price * 0.2)` is not negative when `0 <= price`. -/
theorem truncate_ceil_nonneg (price : Float64) (t : Int)
    (hp : Float64.le (Float64.ofNat 0) price = true)
    (ht : (Float64.ceil (Float64.mul price (Float64.ofFraction false 2 10))).truncate = some t) :
    0 ≤ t := by
  obtain ⟨c, hc⟩ := pointTwo_finite
  rw [hc] at ht
  rw [ofNat_zero_eq] at hp
  cases price with
  | nan => simp [Float64.le] at hp
  | inf s =>
    simp only [Float64.mul] at ht
    split at ht <;> simp [Float64.ceil, Float64.truncate] at ht
  | fin s k =>
    cases s with
    | false =>
      simp only [Float64.mul, Float64.round, bne_self_eq_false] at ht
      split at ht
      · simp only [Float64.ceil, Float64.truncate, Option.some.injEq] at ht
        rw [← ht]
        exact Int.ofNat_nonneg _
      · simp [Float64.ceil, Float64.truncate] at ht
    | true =>
      have hk : k = 0 := by simpa [Float64.le] using hp
      subst hk
      rw [mul_neg_zero, truncate_ceil_neg_zero] at ht
      simp only [Option.some.injEq] at ht
      omega

theorem itemDescriptionStep_zero_nonneg (rt : GoRuntime) (item : Item)
    (hp : Float64.le (Float64.ofNat 0) item.Price = true)
    (hrange : item.pointsInRange = true) :
    0 ≤ itemDescriptionStep rt 0 item := by
  unfold Item.pointsInRange at hrange
  obtain ⟨t, ht, hr⟩ : ∃ t, (Float64.ceil (Float64.mul item.Price
      (Float64.ofFraction false 2 10))).truncate = some t ∧ InInt64 t := by
    cases hxt : (Float64.ceil (Float64.mul item.Price (Float64.ofFraction false 2 10))).truncate with
    | none => simp [hxt] at hrange
    | some t =>
      rw [hxt] at hrange
      exact ⟨t, rfl, by simpa using hrange⟩
  have h0 := truncate_ceil_nonneg item.Price t hp ht
  unfold itemDescriptionStep
  split
  · simp only [intAdd, zero_add, GoRuntime.intOfFloat, ht, if_pos hr]
    rw [wrap64_of_inInt64 _ hr]
    exact h0
  · exact le_refl 0

/-- C7, counterexample. On the receipt with one item "abc" priced -5.00 the
item-description rule returns -1: `-5.00 * 0.2` is `-1.0`, whose ceiling
converts to the `int` -1 on every runtime. -/
theorem C7_rules_nonneg_counterexample :
    (ItemDescriptionLengthRule sampleRuntime).Apply refundReceipt = -1 := by
  decide!

/-- C7, amended. On every receipt the six rules other than the item-description
rule return a value that is at least 0; the item-description rule returns a
value that is at least 0 when every item price satisfies `0 <= price`, every
`ceil(price * 0.2)` has its integer part in the range of `int`, and the exact
sum of the item contributions is below `2^63`. -/
theorem C7_rules_nonneg (rt : GoRuntime) (receipt : Receipt) :
    0 ≤ (RetailerNameRule rt).Apply receipt
    ∧ 0 ≤ RoundDollarRule.Apply receipt
    ∧ 0 ≤ QuarterMultipleRule.Apply receipt
    ∧ 0 ≤ ItemPairsRule.Apply receipt
    ∧ 0 ≤ OddDayRule.Apply receipt
    ∧ 0 ≤ AfternoonTimeRule.Apply receipt
    ∧ ((∀ item ∈ receipt.Items,
          Float64.le (Float64.ofNat 0) item.Price = true ∧ item.pointsInRange = true) →
        (receipt.Items.map (itemDescriptionStep rt 0)).sum < 2 ^ 63 →
        0 ≤ (ItemDescriptionLengthRule rt).Apply receipt) := by
  refine ⟨?_, ?_, ?_, ?_, ?_, ?_, ?_⟩
  · show 0 ≤ countAlphanumericChars rt receipt.Retailer
    unfold countAlphanumericChars
    rw [countAlphanumericChars_foldl]
    simp
  · show 0 ≤ (if Float64.eq receipt.Total (Float64.floor receipt.Total) then (50 : Int) else 0)
    split <;> omega
  · show 0 ≤ (if Float64.eq (Float64.mod (Float64.mul receipt.Total (Float64.ofNat 100))
      (Float64.ofNat 25)) (Float64.ofNat 0) then (25 : Int) else 0)
    split <;> omega
  · show 0 ≤ (Int.ofNat receipt.Items.length / 2) * 5
    have : (0 : Int) ≤ Int.ofNat receipt.Items.length := Int.ofNat_nonneg _
    omega
  · simp only [OddDayRule]
    split
    · omega
    · split <;> omega
  · simp only [AfternoonTimeRule, calculateAfternoonTimePoints]
    split
    · omega
    · split <;> omega
  · intro hitems hsum
    show 0 ≤ calculateItemDescriptionPoints rt receipt
    unfold calculateItemDescriptionPoints
    have hnonneg : 0 ≤ (receipt.Items.map (itemDescriptionStep rt 0)).sum :=
      List.sum_nonneg (by
        intro x hx
        obtain ⟨item, hitem, rfl⟩ := List.mem_map.mp hx
        exact itemDescriptionStep_zero_nonneg rt item (hitems item hitem).1 (hitems item hitem).2)
    rw [itemDescription_foldl_total rt _ 0 (by unfold InInt64; omega), zero_add,
      wrap64_of_inInt64 _ ⟨by omega, hsum⟩]
    exact hnonneg

/-- C7, witness: the conditions on the items hold at the reference receipt. -/
theorem C7_rules_nonneg_witness :
    (∀ item ∈ targetReceipt.Items,
        Float64.le (Float64.ofNat 0) item.Price = true ∧ item.pointsInRange = true)
    ∧ 0 ≤ (ItemDescriptionLengthRule sampleRuntime).Apply targetReceipt :=
  ⟨by decide!, (C7_rules_nonneg sampleRuntime targetReceipt).2.2.2.2.2.2 (by decide!) (by decide!)⟩

/-- C8, counterexample. On the receipt whose two items contribute `2^63 - 1024`
and `1023` the running total is 11 before the item-description rule and
overflows when `2^63 - 1` is added: `CalculatePoints` returns a negative score
with a nil error. No conversion is out of range, so every runtime agrees. -/
theorem C8_score_nonneg_counterexample :
    overflowReceipt.runtimeFree = true
    ∧ (CalculatePoints sampleRuntime Context.Background overflowReceipt).err = GoError.nil
    ∧ (CalculatePoints sampleRuntime Context.Background overflowReceipt).points
        = -9223372036854775798 := by
  decide!

/-- C8, amended. Under a context that no poll finds cancelled, the score is at
least 0 whenever the sum of the positive contributions is below `2^63`, that is,
whenever the running total does not overflow. -/
theorem C8_score_nonneg (rt : GoRuntime) (ctx : Context) (receipt : Receipt)
    (h : ∀ i, i ≤ 7 → ctx.Err i = GoError.nil)
    (hsum : ((GetAllRules rt).map (fun rule => max (rule.Apply receipt) 0)).sum < 2 ^ 63) :
    0 ≤ (CalculatePoints rt ctx receipt).points := by
  have hnonneg : 0 ≤ ((GetAllRules rt).map (fun rule => max (rule.Apply receipt) 0)).sum :=
    List.sum_nonneg (by
      intro x hx
      obtain ⟨rule, _, rfl⟩ := List.mem_map.mp hx
      exact le_max_right _ _)
  rw [(CalculatePoints_not_cancelled rt ctx receipt h).2.1, wrap64_of_inInt64 _ ⟨by omega, hsum⟩]
  exact hnonneg

/-- C8, witness: the reference receipt, whose positive contributions sum to 28. -/
theorem C8_score_nonneg_witness :
    ((GetAllRules sampleRuntime).map (fun rule => max (rule.Apply targetReceipt) 0)).sum < 2 ^ 63
    ∧ 0 ≤ (CalculatePoints sampleRuntime Context.Background targetReceipt).points :=
  ⟨by decide!, C8_score_nonneg sampleRuntime Context.Background targetReceipt (fun _ _ => rfl)
    (by decide!)⟩

/-! ## The rule list -/

/-- C9. `GetAllRules` returns seven rules whose names are, in order,
RetailerNameRule, RoundDollarRule, QuarterMultipleRule, ItemPairsRule,
ItemDescriptionLengthRule, OddDayRule, AfternoonTimeRule; the names are pairwise
distinct; and under a context that no poll finds cancelled `CalculatePoints`
applies the rules in exactly that order, each once. -/
theorem C9_rule_order (rt : GoRuntime) (ctx : Context) (receipt : Receipt)
    (h : ∀ i, i ≤ 7 → ctx.Err i = GoError.nil) :
    (GetAllRules rt).length = 7
    ∧ (GetAllRules rt).map (fun rule => rule.Name)
        = ["RetailerNameRule", "RoundDollarRule", "QuarterMultipleRule", "ItemPairsRule",
           "ItemDescriptionLengthRule", "OddDayRule", "AfternoonTimeRule"]
    ∧ ((GetAllRules rt).map (fun rule => rule.Name)).Nodup
    ∧ appliedRules (CalculatePoints rt ctx receipt).trace
        = ["RetailerNameRule", "RoundDollarRule", "QuarterMultipleRule", "ItemPairsRule",
           "ItemDescriptionLengthRule", "OddDayRule", "AfternoonTimeRule"] := by
  have hnames : (GetAllRules rt).map (fun rule => rule.Name)
      = ["RetailerNameRule", "RoundDollarRule", "QuarterMultipleRule", "ItemPairsRule",
         "ItemDescriptionLengthRule", "OddDayRule", "AfternoonTimeRule"] := rfl
  refine ⟨rfl, hnames, ?_, ?_⟩
  · rw [hnames]; decide
  · rw [(CalculatePoints_not_cancelled rt ctx receipt h).2.2, hnames]

/-- C9, witness: the order of application at the reference receipt. -/
theorem C9_rule_order_witness :
    appliedRules (CalculatePoints sampleRuntime Context.Background targetReceipt).trace
      = ["RetailerNameRule", "RoundDollarRule", "QuarterMultipleRule", "ItemPairsRule",
         "ItemDescriptionLengthRule", "OddDayRule", "AfternoonTimeRule"] :=
  (C9_rule_order sampleRuntime Context.Background targetReceipt (fun _ _ => rfl)).2.2.2

/-! ## Facts about the range tables of package `unicode` -/

/-- The five tables are ascending runs; their sizes are the numbers of code
points that Unicode 15.0.0 gives the categories L, Nd, P and S and the property
White_Space. -/
theorem tables_wellFormed :
    (rangesSorted Letter = true ∧ rangesCount Letter = 136104)
    ∧ (rangesSorted Digit = true ∧ rangesCount Digit = 680)
    ∧ (rangesSorted Punct = true ∧ rangesCount Punct = 842)
    ∧ (rangesSorted Symbol = true ∧ rangesCount Symbol = 7770)
    ∧ (rangesSorted White_Space = true ∧ rangesCount White_Space = 25) := by
  decide!

/-- White space, punctuation and symbols share no code point with the letters
or with the digits. -/
theorem tables_disjoint :
    rangesDisjoint White_Space Letter = true ∧ rangesDisjoint White_Space Digit = true
    ∧ rangesDisjoint Punct Letter = true ∧ rangesDisjoint Punct Digit = true
    ∧ rangesDisjoint Symbol Letter = true ∧ rangesDisjoint Symbol Digit = true := by
  decide!

/-- On Latin-1 the fast paths of `IsLetter`, `IsDigit`, `IsPunct`, `IsSymbol` and
`IsSpace` agree with the tables. -/
theorem latin1_tables : ∀ n : Nat, n < 256 →
    latin1Letter n = Is Letter (Char.ofNat n)
    ∧ (decide (0x30 ≤ n) && decide (n ≤ 0x39)) = Is Digit (Char.ofNat n)
    ∧ latin1Punct n = Is Punct (Char.ofNat n)
    ∧ latin1Symbol n = Is Symbol (Char.ofNat n)
    ∧ IsSpace (Char.ofNat n) = Is White_Space (Char.ofNat n) := by
  decide!

/-- On Latin-1 a white-space, punctuation or symbol character is neither a
letter nor a digit. -/
theorem latin1_classes : ∀ n : Nat, n < 256 →
    (IsSpace (Char.ofNat n) || latin1Punct n || latin1Symbol n) = true →
    (latin1Letter n || (decide (0x30 ≤ n) && decide (n ≤ 0x39))) = false := by
  decide!

theorem Is_covered (t : List (Nat × Nat)) (r : Char) (h : Is t r = true) :
    ∃ run ∈ t, run.1 ≤ r.toNat ∧ r.toNat ≤ run.2 := by
  induction t with
  | nil => simp [Is] at h
  | cons p rest ih =>
    unfold Is at h
    by_cases h1 : r.toNat < p.1
    · simp [h1] at h
    · by_cases h2 : r.toNat ≤ p.2
      · exact ⟨p, by simp, by omega, h2⟩
      · simp only [h1, h2, if_false] at h
        obtain ⟨run, hrun, hb⟩ := ih h
        exact ⟨run, by simp [hrun], hb⟩

theorem rangesSorted_cons (p : Nat × Nat) (t : List (Nat × Nat))
    (h : rangesSorted (p :: t) = true) :
    p.1 ≤ p.2 ∧ rangesSorted t = true ∧ ∀ run ∈ t, p.2 < run.1 := by
  induction t generalizing p with
  | nil => exact ⟨by simpa [rangesSorted] using h, rfl, by simp⟩
  | cons q rest ih =>
    simp only [rangesSorted, Bool.and_eq_true, decide_eq_true_eq] at h
    obtain ⟨hq1, hq2, hq3⟩ := ih q h.2
    refine ⟨h.1.1, h.2, ?_⟩
    intro run hrun
    rcases List.mem_cons.mp hrun with rfl | hr
    · omega
    · have := hq3 run hr
      omega

theorem Is_of_mem (t : List (Nat × Nat)) (r : Char) (hs : rangesSorted t = true)
    (run : Nat × Nat) (hrun : run ∈ t) (h1 : run.1 ≤ r.toNat) (h2 : r.toNat ≤ run.2) :
    Is t r = true := by
  induction t with
  | nil => simp at hrun
  | cons p rest ih =>
    obtain ⟨hp1, hp2, hp3⟩ := rangesSorted_cons p rest hs
    unfold Is
    rcases List.mem_cons.mp hrun with rfl | hr
    · simp [h2, Nat.not_lt.mpr h1]
    · have := hp3 run hr
      have n1 : ¬ r.toNat < p.1 := by omega
      have n2 : ¬ r.toNat ≤ p.2 := by omega
      simp only [n1, n2, if_false]
      exact ih hp2 hr

theorem disjointRuns_sound : ∀ (fuel : Nat) (a b : List (Nat × Nat)),
    rangesSorted a = true → rangesSorted b = true → disjointRuns fuel a b = true →
    ∀ p ∈ a, ∀ q ∈ b, p.2 < q.1 ∨ q.2 < p.1 := by
  intro fuel
  induction fuel with
  | zero => intro a b _ _ h; simp [disjointRuns] at h
  | succ fuel ih =>
    intro a b ha hb h
    cases a with
    | nil => intro p hp; simp at hp
    | cons p a =>
      cases b with
      | nil => intro _ _ q hq; simp at hq
      | cons q b =>
        obtain ⟨hp1, hp2, hp3⟩ := rangesSorted_cons p a ha
        obtain ⟨hq1, hq2, hq3⟩ := rangesSorted_cons q b hb
        unfold disjointRuns at h
        by_cases c1 : p.2 < q.1
        · rw [if_pos c1] at h
          have hrec := ih a (q :: b) hp2 hb h
          intro x hx y hy
          rcases List.mem_cons.mp hx with rfl | hxa
          · rcases List.mem_cons.mp hy with rfl | hyb
            · exact Or.inl c1
            · have := hq3 y hyb
              exact Or.inl (by omega)
          · exact hrec x hxa y hy
        · rw [if_neg c1] at h
          by_cases c2 : q.2 < p.1
          · rw [if_pos c2] at h
            have hrec := ih (p :: a) b ha hq2 h
            intro x hx y hy
            rcases List.mem_cons.mp hy with rfl | hyb
            · rcases List.mem_cons.mp hx with rfl | hxa
              · exact Or.inr c2
              · have := hp3 x hxa
                exact Or.inr (by omega)
            · exact hrec x hx y hyb
          · rw [if_neg c2] at h
            exact absurd h (by simp)

/-- A code point of one of two disjoint tables is not in the other. -/
theorem Is_disjoint (a b : List (Nat × Nat)) (h : rangesDisjoint a b = true) (r : Char)
    (ha : Is a r = true) : Is b r = false := by
  simp only [rangesDisjoint, Bool.and_eq_true] at h
  obtain ⟨⟨hsa, hsb⟩, hd⟩ := h
  by_contra hb
  have hb2 : Is b r = true := by simpa using hb
  obtain ⟨p, hp, hp1, hp2⟩ := Is_covered a r ha
  obtain ⟨q, hq, hq1, hq2⟩ := Is_covered b r hb2
  rcases disjointRuns_sound _ a b hsa hsb hd p hp q hq with h1 | h1 <;> omega

/-- Above Latin-1 `IsSpace` is membership in `unicode.White_Space`. -/
theorem IsSpace_table (c : Char) (hc : ¬ c.toNat ≤ 0xFF) (h : IsSpace c = true) :
    Is White_Space c = true := by
  have hs : rangesSorted White_Space = true := by decide
  simp only [IsSpace, if_neg hc, Bool.or_eq_true, Bool.and_eq_true, beq_iff_eq,
    decide_eq_true_eq] at h
  rcases h with (((((h | h) | h) | h) | h) | h) | h
  · exact Is_of_mem _ c hs (0x1680, 0x1680) (by decide) (by simp only; omega) (by simp only; omega)
  · exact Is_of_mem _ c hs (0x2000, 0x200A) (by decide) (by simp only; omega) (by simp only; omega)
  · exact Is_of_mem _ c hs (0x2028, 0x2029) (by decide) (by simp only; omega) (by simp only; omega)
  · exact Is_of_mem _ c hs (0x2028, 0x2029) (by decide) (by simp only; omega) (by simp only; omega)
  · exact Is_of_mem _ c hs (0x202F, 0x202F) (by decide) (by simp only; omega) (by simp only; omega)
  · exact Is_of_mem _ c hs (0x205F, 0x205F) (by decide) (by simp only; omega) (by simp only; omega)
  · exact Is_of_mem _ c hs (0x3000, 0x3000) (by decide) (by simp only; omega) (by simp only; omega)

/-- With the tables of Go, what `IsLetter` or `IsDigit` accepts is what the
tables `unicode.Letter` and `unicode.Digit` hold, on Latin-1 too. -/
theorem counted_unicodeRuntime (ov : Float64 → Int) (c : Char) :
    (IsLetter (unicodeRuntime ov) c || IsDigit (unicodeRuntime ov) c)
      = (Is Letter c || Is Digit c) := by
  by_cases hc : c.toNat ≤ 0xFF
  · have h := latin1_tables c.toNat (by omega)
    rw [Char.ofNat_toNat] at h
    simp only [IsLetter, IsDigit, if_pos hc, h.1, ← h.2.1]
  · simp only [IsLetter, IsDigit, if_neg hc, unicodeRuntime]

/-- On Latin-1, for every runtime, white space, punctuation and symbols are not
counted. -/
theorem not_counted_latin1 (rt : GoRuntime) (c : Char) (hc : c.toNat ≤ 0xFF)
    (h : (IsSpace c || IsPunct c || IsSymbol c) = true) :
    (IsLetter rt c || IsDigit rt c) = false := by
  have h2 := latin1_classes c.toNat (by omega)
  rw [Char.ofNat_toNat] at h2
  simp only [IsPunct, IsSymbol, if_pos hc] at h
  simp only [IsLetter, IsDigit, if_pos hc]
  exact h2 h

/-- With the tables of Go no white-space, punctuation or symbol character is
counted. -/
theorem not_counted_unicodeRuntime (ov : Float64 → Int) (c : Char)
    (h : (IsSpace c || IsPunct c || IsSymbol c) = true) :
    (IsLetter (unicodeRuntime ov) c || IsDigit (unicodeRuntime ov) c) = false := by
  by_cases hc : c.toNat ≤ 0xFF
  · exact not_counted_latin1 _ c hc h
  · rw [counted_unicodeRuntime]
    obtain ⟨d1, d2, d3, d4, d5, d6⟩ := tables_disjoint
    simp only [IsPunct, IsSymbol, if_neg hc, Bool.or_eq_true] at h
    rcases h with (h | h) | h
    · have hw := IsSpace_table c hc h
      rw [Is_disjoint _ _ d1 c hw, Is_disjoint _ _ d2 c hw]; rfl
    · rw [Is_disjoint _ _ d3 c h, Is_disjoint _ _ d4 c h]; rfl
    · rw [Is_disjoint _ _ d5 c h, Is_disjoint _ _ d6 c h]; rfl

/-- Characters that are not counted can be removed without changing the count. -/
theorem countAlphanumericChars_filter (rt : GoRuntime) (keep : Char → Bool) (s : String)
    (h : ∀ c : Char, (IsLetter rt c || IsDigit rt c) = true → keep c = true) :
    countAlphanumericChars rt (String.mk (s.data.filter keep)) = countAlphanumericChars rt s := by
  unfold countAlphanumericChars
  rw [countAlphanumericChars_foldl, countAlphanumericChars_foldl, List.filter_filter]
  congr 3
  apply List.filter_congr
  intro c _
  by_cases hc : (IsLetter rt c || IsDigit rt c) = true
  · rw [hc, h c hc]; rfl
  · simp only [Bool.not_eq_true] at hc
    rw [hc]; rfl

/-! ## The retailer-name rule -/

theorem countAlphanumericChars_latin1 (rt : GoRuntime) (s : String)
    (h : s.data.all (fun c => decide (c.toNat ≤ 0xFF)) = true) :
    countAlphanumericChars rt s = countAlphanumericChars sampleRuntime s := by
  unfold countAlphanumericChars
  exact countAlphanumericChars_foldl_congr rt sampleRuntime _ 0 (by
    intro c hc
    have := List.all_eq_true.mp h c hc
    simpa using this)

/-- C10. `RetailerNameRule.Apply` returns the number of characters of the
retailer that `unicode.IsLetter` or `unicode.IsDigit` accepts, every occurrence
counted. For every runtime, a Latin-1 character is accepted exactly when it is
one of 0-9, A-Z, a-z, U+00AA, U+00B5, U+00BA, U+00C0-U+00D6, U+00D8-U+00F6,
U+00F8-U+00FF, so no Latin-1 white space, punctuation or symbol is counted; a
character above Latin-1 is accepted exactly when the table `unicode.Letter` or
`unicode.Digit` of the runtime holds it. With the tables of Go the accepted
characters are those of general category L or Nd, no white-space, punctuation or
symbol character of Unicode is accepted, and removing all of them from a string
leaves the value unchanged. The empty string gives 0, "Target" 6, "Target Store"
11 and "M&M Corner Market" 14 for every runtime; with the tables of Go a string
of "Café", U+3000, an em dash, two CJK letters, a right single quotation mark,
a bullet, a euro sign, an inverted exclamation mark, a multiplication sign and
the Arabic-Indic digits four and two gives 8. -/
theorem C10_retailer_name (rt : GoRuntime) (receipt : Receipt) :
    (RetailerNameRule rt).Apply receipt = countAlphanumericChars rt receipt.Retailer
    ∧ countAlphanumericChars rt receipt.Retailer
        = Int.ofNat (receipt.Retailer.data.filter (fun c => IsLetter rt c || IsDigit rt c)).length
    ∧ (∀ c : Char, c.toNat ≤ 0xFF →
        ((IsLetter rt c || IsDigit rt c) = true ↔
          (0x30 ≤ c.toNat ∧ c.toNat ≤ 0x39) ∨ (0x41 ≤ c.toNat ∧ c.toNat ≤ 0x5A)
            ∨ (0x61 ≤ c.toNat ∧ c.toNat ≤ 0x7A) ∨ c.toNat = 0xAA ∨ c.toNat = 0xB5
            ∨ c.toNat = 0xBA ∨ (0xC0 ≤ c.toNat ∧ c.toNat ≤ 0xD6)
            ∨ (0xD8 ≤ c.toNat ∧ c.toNat ≤ 0xF6) ∨ (0xF8 ≤ c.toNat ∧ c.toNat ≤ 0xFF)))
    ∧ (∀ c : Char, c.toNat ≤ 0xFF → (IsSpace c || IsPunct c || IsSymbol c) = true →
        (IsLetter rt c || IsDigit rt c) = false)
    ∧ (∀ c : Char, 0xFF < c.toNat →
        (IsLetter rt c || IsDigit rt c) = (rt.letterTable c || rt.digitTable c))
    ∧ (∀ (ov : Float64 → Int) (c : Char),
        (IsLetter (unicodeRuntime ov) c || IsDigit (unicodeRuntime ov) c)
          = (Is Letter c || Is Digit c))
    ∧ (∀ (ov : Float64 → Int) (c : Char), (IsSpace c || IsPunct c || IsSymbol c) = true →
        (IsLetter (unicodeRuntime ov) c || IsDigit (unicodeRuntime ov) c) = false)
    ∧ (∀ (ov : Float64 → Int) (s : String),
        countAlphanumericChars (unicodeRuntime ov)
            (String.mk (s.data.filter (fun c => !(IsSpace c || IsPunct c || IsSymbol c))))
          = countAlphanumericChars (unicodeRuntime ov) s)
    ∧ countAlphanumericChars rt "" = 0
    ∧ countAlphanumericChars rt "Target" = 6
    ∧ countAlphanumericChars rt "Target Store" = 11
    ∧ countAlphanumericChars rt "M&M Corner Market" = 14
    ∧ (∀ ov : Float64 → Int, countAlphanumericChars (unicodeRuntime ov)
        "Caf\u00e9\u3000\u2014\u6771\u4eac\u2019\u2022\u20ac\u00a1\u00d7\u0664\u0662" = 8) := by
  refine ⟨rfl, ?_, ?_, fun c hc h => not_counted_latin1 rt c hc h, ?_,
    counted_unicodeRuntime, not_counted_unicodeRuntime, ?_, rfl, ?_, ?_, ?_, ?_⟩
  · unfold countAlphanumericChars
    rw [countAlphanumericChars_foldl, zero_add]
  · intro c hc
    simp only [IsLetter, IsDigit, if_pos hc, latin1Letter, Bool.or_eq_true, Bool.and_eq_true,
      decide_eq_true_eq, beq_iff_eq]
    omega
  · intro c hc
    have hc2 : ¬ c.toNat ≤ 0xFF := by omega
    simp only [IsLetter, IsDigit, if_neg hc2]
  · intro ov s
    apply countAlphanumericChars_filter
    intro c hc
    cases hk : (IsSpace c || IsPunct c || IsSymbol c) with
    | false => rfl
    | true =>
      rw [not_counted_unicodeRuntime ov c hk] at hc
      exact absurd hc (by decide)
  · rw [countAlphanumericChars_latin1 rt _ (by decide)]; decide
  · rw [countAlphanumericChars_latin1 rt _ (by decide)]; decide
  · rw [countAlphanumericChars_latin1 rt _ (by decide)]; decide
  · intro ov
    show countAlphanumericChars (unicodeRuntime (fun _ => 0)) _ = 8
    decide!

/-! ## The round-dollar rule -/

theorem unit_pos : 0 < Float64.unit := Nat.pos_of_ne_zero (pow_ne_zero 1074 (by decide))

theorem div_mul_eq_self_iff (k u : Nat) : k / u * u = k ↔ u ∣ k := by
  constructor
  · intro h
    exact ⟨k / u, by rw [Nat.mul_comm]; exact h.symm⟩
  · intro h
    exact Nat.div_mul_cancel h

theorem ceilDiv_mul_eq_self_iff (k u : Nat) (hu : 0 < u) :
    (k + (u - 1)) / u * u = k ↔ u ∣ k := by
  constructor
  · intro h
    exact ⟨(k + (u - 1)) / u, by rw [Nat.mul_comm]; exact h.symm⟩
  · rintro ⟨c, rfl⟩
    have h1 : (u * c + (u - 1)) / u = c := by
      rw [Nat.mul_add_div hu, Nat.div_eq_of_lt (by omega), Nat.add_zero]
    rw [h1, Nat.mul_comm]

theorem eq_floor_iff (s : Bool) (k : Nat) :
    Float64.eq (Float64.fin s k) (Float64.floor (Float64.fin s k)) = true ↔ Float64.unit ∣ k := by
  cases s with
  | false =>
    simp only [Float64.floor, Float64.eq, Bool.or_eq_true, Bool.and_eq_true, beq_iff_eq,
      true_and]
    constructor
    · rintro (⟨rfl, _⟩ | h)
      · exact dvd_zero _
      · exact (div_mul_eq_self_iff k _).mp h.symm
    · intro h
      exact Or.inr ((div_mul_eq_self_iff k _).mpr h).symm
  | true =>
    simp only [Float64.floor, Float64.eq, Bool.or_eq_true, Bool.and_eq_true, beq_iff_eq,
      true_and]
    constructor
    · rintro (⟨rfl, _⟩ | h)
      · exact dvd_zero _
      · exact (ceilDiv_mul_eq_self_iff k _ unit_pos).mp h.symm
    · intro h
      exact Or.inr ((ceilDiv_mul_eq_self_iff k _ unit_pos).mpr h).symm

theorem fract_div_eq_zero_iff (k u : Nat) (hu : 0 < u) :
    Int.fract ((k : ℚ) / (u : ℚ)) = 0 ↔ u ∣ k := by
  have hu0 : (u : ℚ) ≠ 0 := by exact_mod_cast hu.ne'
  rw [Int.fract_eq_iff]
  constructor
  · rintro ⟨_, _, z, hz⟩
    rw [sub_zero, div_eq_iff hu0] at hz
    have hz2 : (k : ℤ) = z * (u : ℤ) := by exact_mod_cast hz
    have hdvd : (u : ℤ) ∣ (k : ℤ) := ⟨z, by rw [hz2, mul_comm]⟩
    exact Int.natCast_dvd_natCast.mp hdvd
  · rintro ⟨c, rfl⟩
    refine ⟨le_refl 0, by norm_num, (c : ℤ), ?_⟩
    rw [sub_zero]
    push_cast
    field_simp

theorem fract_neg_div_eq_zero_iff (k u : Nat) (hu : 0 < u) :
    Int.fract (-((k : ℚ) / (u : ℚ))) = 0 ↔ u ∣ k := by
  constructor
  · intro h
    by_contra hnd
    have hne : Int.fract ((k : ℚ) / (u : ℚ)) ≠ 0 :=
      fun h0 => hnd ((fract_div_eq_zero_iff k u hu).mp h0)
    have hlt := Int.fract_lt_one ((k : ℚ) / (u : ℚ))
    rw [Int.fract_neg hne] at h
    linarith
  · rintro ⟨c, rfl⟩
    have hu0 : (u : ℚ) ≠ 0 := by exact_mod_cast hu.ne'
    have : -(((u * c : Nat) : ℚ) / (u : ℚ)) = ((-(c : ℤ) : ℤ) : ℚ) := by
      push_cast
      field_simp
    rw [this]
    exact Int.fract_intCast _

theorem fract_toRat_eq_zero_iff (s : Bool) (k : Nat) (q : ℚ)
    (hq : (Float64.fin s k).toRat = some q) : Int.fract q = 0 ↔ Float64.unit ∣ k := by
  cases s with
  | false =>
    simp only [Float64.toRat, Option.some.injEq] at hq
    rw [← hq]
    exact fract_div_eq_zero_iff k _ unit_pos
  | true =>
    simp only [Float64.toRat, Option.some.injEq] at hq
    rw [← hq]
    exact fract_neg_div_eq_zero_iff k _ unit_pos

theorem RoundDollarRule_apply (receipt : Receipt) :
    RoundDollarRule.Apply receipt
      = (if Float64.eq receipt.Total (Float64.floor receipt.Total) then 50 else 0) := rfl

/-- C11. `RoundDollarRule.Apply` returns 50 when the total equals its own floor
and 0 otherwise. For a finite total this is the case exactly when the
fractional part of its value is zero; an infinite total equals its floor and a
NaN total does not. The totals 100.00 and 0.00 give 50 and 99.99 gives 0. -/
theorem C11_round_dollar (receipt : Receipt) :
    RoundDollarRule.Apply receipt
      = (if Float64.eq receipt.Total (Float64.floor receipt.Total) then 50 else 0)
    ∧ (∀ q : ℚ, receipt.Total.toRat = some q →
        (Int.fract q = 0 → RoundDollarRule.Apply receipt = 50)
        ∧ (Int.fract q ≠ 0 → RoundDollarRule.Apply receipt = 0))
    ∧ (∀ s : Bool, receipt.Total = Float64.inf s → RoundDollarRule.Apply receipt = 50)
    ∧ (receipt.Total = Float64.nan → RoundDollarRule.Apply receipt = 0)
    ∧ RoundDollarRule.Apply { receipt with Total := Float64.ofFraction false 10000 100 } = 50
    ∧ RoundDollarRule.Apply { receipt with Total := Float64.ofFraction false 0 100 } = 50
    ∧ RoundDollarRule.Apply { receipt with Total := Float64.ofFraction false 9999 100 } = 0 := by
  refine ⟨rfl, ?_, ?_, ?_, ?_, ?_, ?_⟩
  · intro q hq
    show (Int.fract q = 0 →
        (if Float64.eq receipt.Total (Float64.floor receipt.Total) then (50 : Int) else 0) = 50)
      ∧ (Int.fract q ≠ 0 →
        (if Float64.eq receipt.Total (Float64.floor receipt.Total) then (50 : Int) else 0) = 0)
    cases hT : receipt.Total with
    | nan => rw [hT] at hq; simp [Float64.toRat] at hq
    | inf s => rw [hT] at hq; simp [Float64.toRat] at hq
    | fin s k =>
      rw [hT] at hq
      have h1 := fract_toRat_eq_zero_iff s k q hq
      have h2 := eq_floor_iff s k
      constructor
      · intro h
        rw [if_pos (h2.mpr (h1.mp h))]
      · intro h
        rw [if_neg (fun h3 => h (h1.mpr (h2.mp h3)))]
  · intro s hT
    show (if Float64.eq receipt.Total (Float64.floor receipt.Total) then (50 : Int) else 0) = 50
    rw [hT]
    cases s <;> rfl
  · intro hT
    show (if Float64.eq receipt.Total (Float64.floor receipt.Total) then (50 : Int) else 0) = 0
    rw [hT]
    rfl
  · rw [RoundDollarRule_apply]
    dsimp only
    decide!
  · rw [RoundDollarRule_apply]
    dsimp only
    decide!
  · rw [RoundDollarRule_apply]
    dsimp only
    decide!

/-! ## The quarter-multiple rule -/

theorem QuarterMultipleRule_apply (receipt : Receipt) :
    QuarterMultipleRule.Apply receipt
      = (if Float64.eq (Float64.mod (Float64.mul receipt.Total (Float64.ofNat 100))
          (Float64.ofNat 25)) (Float64.ofNat 0) then 25 else 0) := rfl

/-! ## Exactness of rounding -/

theorem bitLengthAux_le (fuel : Nat) :
    ∀ (n b : Nat), n < 2 ^ b → Float64.bitLengthAux fuel n ≤ b := by
  induction fuel with
  | zero => intro n b _; simp [Float64.bitLengthAux]
  | succ fuel ih =>
    intro n b hn
    unfold Float64.bitLengthAux
    by_cases h0 : n = 0
    · rw [if_pos h0]; omega
    · rw [if_neg h0]
      cases b with
      | zero => simp at hn; exact absurd hn h0
      | succ b =>
        have h2 : n / 2 < 2 ^ b := by
          rw [Nat.pow_succ] at hn
          omega
        have := ih (n / 2) b h2
        omega

theorem bitLength_le (n b : Nat) (hn : n < 2 ^ b) : Float64.bitLength n ≤ b :=
  bitLengthAux_le n n b hn

theorem roundHalfEven_of_dvd (n d : Nat) (hd : 0 < d) (h : d ∣ n) :
    Float64.roundHalfEven n d = n / d := by
  unfold Float64.roundHalfEven
  rw [Nat.mod_eq_zero_of_dvd h, if_pos (by omega)]

/-- Rounding is exact on a quotient that needs at most 53 significant bits. -/
theorem roundUnits_exact (n d : Nat) (hd : 0 < d)
    (h : d * 2 ^ (Float64.bitLength (n / d) - 53) ∣ n) : Float64.roundUnits n d = n / d := by
  unfold Float64.roundUnits
  generalize Float64.bitLength (n / d) - 53 = sh at h ⊢
  have hp : 0 < 2 ^ sh := Nat.two_pow_pos sh
  rw [roundHalfEven_of_dvd n _ (Nat.mul_pos hd hp) h]
  obtain ⟨c, rfl⟩ := h
  rw [Nat.mul_div_cancel_left _ (Nat.mul_pos hd hp)]
  rw [Nat.mul_assoc, Nat.mul_div_cancel_left _ hd, Nat.mul_comm]

theorem ofNat_hundred_eq : Float64.ofNat 100 = Float64.fin false (100 * Float64.unit) := by
  decide!

theorem ofNat_twentyFive_eq : Float64.ofNat 25 = Float64.fin false (25 * Float64.unit) := by
  decide!

theorem four_dvd_unit : 4 ∣ Float64.unit :=
  pow_dvd_pow 2 (by omega : 2 ≤ 1074)

/-- The product of a multiple of 0.25 by 100 is exact when it is below `2^53`. -/
theorem mul_hundred_exact (s : Bool) (j : Nat) (hj : 25 * j < 2 ^ 53) :
    Float64.mul (Float64.fin s (j * (Float64.unit / 4))) (Float64.ofNat 100)
      = Float64.fin s (25 * j * Float64.unit) := by
  have hU : 0 < Float64.unit := unit_pos
  have hU4 : Float64.unit = 4 * (Float64.unit / 4) := (Nat.mul_div_cancel' four_dvd_unit).symm
  have hUpow : Float64.unit = 2 ^ 1074 := by rw [Float64.unit]
  rw [ofNat_hundred_eq]
  show Float64.round (s != false) (j * (Float64.unit / 4) * (100 * Float64.unit)) Float64.unit = _
  have hs : (s != false) = s := by cases s <;> rfl
  rw [hs]
  have hn : j * (Float64.unit / 4) * (100 * Float64.unit)
      = Float64.unit * (25 * j * Float64.unit) := by
    generalize Float64.unit / 4 = q at hU4
    rw [hU4]
    ring
  have hquot : j * (Float64.unit / 4) * (100 * Float64.unit) / Float64.unit
      = 25 * j * Float64.unit := by
    rw [hn, Nat.mul_div_cancel_left _ hU]
  have hlt : 25 * j * Float64.unit < 2 ^ (53 + 1074) := by
    rw [Nat.pow_add, hUpow]
    exact Nat.mul_lt_mul_of_lt_of_le hj (le_refl _) (Nat.two_pow_pos _)
  have hbit : Float64.bitLength (25 * j * Float64.unit) ≤ 53 + 1074 := bitLength_le _ _ hlt
  have hexact : Float64.roundUnits (j * (Float64.unit / 4) * (100 * Float64.unit)) Float64.unit
      = 25 * j * Float64.unit := by
    have hsh : Float64.bitLength (25 * j * Float64.unit) - 53 ≤ 1074 := by omega
    have hdvd : 2 ^ (Float64.bitLength (25 * j * Float64.unit) - 53) ∣ Float64.unit :=
      pow_dvd_pow 2 hsh
    rw [roundUnits_exact _ _ hU, hquot]
    rw [hquot, hn]
    exact Nat.mul_dvd_mul_left _ (Dvd.dvd.mul_left hdvd _)
  unfold Float64.round
  rw [hexact, if_pos]
  calc 25 * j * Float64.unit < 2 ^ (53 + 1074) := hlt
    _ ≤ 2 ^ 2098 := Nat.pow_le_pow_right (by omega) (by omega)

/-- On a total that is a multiple of 0.25 with `25 * j` below `2^53`, that is, a
total below 90071992547409.92 in absolute value, the quarter-multiple rule
awards 25. -/
theorem QuarterMultipleRule_exact (receipt : Receipt) (s : Bool) (j : Nat)
    (hj : 25 * j < 2 ^ 53) (hT : receipt.Total = Float64.fin s (j * (Float64.unit / 4))) :
    QuarterMultipleRule.Apply receipt = 25 := by
  rw [QuarterMultipleRule_apply, hT, mul_hundred_exact s j hj, ofNat_twentyFive_eq, ofNat_zero_eq]
  have hU : 0 < Float64.unit := unit_pos
  have hmod : Float64.mod (Float64.fin s (25 * j * Float64.unit))
      (Float64.fin false (25 * Float64.unit)) = Float64.fin s 0 := by
    show (if 25 * Float64.unit = 0 then Float64.nan
      else Float64.fin s (25 * j * Float64.unit % (25 * Float64.unit))) = _
    rw [if_neg (by omega)]
    have : 25 * j * Float64.unit = 25 * Float64.unit * j := by ring
    rw [this, Nat.mul_mod_right]
  rw [hmod]
  cases s <;> rfl

/-- C12, failing input. The total 2251799813685247.75 is a `float64` exactly,
namely 9007199254740991/4, a multiple of 0.25: in cents it is
225179981368524775 = 25 * 9007199254740991. The product `total * 100` is not a
`float64` and rounds to 225179981368524768, whose remainder modulo 25 is 18,
so `QuarterMultipleRule.Apply` returns 0. The totals 10.00, 10.25, 10.50 and
10.75 give 25 and 10.13 gives 0, and every total `j / 4` (of either sign) with
`25 * j < 2^53` gives 25: the rule awards every multiple of 0.25 below
90071992547409.92 and misses larger ones. -/
theorem C12_quarter_multiple_failing_input :
    largeQuarterReceipt.Total = Float64.fin false (9007199254740991 * (Float64.unit / 4))
    ∧ Float64.mul largeQuarterReceipt.Total (Float64.ofNat 100)
        = Float64.fin false (225179981368524768 * Float64.unit)
    ∧ Float64.mod (Float64.mul largeQuarterReceipt.Total (Float64.ofNat 100)) (Float64.ofNat 25)
        = Float64.fin false (18 * Float64.unit)
    ∧ QuarterMultipleRule.Apply largeQuarterReceipt = 0
    ∧ QuarterMultipleRule.Apply
        { largeQuarterReceipt with Total := Float64.ofFraction false 1000 100 } = 25
    ∧ QuarterMultipleRule.Apply
        { largeQuarterReceipt with Total := Float64.ofFraction false 1025 100 } = 25
    ∧ QuarterMultipleRule.Apply
        { largeQuarterReceipt with Total := Float64.ofFraction false 1050 100 } = 25
    ∧ QuarterMultipleRule.Apply
        { largeQuarterReceipt with Total := Float64.ofFraction false 1075 100 } = 25
    ∧ QuarterMultipleRule.Apply
        { largeQuarterReceipt with Total := Float64.ofFraction false 1013 100 } = 0
    ∧ (∀ (receipt : Receipt) (s : Bool) (j : Nat), 25 * j < 2 ^ 53 →
        receipt.Total = Float64.fin s (j * (Float64.unit / 4)) →
        QuarterMultipleRule.Apply receipt = 25) := by
  refine ⟨by decide!, by decide!, by decide!, by decide!, by decide!, by decide!, by decide!,
    by decide!, by decide!, ?_⟩
  intro receipt s j hj hT
  exact QuarterMultipleRule_exact receipt s j hj hT

/-! ## The item-pairs rule -/

/-- C13. `ItemPairsRule.Apply` returns 5 times the integer quotient of the number
of items by 2; for 0, 1, 2, 3 and 4 items this is 0, 0, 5, 5 and 10. -/
theorem C13_item_pairs (receipt : Receipt) :
    ItemPairsRule.Apply receipt = 5 * Int.ofNat (receipt.Items.length / 2)
    ∧ (receipt.Items.length = 0 → ItemPairsRule.Apply receipt = 0)
    ∧ (receipt.Items.length = 1 → ItemPairsRule.Apply receipt = 0)
    ∧ (receipt.Items.length = 2 → ItemPairsRule.Apply receipt = 5)
    ∧ (receipt.Items.length = 3 → ItemPairsRule.Apply receipt = 5)
    ∧ (receipt.Items.length = 4 → ItemPairsRule.Apply receipt = 10) := by
  have h : ItemPairsRule.Apply receipt = 5 * Int.ofNat (receipt.Items.length / 2) := by
    show (Int.ofNat receipt.Items.length / 2) * 5 = 5 * Int.ofNat (receipt.Items.length / 2)
    simp only [Int.ofNat_eq_coe]
    omega
  refine ⟨h, ?_, ?_, ?_, ?_, ?_⟩ <;> intro hn <;> rw [h, hn] <;> rfl

/-! ## The item-description rule -/

theorem intOfFloat_inInt64 (rt : GoRuntime) (x : Float64) : InInt64 (rt.intOfFloat x) := by
  unfold GoRuntime.intOfFloat
  split
  · split
    · assumption
    · exact wrap64_inInt64 _
  · exact wrap64_inInt64 _

theorem itemDescriptionStep_zero (rt : GoRuntime) (item : Item) :
    itemDescriptionStep rt 0 item = if item.counted = true then itemPoints rt item else 0 := by
  unfold itemDescriptionStep Item.counted itemPoints
  by_cases h : len (TrimSpace item.ShortDescription) > 0
      ∧ len (TrimSpace item.ShortDescription) % 3 = 0
  · rw [if_pos h, if_pos (by simpa using h), intAdd, zero_add,
      wrap64_of_inInt64 _ (intOfFloat_inInt64 rt _)]
  · rw [if_neg h, if_neg (by simpa using h)]

theorem sum_map_counted (rt : GoRuntime) (items : List Item) :
    (items.map (itemDescriptionStep rt 0)).sum
      = ((items.filter Item.counted).map (itemPoints rt)).sum := by
  induction items with
  | nil => rfl
  | cons item rest ih =>
    rw [List.map_cons, List.sum_cons, ih, itemDescriptionStep_zero]
    by_cases h : item.counted = true
    · rw [if_pos h, List.filter_cons_of_pos h, List.map_cons, List.sum_cons]
    · rw [if_neg h, List.filter_cons_of_neg h, zero_add]

theorem calculateItemDescriptionPoints_eq (rt : GoRuntime) (receipt : Receipt) :
    calculateItemDescriptionPoints rt receipt
      = wrap64 (((receipt.Items.filter Item.counted).map (itemPoints rt)).sum) := by
  unfold calculateItemDescriptionPoints
  rw [itemDescription_foldl_total rt _ 0 (by unfold InInt64; omega), zero_add, sum_map_counted]

theorem ceil_natCast_div (k u : Nat) (hu : 0 < u) :
    ⌈(k : ℚ) / (u : ℚ)⌉ = Int.ofNat ((k + (u - 1)) / u) := by
  have hu0 : (0 : ℚ) < (u : ℚ) := by exact_mod_cast hu
  have hdm := Nat.div_add_mod (k + (u - 1)) u
  have hmod := Nat.mod_lt (k + (u - 1)) hu
  generalize (k + (u - 1)) / u = z at hdm ⊢
  generalize (k + (u - 1)) % u = r at hdm hmod
  have h1 : z * u < k + u := by rw [Nat.mul_comm]; omega
  have h2 : k ≤ z * u := by rw [Nat.mul_comm]; omega
  have h1q : (z : ℚ) * (u : ℚ) < (k : ℚ) + (u : ℚ) := by exact_mod_cast h1
  have h2q : (k : ℚ) ≤ (z : ℚ) * (u : ℚ) := by exact_mod_cast h2
  rw [Int.ceil_eq_iff]
  simp only [Int.ofNat_eq_coe, Int.cast_natCast]
  constructor
  · rw [lt_div_iff₀ hu0]
    linarith
  · rw [div_le_iff₀ hu0]
    exact h2q

theorem truncate_ceil_eq_ceil (x : Float64) (q : ℚ) (hq : x.toRat = some q) :
    (Float64.ceil x).truncate = some ⌈q⌉ := by
  cases x with
  | nan => simp [Float64.toRat] at hq
  | inf s => simp [Float64.toRat] at hq
  | fin s k =>
    cases s with
    | false =>
      simp only [Float64.toRat, Option.some.injEq] at hq
      rw [← hq, ceil_natCast_div k _ unit_pos]
      show some (Int.ofNat ((k + (Float64.unit - 1)) / Float64.unit * Float64.unit / Float64.unit))
        = _
      rw [Nat.mul_div_cancel _ unit_pos]
    | true =>
      simp only [Float64.toRat, Option.some.injEq] at hq
      rw [← hq, Int.ceil_neg, Rat.floor_natCast_div_natCast]
      show some (-Int.ofNat (k / Float64.unit * Float64.unit / Float64.unit)) = _
      rw [Nat.mul_div_cancel _ unit_pos]
      rfl

theorem itemPoints_of_inRange (rt rt2 : GoRuntime) (item : Item)
    (h : item.pointsInRange = true) : itemPoints rt item = itemPoints rt2 item := by
  unfold Item.pointsInRange at h
  unfold itemPoints
  cases hxt : (Float64.ceil (Float64.mul item.Price (Float64.ofFraction false 2 10))).truncate with
  | none => simp [hxt] at h
  | some t =>
    rw [hxt] at h
    exact intOfFloat_congr rt rt2 _ t hxt (by simpa using h)

/-- C14, counterexample. With two items "abc" priced 46116860184273870848.00
each, both items are counted and each contributes `2^63 - 1024`; their sum is
18446744073709549568, but the rule returns -2048: the running `int` total
wraps around. -/
theorem C14_item_description_counterexample :
    doubleOverflowReceipt.Items.filter Item.counted = doubleOverflowReceipt.Items
    ∧ ((doubleOverflowReceipt.Items.filter Item.counted).map (itemPoints sampleRuntime)).sum
        = 18446744073709549568
    ∧ (ItemDescriptionLengthRule sampleRuntime).Apply doubleOverflowReceipt = -2048 := by
  decide!

/-- C14, amended. `ItemDescriptionLengthRule.Apply` equals the sum, over exactly
the items whose trimmed description has a byte length that is a positive
multiple of 3, of `int(math.Ceil(price * 0.2))`, reduced to the range of `int`;
it equals that sum whenever the sum is in the range of `int`. An item that is
not counted leaves the running total unchanged. When `price * 0.2` is finite
and its ceiling is in the range of `int`, the contribution of a counted item is
the integer ceiling of the `float64` product. The prices 5.00, 10.00 and 4.99
contribute 1, 2 and 1. -/
theorem C14_item_description_sum (rt : GoRuntime) (receipt : Receipt) :
    (ItemDescriptionLengthRule rt).Apply receipt
      = wrap64 (((receipt.Items.filter Item.counted).map (itemPoints rt)).sum)
    ∧ (InInt64 (((receipt.Items.filter Item.counted).map (itemPoints rt)).sum) →
        (ItemDescriptionLengthRule rt).Apply receipt
          = ((receipt.Items.filter Item.counted).map (itemPoints rt)).sum)
    ∧ (∀ (item : Item) (totalPoints : Int), item.counted = false →
        itemDescriptionStep rt totalPoints item = totalPoints)
    ∧ (∀ (item : Item) (q : ℚ),
        (Float64.mul item.Price (Float64.ofFraction false 2 10)).toRat = some q →
        InInt64 ⌈q⌉ → itemPoints rt item = ⌈q⌉)
    ∧ itemPoints rt ⟨"123", Float64.ofFraction false 500 100⟩ = 1
    ∧ itemPoints rt ⟨"123456", Float64.ofFraction false 1000 100⟩ = 2
    ∧ itemPoints rt ⟨"123", Float64.ofFraction false 499 100⟩ = 1 := by
  have hsum := calculateItemDescriptionPoints_eq rt receipt
  refine ⟨hsum, ?_, ?_, ?_, ?_, ?_, ?_⟩
  · intro hr
    show calculateItemDescriptionPoints rt receipt = _
    rw [hsum, wrap64_of_inInt64 _ hr]
  · intro item totalPoints hc
    unfold Item.counted at hc
    unfold itemDescriptionStep
    rw [if_neg (by simpa using hc)]
  · intro item q hq hr
    unfold itemPoints GoRuntime.intOfFloat
    rw [truncate_ceil_eq_ceil _ q hq]
    simp only [if_pos hr]
  · rw [itemPoints_of_inRange rt sampleRuntime _ (by decide!)]
    decide!
  · rw [itemPoints_of_inRange rt sampleRuntime _ (by decide!)]
    decide!
  · rw [itemPoints_of_inRange rt sampleRuntime _ (by decide!)]
    decide!

/-- C14, witness: at the reference receipt two items are counted and the rule
returns their sum, 3 + 3. -/
theorem C14_item_description_sum_witness :
    InInt64 (((targetReceipt.Items.filter Item.counted).map (itemPoints sampleRuntime)).sum)
    ∧ (ItemDescriptionLengthRule sampleRuntime).Apply targetReceipt
        = ((targetReceipt.Items.filter Item.counted).map (itemPoints sampleRuntime)).sum
    ∧ ((targetReceipt.Items.filter Item.counted).map (itemPoints sampleRuntime)) = [3, 3] :=
  ⟨by decide!, (C14_item_description_sum sampleRuntime targetReceipt).2.1 (by decide!),
    by decide!⟩

/-! ## The odd-day and afternoon rules -/

theorem OddDayRule_apply (receipt : Receipt) :
    OddDayRule.Apply receipt
      = (match parseDate receipt.PurchaseDate with
        | none => 0
        | some purchaseDate => if purchaseDate.Day % 2 = 0 then 0 else 6) := rfl

theorem AfternoonTimeRule_apply (receipt : Receipt) :
    AfternoonTimeRule.Apply receipt
      = (match parseClock receipt.PurchaseTime with
        | none => 0
        | some purchaseTime =>
          if purchaseTime.Hour * 60 + purchaseTime.Minute ≤ 14 * 60
              ∨ purchaseTime.Hour * 60 + purchaseTime.Minute ≥ 16 * 60 then 0
          else 10) := rfl

/-- C15. `OddDayRule.Apply` returns 6 when the purchase date parses with layout
`2006-01-02` and its day of the month is odd, 0 when it parses and the day is
even, and 0 when it does not parse; "2022-01-01" gives 6, "2022-01-02" gives 0
and "invalid" gives 0. -/
theorem C15_odd_day (receipt : Receipt) :
    (∀ t : GoTime, parseDate receipt.PurchaseDate = some t → t.Day % 2 = 1 →
        OddDayRule.Apply receipt = 6)
    ∧ (∀ t : GoTime, parseDate receipt.PurchaseDate = some t → t.Day % 2 = 0 →
        OddDayRule.Apply receipt = 0)
    ∧ (parseDate receipt.PurchaseDate = none → OddDayRule.Apply receipt = 0)
    ∧ (parseDate "2022-01-01" = some ⟨2022, 1, 1, 0, 0⟩
        ∧ OddDayRule.Apply { receipt with PurchaseDate := "2022-01-01" } = 6)
    ∧ (parseDate "2022-01-02" = some ⟨2022, 1, 2, 0, 0⟩
        ∧ OddDayRule.Apply { receipt with PurchaseDate := "2022-01-02" } = 0)
    ∧ (parseDate "invalid" = none
        ∧ OddDayRule.Apply { receipt with PurchaseDate := "invalid" } = 0) := by
  have e1 : parseDate "2022-01-01" = some ⟨2022, 1, 1, 0, 0⟩ := by decide
  have e2 : parseDate "2022-01-02" = some ⟨2022, 1, 2, 0, 0⟩ := by decide
  have e3 : parseDate "invalid" = none := by decide
  refine ⟨?_, ?_, ?_, ⟨e1, ?_⟩, ⟨e2, ?_⟩, ⟨e3, ?_⟩⟩
  · intro t ht hodd
    rw [OddDayRule_apply, ht]
    simp only
    rw [if_neg (by omega)]
  · intro t ht heven
    rw [OddDayRule_apply, ht]
    simp only
    rw [if_pos heven]
  · intro hnone
    rw [OddDayRule_apply, hnone]
  · rw [OddDayRule_apply]
    simp only [e1]
    rfl
  · rw [OddDayRule_apply]
    simp only [e2]
    rfl
  · rw [OddDayRule_apply]
    simp only [e3]

/-- C16. For a purchase time that parses with layout `15:04` as hour `h` and
minute `m`, `AfternoonTimeRule.Apply` returns 10 when
`14 * 60 < h * 60 + m < 16 * 60` and 0 otherwise; for a purchase time that does
not parse it returns 0. The times 13:59, 14:00, 16:00 and 16:01 give 0, 15:00
gives 10 and "invalid" gives 0. -/
theorem C16_afternoon_time (receipt : Receipt) :
    (∀ t : GoTime, parseClock receipt.PurchaseTime = some t →
        (14 * 60 < t.Hour * 60 + t.Minute ∧ t.Hour * 60 + t.Minute < 16 * 60 →
          AfternoonTimeRule.Apply receipt = 10)
        ∧ (¬ (14 * 60 < t.Hour * 60 + t.Minute ∧ t.Hour * 60 + t.Minute < 16 * 60) →
          AfternoonTimeRule.Apply receipt = 0))
    ∧ (parseClock receipt.PurchaseTime = none → AfternoonTimeRule.Apply receipt = 0)
    ∧ AfternoonTimeRule.Apply { receipt with PurchaseTime := "13:59" } = 0
    ∧ AfternoonTimeRule.Apply { receipt with PurchaseTime := "14:00" } = 0
    ∧ AfternoonTimeRule.Apply { receipt with PurchaseTime := "15:00" } = 10
    ∧ AfternoonTimeRule.Apply { receipt with PurchaseTime := "16:00" } = 0
    ∧ AfternoonTimeRule.Apply { receipt with PurchaseTime := "16:01" } = 0
    ∧ AfternoonTimeRule.Apply { receipt with PurchaseTime := "invalid" } = 0 := by
  have e1 : parseClock "13:59" = some ⟨0, 1, 1, 13, 59⟩ := by decide
  have e2 : parseClock "14:00" = some ⟨0, 1, 1, 14, 0⟩ := by decide
  have e3 : parseClock "15:00" = some ⟨0, 1, 1, 15, 0⟩ := by decide
  have e4 : parseClock "16:00" = some ⟨0, 1, 1, 16, 0⟩ := by decide
  have e5 : parseClock "16:01" = some ⟨0, 1, 1, 16, 1⟩ := by decide
  have e6 : parseClock "invalid" = none := by decide
  refine ⟨?_, ?_, ?_, ?_, ?_, ?_, ?_, ?_⟩
  · intro t ht
    rw [AfternoonTimeRule_apply, ht]
    simp only
    constructor
    · intro h
      rw [if_neg (by omega)]
    · intro h
      rw [if_pos (by omega)]
  · intro hnone
    rw [AfternoonTimeRule_apply, hnone]
  · rw [AfternoonTimeRule_apply]; simp only [e1]; rfl
  · rw [AfternoonTimeRule_apply]; simp only [e2]; rfl
  · rw [AfternoonTimeRule_apply]; simp only [e3]; rfl
  · rw [AfternoonTimeRule_apply]; simp only [e4]; rfl
  · rw [AfternoonTimeRule_apply]; simp only [e5]; rfl
  · rw [AfternoonTimeRule_apply]; simp only [e6]

/-! ## Validation -/

theorem dateValidate_eq_nil (lib : GoLibrary) (d : String) :
    Date.Validate lib d = GoError.nil ↔ ∃ t, parseDate d = some t := by
  unfold Date.Validate
  cases parseDate d with
  | none => simp
  | some t => simp

theorem timeValidate_eq_nil (lib : GoLibrary) (t : String) :
    Time.Validate lib t = GoError.nil ↔ ∃ c, parseClock t = some c := by
  unfold Time.Validate
  cases parseClock t with
  | none => simp
  | some c => simp

theorem itemValidate_eq_nil (item : Item) :
    item.Validate = GoError.nil ↔ TrimSpace item.ShortDescription ≠ "" := by
  unfold Item.Validate
  by_cases h : TrimSpace item.ShortDescription = ""
  · simp [h]
  · simp [h]

theorem validateItems_eq_nil (items : List Item) :
    ∀ i : Nat, validateItems items i = GoError.nil
      ↔ ∀ item ∈ items, TrimSpace item.ShortDescription ≠ "" := by
  induction items with
  | nil => intro i; simp [validateItems]
  | cons item rest ih =>
    intro i
    unfold validateItems
    by_cases h : item.Validate = GoError.nil
    · rw [if_neg (by simpa using h), ih (i + 1)]
      simp [(itemValidate_eq_nil item).mp h]
    · rw [if_pos h]
      have h2 : ¬ (TrimSpace item.ShortDescription ≠ "") :=
        fun h3 => h ((itemValidate_eq_nil item).mpr h3)
      simp only [List.mem_cons, forall_eq_or_imp]
      constructor
      · intro h4; cases h4
      · intro h4; exact absurd h4.1 h2

/-- C17. On a receipt for which `Receipt.Validate` returns nil, the date parse
of `OddDayRule` and the time parse of `AfternoonTimeRule` both succeed, so each
rule returns the value of its branch for a parsed input. -/
theorem C17_validated_receipt_parses (lib : GoLibrary) (receipt : Receipt)
    (h : receipt.Validate lib = GoError.nil) :
    (∃ t : GoTime, parseDate receipt.PurchaseDate = some t
        ∧ OddDayRule.Apply receipt = (if t.Day % 2 = 0 then 0 else 6))
    ∧ (∃ c : GoTime, parseClock receipt.PurchaseTime = some c
        ∧ AfternoonTimeRule.Apply receipt
          = (if c.Hour * 60 + c.Minute ≤ 14 * 60 ∨ c.Hour * 60 + c.Minute ≥ 16 * 60 then 0
             else 10)) := by
  unfold Receipt.Validate at h
  have h1 : ¬ TrimSpace receipt.Retailer = "" := by
    intro h1
    rw [if_pos h1] at h
    cases h
  rw [if_neg h1] at h
  have hd : Date.Validate lib receipt.PurchaseDate = GoError.nil := by
    by_contra hd
    rw [if_pos hd] at h
    exact hd h
  rw [if_neg (by simpa using hd)] at h
  have hv : Time.Validate lib receipt.PurchaseTime = GoError.nil := by
    by_contra hv
    rw [if_pos hv] at h
    exact hv h
  obtain ⟨t, ht⟩ := (dateValidate_eq_nil lib _).mp hd
  obtain ⟨c, hc⟩ := (timeValidate_eq_nil lib _).mp hv
  refine ⟨⟨t, ht, ?_⟩, ⟨c, hc, ?_⟩⟩
  · rw [OddDayRule_apply, ht]
  · rw [AfternoonTimeRule_apply, hc]

/-- C17, witness: the reference receipt passes validation. -/
theorem C17_validated_receipt_parses_witness :
    targetReceipt.Validate sampleLibrary = GoError.nil
    ∧ (∃ t : GoTime, parseDate targetReceipt.PurchaseDate = some t)
    ∧ (∃ c : GoTime, parseClock targetReceipt.PurchaseTime = some c) :=
  have h := C17_validated_receipt_parses sampleLibrary targetReceipt (by decide)
  ⟨by decide, ⟨h.1.choose, h.1.choose_spec.1⟩, ⟨h.2.choose, h.2.choose_spec.1⟩⟩

/-- C18. `Receipt.Validate` returns nil if and only if the retailer is not empty
after trimming white space, the purchase date parses with layout `2006-01-02`,
the purchase time parses with layout `15:04`, there is at least one item, and
the short description of every item is not empty after trimming white space. -/
theorem C18_validate_iff (lib : GoLibrary) (receipt : Receipt) :
    receipt.Validate lib = GoError.nil
      ↔ TrimSpace receipt.Retailer ≠ ""
        ∧ (∃ t, parseDate receipt.PurchaseDate = some t)
        ∧ (∃ c, parseClock receipt.PurchaseTime = some c)
        ∧ 1 ≤ receipt.Items.length
        ∧ ∀ item ∈ receipt.Items, TrimSpace item.ShortDescription ≠ "" := by
  unfold Receipt.Validate
  by_cases h1 : TrimSpace receipt.Retailer = ""
  · simp [h1]
  · rw [if_neg h1]
    by_cases h2 : Date.Validate lib receipt.PurchaseDate = GoError.nil
    · rw [if_neg (by simpa using h2)]
      by_cases h3 : Time.Validate lib receipt.PurchaseTime = GoError.nil
      · rw [if_neg (by simpa using h3)]
        by_cases h4 : receipt.Items.length = 0
        · rw [if_pos h4]
          simp [h4]
        · rw [if_neg h4, validateItems_eq_nil]
          have h2' := (dateValidate_eq_nil lib _).mp h2
          have h3' := (timeValidate_eq_nil lib _).mp h3
          constructor
          · intro h5
            exact ⟨h1, h2', h3', by omega, h5⟩
          · intro h5
            exact h5.2.2.2.2
      · rw [if_pos h3]
        constructor
        · intro h5; exact absurd h5 h3
        · intro h5; exact absurd ((timeValidate_eq_nil lib _).mpr h5.2.2.1) h3
    · rw [if_pos h2]
      constructor
      · intro h5; exact absurd h5 h2
      · intro h5; exact absurd ((dateValidate_eq_nil lib _).mpr h5.2.1) h2

/-! ## Amounts and validation -/

theorem validateItems_price_indep (price : Item → Float64) (items : List Item) :
    ∀ i : Nat, validateItems (items.map (fun item => { item with Price := price item })) i
      = validateItems items i := by
  induction items with
  | nil => intro i; rfl
  | cons item rest ih =>
    intro i
    simp only [List.map_cons, validateItems, Item.Validate]
    rw [ih (i + 1)]

theorem decodeItems_prices (lib : GoLibrary) (texts : List (String × String)) :
    ∀ items : List Item, decodeItems lib texts = Except.ok items →
      items.map (fun item => item.Price) = texts.map (fun x => (lib.ParseFloat x.2).1)
      ∧ ∀ x ∈ texts, (lib.ParseFloat x.2).2 = GoError.nil := by
  induction texts with
  | nil =>
    intro items h
    simp only [decodeItems, Except.ok.injEq] at h
    subst h
    simp
  | cons x rest ih =>
    intro items h
    obtain ⟨description, text⟩ := x
    unfold decodeItems at h
    by_cases hp : (lib.ParseFloat text).2 = GoError.nil
    · have hu : Price.UnmarshalJSON lib (Float64.fin false 0) text
          = ((lib.ParseFloat text).1, GoError.nil) := by
        unfold Price.UnmarshalJSON
        rw [if_neg (by simpa using hp)]
      rw [hu] at h
      simp only [ne_eq, not_true_eq_false, if_false] at h
      cases hrest : decodeItems lib rest with
      | error e => rw [hrest] at h; cases h
      | ok decoded =>
        rw [hrest] at h
        simp only [Except.ok.injEq] at h
        subst h
        obtain ⟨h1, h2⟩ := ih decoded hrest
        refine ⟨by simp [h1], ?_⟩
        intro y hy
        rcases List.mem_cons.mp hy with rfl | hy
        · exact hp
        · exact h2 y hy
    · have hu : (Price.UnmarshalJSON lib (Float64.fin false 0) text).2 ≠ GoError.nil := by
        unfold Price.UnmarshalJSON
        rw [if_pos hp]
        simp
      rw [if_pos hu] at h
      cases h

/-- C19, counterexample. The JSON receipt with price and total "-5.00" decodes
without error to the receipt with price and total -5.00, and `Receipt.Validate`
returns nil for it: an accepted receipt has a negative total and a negative
item price. -/
theorem C19_validator_counterexample :
    decodeReceipt sampleLibrary refundJSON = Except.ok refundReceipt
    ∧ refundReceipt.Validate sampleLibrary = GoError.nil
    ∧ Float64.le (Float64.ofNat 0) refundReceipt.Total = false
    ∧ refundReceipt.Items.map (fun item => Float64.le (Float64.ofNat 0) item.Price) = [false] := by
  refine ⟨?_, by decide, by decide!, by decide!⟩
  have h : (match decodeReceipt sampleLibrary refundJSON with
      | Except.ok r => decide (r = refundReceipt)
      | Except.error _ => false) = true := by decide!
  cases hd : decodeReceipt sampleLibrary refundJSON with
  | error e => rw [hd] at h; cases h
  | ok r =>
    rw [hd] at h
    simp only [decide_eq_true_eq] at h
    rw [h]

/-- C19, amended. The validator accepts a receipt whatever the sign of its
amounts: `Receipt.Validate` does not read the total or the item prices (its
result is unchanged when they are replaced), `Price.UnmarshalJSON` stores the
value of `strconv.ParseFloat` whenever that reports no error, and a receipt that
decodes without error carries exactly those values as its total and prices. -/
theorem C19_validator_ignores_amounts (lib : GoLibrary) (receipt : Receipt) (total : Float64)
    (price : Item → Float64) :
    Receipt.Validate lib
        { receipt with
          Total := total,
          Items := receipt.Items.map (fun item => { item with Price := price item }) }
      = Receipt.Validate lib receipt
    ∧ (∀ (p : Float64) (str : String), (lib.ParseFloat str).2 = GoError.nil →
        Price.UnmarshalJSON lib p str = ((lib.ParseFloat str).1, GoError.nil))
    ∧ (∀ (doc : ReceiptJSON) (r : Receipt), decodeReceipt lib doc = Except.ok r →
        r.Total = (lib.ParseFloat doc.total).1
        ∧ r.Items.map (fun item => item.Price)
            = doc.items.map (fun x => (lib.ParseFloat x.2).1)) := by
  refine ⟨?_, ?_, ?_⟩
  · simp only [Receipt.Validate, List.length_map, validateItems_price_indep]
  · intro p str h
    unfold Price.UnmarshalJSON
    rw [if_neg (by simpa using h)]
  · intro doc r h
    unfold decodeReceipt at h
    cases hitems : decodeItems lib doc.items with
    | error e => rw [hitems] at h; cases h
    | ok items =>
      rw [hitems] at h
      simp only at h
      by_cases hp : (lib.ParseFloat doc.total).2 = GoError.nil
      · have hu : Price.UnmarshalJSON lib (Float64.fin false 0) doc.total
            = ((lib.ParseFloat doc.total).1, GoError.nil) := by
          unfold Price.UnmarshalJSON
          rw [if_neg (by simpa using hp)]
        rw [hu] at h
        simp only [ne_eq, not_true_eq_false, if_false, Except.ok.injEq] at h
        subst h
        exact ⟨rfl, (decodeItems_prices lib doc.items items hitems).1⟩
      · have hu : (Price.UnmarshalJSON lib (Float64.fin false 0) doc.total).2 ≠ GoError.nil := by
          unfold Price.UnmarshalJSON
          rw [if_pos hp]
          simp
        rw [if_pos hu] at h
        cases h

/-- C19, witness: replacing the amounts of the reference receipt by negative
ones leaves the result of validation nil. -/
theorem C19_validator_ignores_amounts_witness :
    Receipt.Validate sampleLibrary
        { targetReceipt with
          Total := Float64.ofFraction true 3535 100,
          Items := targetReceipt.Items.map
            (fun item => { item with Price := Float64.ofFraction true 100 100 }) }
      = GoError.nil :=
  (C19_validator_ignores_amounts sampleLibrary targetReceipt (Float64.ofFraction true 3535 100)
    (fun _ => Float64.ofFraction true 100 100)).1.trans (by decide)

/-! ## Log messages -/

theorem append_ne_empty (s t : String) (h : s ≠ "") : s ++ t ≠ "" := by
  intro h2
  apply h
  have h3 := congrArg String.data h2
  rw [String.data_append] at h3
  have h4 : s.data = [] := (List.append_eq_nil.mp h3).1
  exact String.ext h4

/-- C20, counterexample. `RetailerNameRule.FormatLogMessage(0, receipt)` is not
the empty string: the rule has no guard for zero points. -/
theorem C20_format_log_message_counterexample :
    (RetailerNameRule sampleRuntime).FormatLogMessage 0 targetReceipt
      = "Rule 1: Added 0 points for alphanumeric characters in retailer name \x27Target\x27"
    ∧ (RetailerNameRule sampleRuntime).FormatLogMessage 0 targetReceipt ≠ "" := by
  decide

/-- C20, amended. For the five rules RoundDollarRule, QuarterMultipleRule,
ItemDescriptionLengthRule, OddDayRule and AfternoonTimeRule,
`FormatLogMessage(0, receipt)` is the empty string; for each of the seven rules
`FormatLogMessage(p, receipt)` is not empty for every `p` other than 0, in
particular for every `p > 0`; and `RetailerNameRule.FormatLogMessage` is not
empty for any `p`, 0 included. -/
theorem C20_format_log_message (rt : GoRuntime) (receipt : Receipt) :
    (RoundDollarRule.FormatLogMessage 0 receipt = ""
      ∧ QuarterMultipleRule.FormatLogMessage 0 receipt = ""
      ∧ (ItemDescriptionLengthRule rt).FormatLogMessage 0 receipt = ""
      ∧ OddDayRule.FormatLogMessage 0 receipt = ""
      ∧ AfternoonTimeRule.FormatLogMessage 0 receipt = "")
    ∧ (∀ p : Int, p ≠ 0 → ∀ rule ∈ GetAllRules rt, rule.FormatLogMessage p receipt ≠ "")
    ∧ (∀ p : Int, (RetailerNameRule rt).FormatLogMessage p receipt ≠ "") := by
  have hlit : ∀ (a : String), a ≠ "" → ∀ t, a ++ t ≠ "" := fun a ha t => append_ne_empty a t ha
  have h1 : ∀ p : Int, (RetailerNameRule rt).FormatLogMessage p receipt ≠ "" := by
    intro p
    show "Rule 1: Added " ++ fmtInt p
      ++ " points for alphanumeric characters in retailer name \x27" ++ receipt.Retailer
      ++ "\x27" ≠ ""
    exact hlit _ (hlit _ (hlit _ (hlit _ (by decide) _) _) _) _
  refine ⟨⟨rfl, rfl, rfl, rfl, rfl⟩, ?_, h1⟩
  intro p hp rule hrule
  simp only [GetAllRules, List.mem_cons, List.mem_singleton, List.not_mem_nil, or_false] at hrule
  rcases hrule with rfl | rfl | rfl | rfl | rfl | rfl | rfl
  · exact h1 p
  · show (if p = 0 then "" else
      "Rule 2: Added 50 points for round dollar amount $" ++ Float64.format2 receipt.Total) ≠ ""
    rw [if_neg hp]
    exact hlit _ (by decide) _
  · show (if p = 0 then "" else
      "Rule 3: Added 25 points for total $" ++ Float64.format2 receipt.Total
        ++ " being a multiple of 0.25") ≠ ""
    rw [if_neg hp]
    exact hlit _ (hlit _ (by decide) _) _
  · show "Rule 4: Added " ++ fmtInt p ++ " points for "
      ++ fmtInt (Int.ofNat receipt.Items.length / 2)
      ++ " pairs of items (" ++ fmtInt (Int.ofNat receipt.Items.length) ++ " items total)" ≠ ""
    exact hlit _ (hlit _ (hlit _ (hlit _ (hlit _ (hlit _ (by decide) _) _) _) _) _) _
  · show (if p = 0 then "" else
      "Rule 5: Added " ++ fmtInt p
        ++ " points for items with description length multiple of 3") ≠ ""
    rw [if_neg hp]
    exact hlit _ (hlit _ (by decide) _) _
  · show (if p = 0 then "" else
      "Rule 6: Added 6 points for purchase day "
        ++ fmtInt (Int.ofNat ((parseDate receipt.PurchaseDate).getD GoTime.zero).Day)
        ++ " being odd") ≠ ""
    rw [if_neg hp]
    exact hlit _ (hlit _ (by decide) _) _
  · show (if p = 0 then "" else
      "Rule 7: Added 10 points for purchase time " ++ receipt.PurchaseTime
        ++ " being between 14:00 and 16:00") ≠ ""
    rw [if_neg hp]
    exact hlit _ (hlit _ (by decide) _) _

/-! ## The per-rule log records -/

theorem ruleEntries_append (t u : List Event) :
    ruleEntries (t ++ u) = ruleEntries t ++ ruleEntries u := by
  simp [ruleEntries, List.filterMap_append]

theorem formatLogMessage_ne_empty (rt : GoRuntime) (receipt : Receipt) (p : Int) (hp : p ≠ 0) :
    ∀ rule ∈ GetAllRules rt, rule.FormatLogMessage p receipt ≠ "" := by
  have hlit : ∀ (a : String), a ≠ "" → ∀ t, a ++ t ≠ "" := fun a ha t => append_ne_empty a t ha
  intro rule hrule
  simp only [GetAllRules, List.mem_cons, List.mem_singleton, List.not_mem_nil, or_false] at hrule
  rcases hrule with rfl | rfl | rfl | rfl | rfl | rfl | rfl
  · show "Rule 1: Added " ++ fmtInt p
      ++ " points for alphanumeric characters in retailer name \x27" ++ receipt.Retailer
      ++ "\x27" ≠ ""
    exact hlit _ (hlit _ (hlit _ (hlit _ (by decide) _) _) _) _
  · show (if p = 0 then "" else
      "Rule 2: Added 50 points for round dollar amount $" ++ Float64.format2 receipt.Total) ≠ ""
    rw [if_neg hp]
    exact hlit _ (by decide) _
  · show (if p = 0 then "" else
      "Rule 3: Added 25 points for total $" ++ Float64.format2 receipt.Total
        ++ " being a multiple of 0.25") ≠ ""
    rw [if_neg hp]
    exact hlit _ (hlit _ (by decide) _) _
  · show "Rule 4: Added " ++ fmtInt p ++ " points for "
      ++ fmtInt (Int.ofNat receipt.Items.length / 2)
      ++ " pairs of items (" ++ fmtInt (Int.ofNat receipt.Items.length) ++ " items total)" ≠ ""
    exact hlit _ (hlit _ (hlit _ (hlit _ (hlit _ (hlit _ (by decide) _) _) _) _) _) _
  · show (if p = 0 then "" else
      "Rule 5: Added " ++ fmtInt p
        ++ " points for items with description length multiple of 3") ≠ ""
    rw [if_neg hp]
    exact hlit _ (hlit _ (by decide) _) _
  · show (if p = 0 then "" else
      "Rule 6: Added 6 points for purchase day "
        ++ fmtInt (Int.ofNat ((parseDate receipt.PurchaseDate).getD GoTime.zero).Day)
        ++ " being odd") ≠ ""
    rw [if_neg hp]
    exact hlit _ (hlit _ (by decide) _) _
  · show (if p = 0 then "" else
      "Rule 7: Added 10 points for purchase time " ++ receipt.PurchaseTime
        ++ " being between 14:00 and 16:00") ≠ ""
    rw [if_neg hp]
    exact hlit _ (hlit _ (by decide) _) _

theorem rulesLoop_ruleEntries (ctx : Context) (receipt : Receipt) (rules : List PointRule) :
    ∀ (i : Nat) (totalPoints : Int) (trace : List Event),
      (∀ j, j < rules.length → ctx.Err (i + 1 + j) = GoError.nil) →
      (∀ rule ∈ rules, rule.Apply receipt > 0 →
        rule.FormatLogMessage (rule.Apply receipt) receipt ≠ "") →
      ruleEntries (rulesLoop ctx receipt rules i totalPoints trace).trace
        = ruleEntries trace
          ++ ((numbered rules i).filter (fun x => decide (x.2.Apply receipt > 0))).map
              (fun x => (x.2.FormatLogMessage (x.2.Apply receipt) receipt, x.1,
                x.2.Apply receipt)) := by
  induction rules with
  | nil =>
    intro i totalPoints trace _ _
    simp [rulesLoop, numbered, ruleEntries_append, ruleEntries]
  | cons rule rest ih =>
    intro i totalPoints trace h hmsg
    have h0 : ctx.Err (i + 1) = GoError.nil := by simpa using h 0 (by simp)
    have hrest : ∀ j, j < rest.length → ctx.Err (i + 1 + 1 + j) = GoError.nil := by
      intro j hj
      have e : i + 1 + 1 + j = i + 1 + (j + 1) := by omega
      rw [e]
      exact h (j + 1) (by simp; omega)
    have hmsg2 : ∀ r ∈ rest, r.Apply receipt > 0 →
        r.FormatLogMessage (r.Apply receipt) receipt ≠ "" :=
      fun r hr => hmsg r (List.mem_cons_of_mem _ hr)
    by_cases hp : rule.Apply receipt > 0
    · rw [rulesLoop_cons_pos _ _ _ _ _ _ _ h0 hp, ih (i + 1) _ _ hrest hmsg2,
        if_pos (hmsg rule (List.mem_cons_self _ _) hp)]
      simp [numbered, ruleEntries_append, ruleEntries, hp]
    · rw [rulesLoop_cons_nonpos _ _ _ _ _ _ _ h0 hp, ih (i + 1) _ _ hrest hmsg2]
      simp [numbered, ruleEntries_append, ruleEntries, hp]

/-- C21. For every receipt and every context that no poll finds cancelled, the
per-rule log records of `CalculatePoints` (the records tagged `rule_number`)
are, in the order of the rule list, one record for each rule whose `Apply`
result is greater than 0: its message is the rule's `FormatLogMessage`, its
`rule_number` the 1-based position of the rule and its `points` the result of
`Apply`. Every record carries a point value greater than 0, and a rule whose
result is not greater than 0, the retailer-name rule included, has no record
with its position. -/
theorem C21_rule_log_entries (rt : GoRuntime) (ctx : Context) (receipt : Receipt)
    (h : ∀ i, i ≤ 7 → ctx.Err i = GoError.nil) :
    ruleEntries (CalculatePoints rt ctx receipt).trace
      = ((numbered (GetAllRules rt) 0).filter (fun x => decide (x.2.Apply receipt > 0))).map
          (fun x => (x.2.FormatLogMessage (x.2.Apply receipt) receipt, x.1, x.2.Apply receipt))
    ∧ numbered (GetAllRules rt) 0
        = [(1, RetailerNameRule rt), (2, RoundDollarRule), (3, QuarterMultipleRule),
           (4, ItemPairsRule), (5, ItemDescriptionLengthRule rt), (6, OddDayRule),
           (7, AfternoonTimeRule)]
    ∧ (∀ e ∈ ruleEntries (CalculatePoints rt ctx receipt).trace, e.2.2 > 0)
    ∧ (∀ x ∈ numbered (GetAllRules rt) 0, ¬ x.2.Apply receipt > 0 →
        ∀ e ∈ ruleEntries (CalculatePoints rt ctx receipt).trace, e.2.1 ≠ x.1) := by
  have hmain : ruleEntries (CalculatePoints rt ctx receipt).trace
      = ((numbered (GetAllRules rt) 0).filter (fun x => decide (x.2.Apply receipt > 0))).map
          (fun x => (x.2.FormatLogMessage (x.2.Apply receipt) receipt, x.1,
            x.2.Apply receipt)) := by
    unfold CalculatePoints
    rw [if_neg (by simp [h 0 (by omega)])]
    rw [rulesLoop_ruleEntries ctx receipt (GetAllRules rt) 0 0 _ (by
      intro j hj
      have : j < 7 := by simpa [GetAllRules] using hj
      exact h _ (by omega)) (by
      intro rule hrule hp
      exact formatLogMessage_ne_empty rt receipt _ (by omega) rule hrule)]
    simp [ruleEntries]
  have hnum : numbered (GetAllRules rt) 0
      = [(1, RetailerNameRule rt), (2, RoundDollarRule), (3, QuarterMultipleRule),
         (4, ItemPairsRule), (5, ItemDescriptionLengthRule rt), (6, OddDayRule),
         (7, AfternoonTimeRule)] := rfl
  refine ⟨hmain, hnum, ?_, ?_⟩
  · intro e he
    rw [hmain] at he
    simp only [List.mem_map, List.mem_filter, decide_eq_true_eq] at he
    obtain ⟨x, ⟨_, hx⟩, rfl⟩ := he
    exact hx
  · intro x hx hnot e he heq
    rw [hmain] at he
    simp only [List.mem_map, List.mem_filter, decide_eq_true_eq] at he
    obtain ⟨y, ⟨hy, hpos⟩, rfl⟩ := he
    have hxy : y = x := by
      rw [hnum] at hx hy
      simp only [List.mem_cons, List.mem_singleton, List.not_mem_nil, or_false] at hx hy
      rcases hx with rfl | rfl | rfl | rfl | rfl | rfl | rfl <;>
        rcases hy with rfl | rfl | rfl | rfl | rfl | rfl | rfl <;>
        first
          | rfl
          | (exfalso; simp at heq)
    rw [hxy] at hpos
    exact hnot hpos

/-- C21, witness: on the reference receipt the per-rule records are those of
rules 1, 4, 5 and 6, with 6, 10, 6 and 6 points. -/
theorem C21_rule_log_entries_witness :
    (∀ i, i ≤ 7 → Context.Background.Err i = GoError.nil)
    ∧ ruleEntries (CalculatePoints sampleRuntime Context.Background targetReceipt).trace
      = [("Rule 1: Added 6 points for alphanumeric characters in retailer name \x27Target\x27",
            1, 6),
         ("Rule 4: Added 10 points for 2 pairs of items (5 items total)", 4, 10),
         ("Rule 5: Added 6 points for items with description length multiple of 3", 5, 6),
         ("Rule 6: Added 6 points for purchase day 1 being odd", 6, 6)] :=
  ⟨fun _ _ => rfl,
    (C21_rule_log_entries sampleRuntime Context.Background targetReceipt (fun _ _ => rfl)).1.trans
      (by decide!)⟩

/-! ## The store -/

theorem uuidString_ne_empty (u : UUID) : u.String ≠ "" := by
  intro h
  have h2 := congrArg String.data h
  simp [UUID.String] at h2

theorem lookup_mapAssign_self (m : List (String × Int)) (k : String) (v : Int) :
    (mapAssign m k v).lookup k = some v := by
  simp [mapAssign, List.lookup]

theorem lookup_filter_ne (m : List (String × Int)) (k k2 : String) (h : k2 ≠ k) :
    (m.filter (fun e => decide (e.1 ≠ k))).lookup k2 = m.lookup k2 := by
  induction m with
  | nil => rfl
  | cons e rest ih =>
    obtain ⟨a, b⟩ := e
    rw [List.filter_cons]
    by_cases ha : a = k
    · have hk : (k2 == a) = false := by rw [ha]; simpa using h
      rw [if_neg (by simp [ha]), ih, List.lookup_cons, hk]
    · rw [if_pos (by simp [ha]), List.lookup_cons, List.lookup_cons, ih]

theorem lookup_mapAssign_ne (m : List (String × Int)) (k k2 : String) (v : Int) (h : k2 ≠ k) :
    (mapAssign m k v).lookup k2 = m.lookup k2 := by
  have hk : (k2 == k) = false := by simpa using h
  unfold mapAssign
  rw [List.lookup_cons, hk]
  exact lookup_filter_ne m k k2 h

theorem filter_of_lookup_none (m : List (String × Int)) (k : String) (h : m.lookup k = none) :
    m.filter (fun e => decide (e.1 ≠ k)) = m := by
  induction m with
  | nil => rfl
  | cons e rest ih =>
    obtain ⟨a, b⟩ := e
    rw [List.lookup_cons] at h
    by_cases ha : k = a
    · have hk : (k == a) = true := by simpa using ha
      rw [hk] at h
      cases h
    · have hk : (k == a) = false := by simpa using ha
      rw [hk] at h
      have ha2 : a ≠ k := fun e => ha e.symm
      rw [List.filter_cons, if_pos (by simp [ha2]), ih h]

theorem length_mapAssign_fresh (m : List (String × Int)) (k : String) (v : Int)
    (h : m.lookup k = none) : (mapAssign m k v).length = m.length + 1 := by
  unfold mapAssign
  rw [filter_of_lookup_none m k h]
  rfl

theorem SaveReceipt_not_cancelled (s : MemoryStore) (ctx : Context) (points : Int) (u : UUID)
    (h : ctx.Err 0 = GoError.nil) :
    s.SaveReceipt ctx points u
      = ((u.String, GoError.nil), { points := mapAssign s.points u.String points }) := by
  unfold MemoryStore.SaveReceipt
  rw [if_neg (by simp [h])]

theorem SaveReceipt_cancelled (s : MemoryStore) (ctx : Context) (points : Int) (u : UUID)
    (h : ctx.Err 0 ≠ GoError.nil) :
    s.SaveReceipt ctx points u
      = (("", (Wrap ErrContextCancelled (ctx.Err 0)
          "context canceled before saving receipt").toError), s) := by
  unfold MemoryStore.SaveReceipt
  rw [if_pos h]

theorem GetPoints_found (s : MemoryStore) (ctx : Context) (id : String) (points : Int)
    (h : ctx.Err 0 = GoError.nil) (hid : s.points.lookup id = some points) :
    s.GetPoints ctx id = ((points, GoError.nil), s) := by
  unfold MemoryStore.GetPoints
  rw [if_neg (by simp [h]), hid]

theorem GetPoints_not_found (s : MemoryStore) (ctx : Context) (id : String)
    (h : ctx.Err 0 = GoError.nil) (hid : s.points.lookup id = none) :
    s.GetPoints ctx id
      = ((0, (New ErrReceiptNotFound ("receipt with ID " ++ id ++ " not found")).toError), s) := by
  unfold MemoryStore.GetPoints
  rw [if_neg (by simp [h]), hid]

/-- A key that no call of the sequence returned is looked up after the sequence
as before it. -/
theorem saveAll_lookup_other (calls : List (Context × Int × UUID)) :
    ∀ (s : MemoryStore) (id : String), id ∉ (saveAll s calls).1.map Prod.fst →
      (saveAll s calls).2.points.lookup id = s.points.lookup id := by
  induction calls with
  | nil => intro s id _; rfl
  | cons c rest ih =>
    intro s id hid
    obtain ⟨ctx, points, u⟩ := c
    simp only [saveAll, List.map_cons, List.mem_cons, not_or] at hid
    show (saveAll (s.SaveReceipt ctx points u).2 rest).2.points.lookup id = _
    rw [ih _ id hid.2]
    by_cases hc : ctx.Err 0 = GoError.nil
    · rw [SaveReceipt_not_cancelled s ctx points u hc] at hid ⊢
      exact lookup_mapAssign_ne _ _ _ _ hid.1
    · rw [SaveReceipt_cancelled s ctx points u hc]

/-- C22. For every store, every score and every context that is not cancelled,
`SaveReceipt` returns a non-empty id and a nil error, and `GetPoints` called
next with that id and a context that is not cancelled returns the score and a
nil error. -/
theorem C22_save_then_get (s : MemoryStore) (p : Int) (ctx ctx2 : Context) (u : UUID)
    (h : ctx.Err 0 = GoError.nil) (h2 : ctx2.Err 0 = GoError.nil) :
    (s.SaveReceipt ctx p u).1.1 ≠ ""
    ∧ (s.SaveReceipt ctx p u).1.2 = GoError.nil
    ∧ ((s.SaveReceipt ctx p u).2.GetPoints ctx2 (s.SaveReceipt ctx p u).1.1).1
        = (p, GoError.nil) := by
  rw [SaveReceipt_not_cancelled s ctx p u h]
  refine ⟨uuidString_ne_empty u, rfl, ?_⟩
  dsimp only
  rw [GetPoints_found { points := mapAssign s.points u.String p } ctx2 u.String p h2
    (lookup_mapAssign_self _ _ _)]

/-- C22, witness: saving 100 in a new store and reading it back. -/
theorem C22_save_then_get_witness :
    Context.Background.Err 0 = GoError.nil
    ∧ (NewMemoryStorage.SaveReceipt Context.Background 100
        ⟨0x123e4567e89b42d3a456426614174000⟩).1
        = ("123e4567-e89b-42d3-a456-426614174000", GoError.nil)
    ∧ ((NewMemoryStorage.SaveReceipt Context.Background 100
          ⟨0x123e4567e89b42d3a456426614174000⟩).2.GetPoints Context.Background
        (NewMemoryStorage.SaveReceipt Context.Background 100
          ⟨0x123e4567e89b42d3a456426614174000⟩).1.1).1 = (100, GoError.nil) :=
  ⟨rfl, by decide,
    (C22_save_then_get NewMemoryStorage 100 Context.Background Context.Background
      ⟨0x123e4567e89b42d3a456426614174000⟩ rfl rfl).2.2⟩

/-- C23. After any sequence of calls of `SaveReceipt` on a new store, `GetPoints`
with a context that is not cancelled and an id that none of the calls returned
gives 0 and the `*AppError` of code `ErrReceiptNotFound`, which is RP0201, and
leaves the store as it was; the same holds in every store in which the id is not
a key. -/
theorem C23_get_unknown_id (calls : List (Context × Int × UUID)) (ctx : Context) (id : String)
    (h : ctx.Err 0 = GoError.nil)
    (hid : id ∉ (saveAll NewMemoryStorage calls).1.map Prod.fst) :
    (saveAll NewMemoryStorage calls).2.GetPoints ctx id
        = ((0, (New ErrReceiptNotFound ("receipt with ID " ++ id ++ " not found")).toError),
            (saveAll NewMemoryStorage calls).2)
    ∧ GetCode ((saveAll NewMemoryStorage calls).2.GetPoints ctx id).1.2 = "RP0201"
    ∧ IsCode ((saveAll NewMemoryStorage calls).2.GetPoints ctx id).1.2 ErrReceiptNotFound = true
    ∧ (∀ s : MemoryStore, s.points.lookup id = none →
        s.GetPoints ctx id
          = ((0, (New ErrReceiptNotFound ("receipt with ID " ++ id ++ " not found")).toError),
              s)) := by
  have hlook : (saveAll NewMemoryStorage calls).2.points.lookup id = none := by
    rw [saveAll_lookup_other calls NewMemoryStorage id hid]
    rfl
  have hget := GetPoints_not_found _ ctx id h hlook
  refine ⟨hget, ?_, ?_, ?_⟩
  · rw [hget]; rfl
  · rw [hget]; rfl
  · intro s hs
    exact GetPoints_not_found s ctx id h hs

/-- C23, witness: after one save, another id is not found. -/
theorem C23_get_unknown_id_witness :
    Context.Background.Err 0 = GoError.nil
    ∧ (saveAll NewMemoryStorage
        [(Context.Background, 50, ⟨0x123e4567e89b42d3a456426614174000⟩)]).1
        = [("123e4567-e89b-42d3-a456-426614174000", GoError.nil)]
    ∧ ((saveAll NewMemoryStorage
        [(Context.Background, 50, ⟨0x123e4567e89b42d3a456426614174000⟩)]).2.GetPoints
          Context.Background "non-existent-id").1
        = (0, GoError.appError "RP0201" "Receipt not found"
            "receipt with ID non-existent-id not found" GoError.nil) :=
  ⟨rfl, by decide,
    (congrArg Prod.fst (C23_get_unknown_id
      [(Context.Background, 50, ⟨0x123e4567e89b42d3a456426614174000⟩)] Context.Background
      "non-existent-id" rfl (by decide)).1).trans (by decide)⟩

/-- C24. With a context that is already cancelled, `SaveReceipt` returns the
empty id and the `*AppError` of code `ErrContextCancelled` that wraps the
context error, and leaves the store as it was; `GetPoints` returns 0 and an
`*AppError` of the same code for every id, a key of the store or not, and leaves
the store as it was. -/
theorem C24_cancelled_store_calls (s : MemoryStore) (p : Int) (ctx : Context) (u : UUID)
    (id : String) (h : ctx.Err 0 ≠ GoError.nil) :
    s.SaveReceipt ctx p u
        = (("", (Wrap ErrContextCancelled (ctx.Err 0)
            "context canceled before saving receipt").toError), s)
    ∧ IsCode (s.SaveReceipt ctx p u).1.2 ErrContextCancelled = true
    ∧ (∀ k, (s.SaveReceipt ctx p u).2.points.lookup k = s.points.lookup k)
    ∧ s.GetPoints ctx id
        = ((0, (Wrap ErrContextCancelled (ctx.Err 0)
            "context canceled before retrieving points").toError), s)
    ∧ IsCode (s.GetPoints ctx id).1.2 ErrContextCancelled = true := by
  have hs := SaveReceipt_cancelled s ctx p u h
  have hg : s.GetPoints ctx id
      = ((0, (Wrap ErrContextCancelled (ctx.Err 0)
          "context canceled before retrieving points").toError), s) := by
    unfold MemoryStore.GetPoints
    rw [if_pos h]
  refine ⟨hs, ?_, ?_, hg, ?_⟩
  · rw [hs]; rfl
  · intro k; rw [hs]
  · rw [hg]; rfl

/-- C24, witness: a store that holds one receipt, called with a cancelled
context, with the id it holds. -/
theorem C24_cancelled_store_calls_witness :
    (Context.cancelledFrom 0 GoError.Canceled).Err 0 ≠ GoError.nil
    ∧ (MemoryStore.mk [("123e4567-e89b-42d3-a456-426614174000", 100)]).points.lookup
        "123e4567-e89b-42d3-a456-426614174000" = some 100
    ∧ (MemoryStore.mk [("123e4567-e89b-42d3-a456-426614174000", 100)]).GetPoints
        (Context.cancelledFrom 0 GoError.Canceled) "123e4567-e89b-42d3-a456-426614174000"
        = ((0, GoError.appError "RP0003" "Request cancelled or timed out"
            "context canceled before retrieving points" GoError.Canceled),
           MemoryStore.mk [("123e4567-e89b-42d3-a456-426614174000", 100)]) :=
  ⟨by decide, by decide,
    (C24_cancelled_store_calls (MemoryStore.mk [("123e4567-e89b-42d3-a456-426614174000", 100)]) 7
      (Context.cancelledFrom 0 GoError.Canceled) ⟨0⟩ "123e4567-e89b-42d3-a456-426614174000"
      (by decide)).2.2.2.1.trans (by decide)⟩

theorem SaveReceipt_err_nil (s : MemoryStore) (ctx : Context) (points : Int) (u : UUID)
    (h : (s.SaveReceipt ctx points u).1.2 = GoError.nil) : ctx.Err 0 = GoError.nil := by
  by_contra hc
  rw [SaveReceipt_cancelled s ctx points u hc] at h
  cases h

/-- A sequence of calls that all return a nil error and all generate a fresh
identifier. -/
theorem saveAll_fresh (calls : List (Context × Int × UUID)) :
    ∀ s : MemoryStore, (∀ r ∈ (saveAll s calls).1, r.2 = GoError.nil) →
      freshIds s calls = true →
      (saveAll s calls).1 = calls.map (fun c => (c.2.2.String, GoError.nil))
      ∧ (calls.map (fun c => c.2.2.String)).Nodup
      ∧ (∀ c ∈ calls, s.points.lookup c.2.2.String = none)
      ∧ (∀ (i : Nat) (hi : i < calls.length),
          (saveAll s calls).2.points.lookup (calls.get ⟨i, hi⟩).2.2.String
            = some (calls.get ⟨i, hi⟩).2.1)
      ∧ (saveAll s calls).2.points.length = s.points.length + calls.length := by
  induction calls with
  | nil =>
    intro s _ _
    refine ⟨rfl, List.nodup_nil, ?_, ?_, rfl⟩
    · intro c hc; cases hc
    · intro i hi; simp at hi
  | cons c rest ih =>
    intro s hok hfresh
    obtain ⟨ctx, p, u⟩ := c
    have hc : ctx.Err 0 = GoError.nil :=
      SaveReceipt_err_nil s ctx p u (hok _ (by simp [saveAll]))
    have hsave := SaveReceipt_not_cancelled s ctx p u hc
    have hok2 : ∀ r ∈ (saveAll { points := mapAssign s.points u.String p } rest).1,
        r.2 = GoError.nil := by
      intro r hr
      apply hok r
      simp only [saveAll, hsave, List.mem_cons]
      exact Or.inr hr
    simp only [freshIds, hsave, Bool.and_eq_true, Option.isNone_iff_eq_none] at hfresh
    obtain ⟨h1, h2, h3, h4, h5⟩ := ih { points := mapAssign s.points u.String p } hok2 hfresh.2
    have hne : ∀ c ∈ rest, c.2.2.String ≠ u.String := by
      intro c hc heq
      have := h3 c hc
      rw [heq] at this
      dsimp only at this
      rw [lookup_mapAssign_self] at this
      cases this
    have hnotin : u.String ∉ (saveAll { points := mapAssign s.points u.String p } rest).1.map
        Prod.fst := by
      rw [h1]
      simp only [List.map_map, List.mem_map, Function.comp, not_exists, not_and]
      intro c hc heq
      exact hne c hc heq
    refine ⟨?_, ?_, ?_, ?_, ?_⟩
    · simp only [saveAll, hsave, List.map_cons, h1]
    · simp only [List.map_cons, List.nodup_cons, List.mem_map, not_exists, not_and]
      exact ⟨fun c hc heq => hne c hc heq, h2⟩
    · intro c hc
      rcases List.mem_cons.mp hc with rfl | hc
      · exact hfresh.1
      · have := h3 c hc
        dsimp only at this
        rw [lookup_mapAssign_ne _ _ _ _ (hne c hc)] at this
        exact this
    · intro i hi
      simp only [saveAll, hsave]
      cases i with
      | zero =>
        show (saveAll { points := mapAssign s.points u.String p } rest).2.points.lookup u.String
          = some p
        rw [saveAll_lookup_other rest _ _ hnotin]
        exact lookup_mapAssign_self _ _ _
      | succ i => exact h4 i (by simpa using hi)
    · simp only [saveAll, hsave, h5, List.length_cons]
      rw [length_mapAssign_fresh _ _ _ hfresh.1]
      omega

/-- C25. For every sequence of calls of `SaveReceipt` on a new store that all
return a nil error and all generate a fresh identifier (one that is not a key of
the store at that time), the ids returned are those generated and are pairwise
distinct, `GetPoints` with a context that is not cancelled returns for the id of
the i-th call the score of the i-th call, and the map of the store holds as many
entries as there were calls. -/
theorem C25_saves_keep_scores (calls : List (Context × Int × UUID)) (ctx : Context)
    (hok : ∀ r ∈ (saveAll NewMemoryStorage calls).1, r.2 = GoError.nil)
    (hfresh : freshIds NewMemoryStorage calls = true)
    (h : ctx.Err 0 = GoError.nil) :
    (saveAll NewMemoryStorage calls).1 = calls.map (fun c => (c.2.2.String, GoError.nil))
    ∧ ((saveAll NewMemoryStorage calls).1.map Prod.fst).Nodup
    ∧ (∀ (i : Nat) (hi : i < calls.length),
        ((saveAll NewMemoryStorage calls).2.GetPoints ctx (calls.get ⟨i, hi⟩).2.2.String).1
          = ((calls.get ⟨i, hi⟩).2.1, GoError.nil))
    ∧ (saveAll NewMemoryStorage calls).2.points.length = calls.length := by
  obtain ⟨h1, h2, _, h4, h5⟩ := saveAll_fresh calls NewMemoryStorage hok hfresh
  refine ⟨h1, ?_, ?_, ?_⟩
  · rw [h1, List.map_map]
    exact h2
  · intro i hi
    rw [GetPoints_found _ ctx _ _ h (h4 i hi)]
  · rw [h5]
    simp [NewMemoryStorage]

/-- C25, witness: three saves with three different identifiers; the first id
still gives the first score. -/
theorem C25_saves_keep_scores_witness :
    freshIds NewMemoryStorage
        [(Context.Background, 10, ⟨1⟩), (Context.Background, 20, ⟨2⟩),
         (Context.Background, 30, ⟨3⟩)] = true
    ∧ (saveAll NewMemoryStorage
        [(Context.Background, 10, ⟨1⟩), (Context.Background, 20, ⟨2⟩),
         (Context.Background, 30, ⟨3⟩)]).1
      = [("00000000-0000-0000-0000-000000000001", GoError.nil),
         ("00000000-0000-0000-0000-000000000002", GoError.nil),
         ("00000000-0000-0000-0000-000000000003", GoError.nil)]
    ∧ ((saveAll NewMemoryStorage
        [(Context.Background, 10, ⟨1⟩), (Context.Background, 20, ⟨2⟩),
         (Context.Background, 30, ⟨3⟩)]).2.GetPoints Context.Background
          (UUID.mk 1).String).1 = (10, GoError.nil)
    ∧ (saveAll NewMemoryStorage
        [(Context.Background, 10, ⟨1⟩), (Context.Background, 20, ⟨2⟩),
         (Context.Background, 30, ⟨3⟩)]).2.points.length = 3 :=
  ⟨by decide, by decide,
    (C25_saves_keep_scores
      [(Context.Background, 10, ⟨1⟩), (Context.Background, 20, ⟨2⟩),
       (Context.Background, 30, ⟨3⟩)] Context.Background (by decide) (by decide) rfl).2.2.1 0
        (by decide),
    (C25_saves_keep_scores
      [(Context.Background, 10, ⟨1⟩), (Context.Background, 20, ⟨2⟩),
       (Context.Background, 30, ⟨3⟩)] Context.Background (by decide) (by decide) rfl).2.2.2⟩

/-! ## The handlers -/

theorem rulesLoop_err (ctx : Context) (receipt : Receipt) (rules : List PointRule) :
    ∀ (i : Nat) (totalPoints : Int) (trace : List Event),
      (rulesLoop ctx receipt rules i totalPoints trace).err = GoError.nil
      ∨ ∃ e : GoError, e ≠ GoError.nil
          ∧ (rulesLoop ctx receipt rules i totalPoints trace).err
              = (Wrap ErrContextCancelled e "context cancelled during rule evaluation").toError := by
  induction rules with
  | nil => intro i totalPoints trace; left; rfl
  | cons rule rest ih =>
    intro i totalPoints trace
    by_cases h0 : ctx.Err (i + 1) = GoError.nil
    · by_cases hp : rule.Apply receipt > 0
      · rw [rulesLoop_cons_pos _ _ _ _ _ _ _ h0 hp]
        exact ih _ _ _
      · rw [rulesLoop_cons_nonpos _ _ _ _ _ _ _ h0 hp]
        exact ih _ _ _
    · right
      rw [rulesLoop_cons_cancelled _ _ _ _ _ _ _ h0]
      exact ⟨ctx.Err (i + 1), h0, rfl⟩

/-- The only error `CalculatePoints` returns is an `*AppError` of code
`ErrContextCancelled` that wraps a non-nil error of the context. -/
theorem CalculatePoints_err (rt : GoRuntime) (ctx : Context) (receipt : Receipt) :
    (CalculatePoints rt ctx receipt).err = GoError.nil
    ∨ ∃ (e : GoError) (detail : String), e ≠ GoError.nil
        ∧ (CalculatePoints rt ctx receipt).err = (Wrap ErrContextCancelled e detail).toError := by
  unfold CalculatePoints
  by_cases h0 : ctx.Err 0 = GoError.nil
  · rw [if_neg (by simp [h0])]
    rcases rulesLoop_err ctx receipt (GetAllRules rt) 0 0
      [Event.info "Calculating points for receipt"
        [("retailer", LogValue.str receipt.Retailer), ("date", LogValue.str receipt.PurchaseDate),
         ("time", LogValue.str receipt.PurchaseTime),
         ("items_count", LogValue.int (Int.ofNat receipt.Items.length))]] with h | ⟨e, he, h⟩
    · exact Or.inl h
    · exact Or.inr ⟨e, _, he, h⟩
  · rw [if_pos h0]
    exact Or.inr ⟨ctx.Err 0, _, h0, rfl⟩

theorem rulesLoop_err_nil (ctx : Context) (receipt : Receipt) (rules : List PointRule) :
    ∀ (i : Nat) (totalPoints : Int) (trace : List Event),
      (rulesLoop ctx receipt rules i totalPoints trace).err = GoError.nil →
      ∀ j, j < rules.length → ctx.Err (i + 1 + j) = GoError.nil := by
  induction rules with
  | nil => intro i totalPoints trace _ j hj; simp at hj
  | cons rule rest ih =>
    intro i totalPoints trace h j hj
    by_cases h0 : ctx.Err (i + 1) = GoError.nil
    · cases j with
      | zero => exact h0
      | succ j =>
        have hj2 : j < rest.length := by simpa using hj
        have e : i + 1 + (j + 1) = i + 1 + 1 + j := by omega
        rw [e]
        by_cases hp : rule.Apply receipt > 0
        · rw [rulesLoop_cons_pos _ _ _ _ _ _ _ h0 hp] at h
          exact ih _ _ _ h j hj2
        · rw [rulesLoop_cons_nonpos _ _ _ _ _ _ _ h0 hp] at h
          exact ih _ _ _ h j hj2
    · rw [rulesLoop_cons_cancelled _ _ _ _ _ _ _ h0] at h
      cases h

/-- A call of `CalculatePoints` that returns a nil error found none of its eight
polls cancelled. -/
theorem CalculatePoints_err_nil (rt : GoRuntime) (ctx : Context) (receipt : Receipt)
    (h : (CalculatePoints rt ctx receipt).err = GoError.nil) :
    ∀ i, i ≤ 7 → ctx.Err i = GoError.nil := by
  unfold CalculatePoints at h
  by_cases h0 : ctx.Err 0 = GoError.nil
  · rw [if_neg (by simp [h0])] at h
    intro i hi
    cases i with
    | zero => exact h0
    | succ i =>
      have := rulesLoop_err_nil ctx receipt (GetAllRules rt) 0 0 _ h i (by
        simp [GetAllRules]; omega)
      have e : 0 + 1 + i = i + 1 := by omega
      rw [e] at this
      exact this
  · rw [if_pos h0] at h
    cases h

theorem handleError_appError (e : AppError) :
    handleError e.toError
      = { status :=
            if e.Code ∈ ["RP0002", "RP0101", "RP0102", "RP0103", "RP0104", "RP0105", "RP0106",
                "RP0107", "RP0108", "RP0109"] then 400
            else if e.Code = "RP0201" then 404
            else if e.Code = "RP0003" then 408
            else 500,
          body := Body.apiError e.Code e.Message } := by
  simp only [handleError, AppError.toError, ErrInvalidJSON, ErrInvalidReceiptData,
    ErrInvalidRetailer, ErrInvalidPurchaseDate, ErrInvalidPurchaseTime, ErrInvalidTotal,
    ErrMissingItems, ErrInvalidItemData, ErrInvalidItemDescription, ErrInvalidItemPrice,
    ErrReceiptNotFound, ErrContextCancelled, List.mem_cons, List.mem_singleton,
    List.not_mem_nil, or_false]

/-- Inside `ProcessReceipt`, an error of `CalculatePoints` is answered with 408
and code RP0003, and the store is not reached. -/
theorem ProcessReceipt_calculation_error (rt : GoRuntime) (store : MemoryStore) (ctx : Context)
    (receipt : Receipt) (u : UUID) (herr : (CalculatePoints rt ctx receipt).err ≠ GoError.nil) :
    ReceiptHandler.ProcessReceipt rt store ctx (some (GinValue.receipt receipt)) u
      = ({ status := 408, body := Body.apiError "RP0003" "Request cancelled or timed out" },
         store) := by
  rcases CalculatePoints_err rt ctx receipt with h | ⟨e, detail, _, h⟩
  · exact absurd h herr
  · unfold ReceiptHandler.ProcessReceipt
    simp only [if_pos herr, h]
    rfl

/-- C26. For an `*AppError`, `handleError` answers with status 400 when the code
is RP0002 or one of RP0101 to RP0109, 404 when it is RP0201, 408 when it is
RP0003 and 500 for every other code, with the code and the message of the error
as body; for an error that is not an `*AppError` it answers 500 with code
RP0001. When `CalculatePoints` returns an error inside `ProcessReceipt`, which
it does exactly when one of its eight polls finds the context cancelled, the
answer is 408 with code RP0003 and the store is left as it was. -/
theorem C26_error_status :
    (∀ e : AppError,
      handleError e.toError
        = { status :=
              if e.Code ∈ ["RP0002", "RP0101", "RP0102", "RP0103", "RP0104", "RP0105", "RP0106",
                  "RP0107", "RP0108", "RP0109"] then 400
              else if e.Code = "RP0201" then 404
              else if e.Code = "RP0003" then 408
              else 500,
            body := Body.apiError e.Code e.Message })
    ∧ (∀ err : GoError, (∀ e : AppError, err ≠ e.toError) →
        handleError err = { status := 500,
                            body := Body.apiError "RP0001" "An unexpected error occurred" })
    ∧ (∀ (rt : GoRuntime) (store : MemoryStore) (ctx : Context) (receipt : Receipt) (u : UUID),
        (CalculatePoints rt ctx receipt).err ≠ GoError.nil →
        ReceiptHandler.ProcessReceipt rt store ctx (some (GinValue.receipt receipt)) u
          = ({ status := 408, body := Body.apiError "RP0003" "Request cancelled or timed out" },
             store))
    ∧ (∀ (rt : GoRuntime) (store : MemoryStore) (ctx : Context) (receipt : Receipt) (u : UUID)
        (m : Nat), m ≤ 7 → ctx.Err m ≠ GoError.nil →
        ReceiptHandler.ProcessReceipt rt store ctx (some (GinValue.receipt receipt)) u
          = ({ status := 408, body := Body.apiError "RP0003" "Request cancelled or timed out" },
             store))
    ∧ ReceiptHandler.ProcessReceipt sampleRuntime NewMemoryStorage
        (Context.cancelledFrom 3 GoError.Canceled) (some (GinValue.receipt targetReceipt)) ⟨1⟩
        = ({ status := 408, body := Body.apiError "RP0003" "Request cancelled or timed out" },
           NewMemoryStorage)
    ∧ (ReceiptHandler.ProcessReceipt sampleRuntime NewMemoryStorage
        Context.Background (some (GinValue.receipt targetReceipt)) ⟨1⟩).1
        = { status := 200, body := Body.receiptResponse (UUID.mk 1).String } := by
  refine ⟨handleError_appError, ?_, ?_, ?_, ?_, ?_⟩
  · intro err h
    cases err with
    | appError c m d e => exact absurd rfl (h ⟨c, m, d, e⟩)
    | _ => rfl
  · intro rt store ctx receipt u herr
    exact ProcessReceipt_calculation_error rt store ctx receipt u herr
  · intro rt store ctx receipt u m hm hc
    exact ProcessReceipt_calculation_error rt store ctx receipt u
      (fun hnil => hc (CalculatePoints_err_nil rt ctx receipt hnil m hm))
  · decide!
  · decide!

/-! ## Construction and inspection of errors -/

theorem mem_of_lookup_eq_some {β : Type} (m : List (String × β)) (k : String) (v : β) :
    m.lookup k = some v → (k, v) ∈ m := by
  induction m with
  | nil => intro h; cases h
  | cons e rest ih =>
    obtain ⟨a, b⟩ := e
    intro h
    rw [List.lookup_cons] at h
    by_cases ha : k = a
    · have hk : (k == a) = true := by simpa using ha
      rw [hk] at h
      simp only [Option.some.injEq] at h
      rw [ha, h]
      exact List.mem_cons_self _ _
    · have hk : (k == a) = false := by simpa using ha
      rw [hk] at h
      exact List.mem_cons_of_mem _ (ih h)

theorem lookup_eq_some_of_mem {β : Type} (m : List (String × β)) (k : String) (v : β) :
    (m.map Prod.fst).Nodup → (k, v) ∈ m → m.lookup k = some v := by
  induction m with
  | nil => intro _ h; cases h
  | cons e rest ih =>
    obtain ⟨a, b⟩ := e
    intro hnd h
    rw [List.map_cons, List.nodup_cons] at hnd
    rw [List.lookup_cons]
    rcases List.mem_cons.mp h with heq | hmem
    · simp only [Prod.mk.injEq] at heq
      have hk : (k == a) = true := by simpa using heq.1
      rw [hk, heq.2]
    · have hne : k ≠ a := by
        intro hka
        apply hnd.1
        rw [← hka]
        exact List.mem_map.mpr ⟨(k, v), hmem, rfl⟩
      have hk : (k == a) = false := by simpa using hne
      rw [hk]
      exact ih hnd.2 hmem

/-- C27. `New(code, detail)` is the `*AppError` with that code and detail, a nil
`Err` and, as message, the entry of `errorMap` for the code, or "Unknown error"
when the code has no entry; `Wrap(code, e, detail)` is the same except that its
`Err` is `e`, which `Unwrap` returns. -/
theorem C27_new_wrap (code : ErrorCode) (detail : String) (e : GoError) :
    (New code detail).Code = code
    ∧ (New code detail).Detail = detail
    ∧ (New code detail).Err = GoError.nil
    ∧ (∀ message, (code, message) ∈ errorMap → (New code detail).Message = message)
    ∧ ((∀ message, (code, message) ∉ errorMap) → (New code detail).Message = "Unknown error")
    ∧ Wrap code e detail = { New code detail with Err := e }
    ∧ (Wrap code e detail).Unwrap = e
    ∧ (New ErrInvalidReceiptData "missing required fields")
        = ⟨"RP0101", "Invalid or missing receipt data", "missing required fields", GoError.nil⟩
    ∧ (New "UNKNOWN" "test detail").Message = "Unknown error"
    ∧ Wrap ErrStorageFailure (GoError.errorString "database connection failed")
          "while connecting to database"
        = ⟨"RP0202", "Failed to store receipt data", "while connecting to database",
            GoError.errorString "database connection failed"⟩ := by
  have hkeys : (errorMap.map Prod.fst).Nodup := by decide
  have hlook : ∀ message, (code, message) ∈ errorMap → errorMap.lookup code = some message := by
    intro message hm
    exact lookup_eq_some_of_mem errorMap code message hkeys hm
  refine ⟨rfl, rfl, rfl, ?_, ?_, rfl, rfl, by decide, by decide, by decide⟩
  · intro message hm
    show (errorMap.lookup code).getD "Unknown error" = message
    rw [hlook message hm]
    rfl
  · intro hno
    show (errorMap.lookup code).getD "Unknown error" = "Unknown error"
    cases hl : errorMap.lookup code with
    | none => rfl
    | some message =>
      exact absurd (mem_of_lookup_eq_some errorMap code message hl) (hno message)

/-- C28. `IsCode(err, c)` is true exactly when `err` is an `*AppError` whose code
is `c`, and `GetCode(err)` is the code of `err` when `err` is an `*AppError` and
the empty string otherwise: for nil and for the errors that are not an
`*AppError`, `IsCode` is false and `GetCode` is empty. -/
theorem C28_is_code_get_code (err : GoError) (c : ErrorCode) :
    (IsCode err c = true ↔ ∃ e : AppError, err = e.toError ∧ e.Code = c)
    ∧ (∀ e : AppError, err = e.toError → GetCode err = e.Code)
    ∧ ((∀ e : AppError, err ≠ e.toError) → IsCode err c = false ∧ GetCode err = "")
    ∧ IsCode GoError.nil c = false
    ∧ GetCode GoError.nil = ""
    ∧ (∀ text, IsCode (GoError.errorString text) c = false ∧ GetCode (GoError.errorString text) = "")
    ∧ IsCode (New ErrInvalidReceiptData "test detail").toError ErrInvalidReceiptData = true
    ∧ IsCode (New ErrInvalidReceiptData "test detail").toError ErrReceiptNotFound = false
    ∧ GetCode (New ErrInvalidReceiptData "test detail").toError = ErrInvalidReceiptData := by
  refine ⟨?_, ?_, ?_, rfl, rfl, fun _ => ⟨rfl, rfl⟩, by decide, by decide, by decide⟩
  · cases err with
    | appError code m d e =>
      constructor
      · intro h
        exact ⟨⟨code, m, d, e⟩, rfl, by simpa [IsCode] using h⟩
      · rintro ⟨a, ha, hc⟩
        simp only [AppError.toError, GoError.appError.injEq] at ha
        simp [IsCode, ha.1, hc]
    | nil => simp [IsCode, AppError.toError]
    | Canceled => simp [IsCode, AppError.toError]
    | DeadlineExceeded => simp [IsCode, AppError.toError]
    | errorString t => simp [IsCode, AppError.toError]
  · intro e he
    rw [he]
    rfl
  · intro h
    cases err with
    | appError code m d e => exact absurd rfl (h ⟨code, m, d, e⟩)
    | _ => exact ⟨rfl, rfl⟩

/-! ## Decimal numerals -/

theorem toString_nat_data (n : Nat) : (toString n).data = Nat.toDigits 10 n := rfl

theorem digitChar_digit : ∀ d, d < 10 →
    isDigitChar (Nat.digitChar d) = true ∧ digitVal (Nat.digitChar d) = d := by
  decide

theorem digitsValue_append_singleton (ds : List Char) (c : Char) :
    digitsValue (ds ++ [c]) = digitsValue ds * 10 + digitVal c := by
  simp [digitsValue, List.foldl_append]

theorem digitsValue_append_two (ds : List Char) (c d : Char) :
    digitsValue (ds ++ [c, d]) = (digitsValue ds * 10 + digitVal c) * 10 + digitVal d := by
  simp [digitsValue, List.foldl_append]

/-- With fuel above `n`, `Nat.toDigitsCore` puts in front of its accumulator a
non-empty run of ASCII digits whose value in base ten is `n`. -/
theorem toDigitsCore_value :
    ∀ (fuel n : Nat) (acc : List Char), n < fuel →
      ∃ run : List Char, run ≠ [] ∧ run.all isDigitChar = true ∧ digitsValue run = n
        ∧ Nat.toDigitsCore 10 fuel n acc = run ++ acc := by
  intro fuel
  induction fuel with
  | zero => intro n acc h; omega
  | succ fuel ih =>
    intro n acc h
    have hd := digitChar_digit (n % 10) (Nat.mod_lt _ (by omega))
    unfold Nat.toDigitsCore
    by_cases h0 : n / 10 = 0
    · simp only [h0, if_true]
      refine ⟨[Nat.digitChar (n % 10)], by simp, by simp [hd.1], ?_, rfl⟩
      simp only [digitsValue, List.foldl_cons, List.foldl_nil, hd.2]
      omega
    · simp only [h0, if_false]
      obtain ⟨run, _, h3, h4, h1⟩ := ih (n / 10) (Nat.digitChar (n % 10) :: acc) (by omega)
      refine ⟨run ++ [Nat.digitChar (n % 10)], by simp, ?_, ?_, by rw [h1]; simp⟩
      · simp [List.all_append, h3, hd.1]
      · rw [digitsValue_append_singleton, h4, hd.2]
        omega

theorem toDigits_spec (n : Nat) :
    Nat.toDigits 10 n ≠ [] ∧ (Nat.toDigits 10 n).all isDigitChar = true
      ∧ digitsValue (Nat.toDigits 10 n) = n := by
  obtain ⟨run, h2, h3, h4, h1⟩ := toDigitsCore_value (n + 1) n [] (by omega)
  have : Nat.toDigits 10 n = run := by
    unfold Nat.toDigits
    rw [h1, List.append_nil]
  rw [this]
  exact ⟨h2, h3, h4⟩

theorem toDigits_digit : ∀ d, d < 10 → Nat.toDigits 10 d = [Nat.digitChar d] := by
  decide

theorem dropWhile_digits (whole rest : List Char) (h : whole.all isDigitChar = true) :
    (whole ++ Char.ofNat 0x2E :: rest).dropWhile isDigitChar = Char.ofNat 0x2E :: rest
    ∧ (whole ++ Char.ofNat 0x2E :: rest).takeWhile isDigitChar = whole := by
  induction whole with
  | nil => exact ⟨rfl, rfl⟩
  | cons c cs ih =>
    simp only [List.all_cons, Bool.and_eq_true] at h
    obtain ⟨h1, h2⟩ := ih h.2
    constructor
    · rw [List.cons_append, List.dropWhile_cons, if_pos h.1, h1]
    · rw [List.cons_append, List.takeWhile_cons, if_pos h.1, h2]

/-- A numeral written as a sign, digits, a point and digits is split into these
parts. -/
theorem splitDecimal_numeral (s : Bool) (whole frac : List Char) (hw : whole ≠ [])
    (hwd : whole.all isDigitChar = true) (hfd : frac.all isDigitChar = true) :
    splitDecimal (String.mk ((if s then [Char.ofNat 0x2D] else []) ++ whole
      ++ Char.ofNat 0x2E :: frac)) = some (s, whole, frac) := by
  obtain ⟨h1, h2⟩ := dropWhile_digits whole frac hwd
  cases s with
  | true =>
    simp only [if_true, List.append_assoc, List.singleton_append, splitDecimal]
    simp [h1, h2, hfd, hw]
  | false =>
    cases whole with
    | nil => exact absurd rfl hw
    | cons c cs =>
      have hc : isDigitChar c = true := by
        simp only [List.all_cons, Bool.and_eq_true] at hwd
        exact hwd.1
      have hc1 : c ≠ Char.ofNat 0x2B := by
        intro e; rw [e] at hc; exact absurd hc (by decide)
      have hc2 : c ≠ Char.ofNat 0x2D := by
        intro e; rw [e] at hc; exact absurd hc (by decide)
      simp only [List.nil_append, List.cons_append, splitDecimal]
      simp only [List.cons_append] at h1 h2
      simp [hc1, hc2, h1, h2, hfd]

/-! ## Rounding a rounded amount again -/

theorem roundHalfEven_bounds (a d : Nat) (hd : 0 < d) :
    2 * (Float64.roundHalfEven a d * d) ≤ 2 * a + d
    ∧ 2 * a ≤ 2 * (Float64.roundHalfEven a d * d) + d := by
  have hdm := Nat.div_add_mod a d
  have hmod := Nat.mod_lt a hd
  have e1 : a / d * d = d * (a / d) := Nat.mul_comm _ _
  have e2 : (a / d + 1) * d = d * (a / d) + d := by rw [Nat.add_mul, Nat.one_mul, e1]
  unfold Float64.roundHalfEven
  generalize a / d = x at *
  generalize a % d = r at *
  split_ifs <;> (first | rw [e1] | rw [e2]) <;> (generalize d * x = y at *; omega)

theorem roundHalfEven_between (a d : Nat) :
    a / d ≤ Float64.roundHalfEven a d ∧ Float64.roundHalfEven a d ≤ a / d + 1 := by
  unfold Float64.roundHalfEven
  split_ifs <;> omega

theorem roundHalfEven_unique (a d m : Nat) (hd : 0 < d) (h1 : 2 * (m * d) < 2 * a + d)
    (h2 : 2 * a < 2 * (m * d) + d) : Float64.roundHalfEven a d = m := by
  obtain ⟨b1, b2⟩ := roundHalfEven_bounds a d hd
  generalize Float64.roundHalfEven a d = q at *
  by_contra hne
  rcases Nat.lt_or_gt_of_ne hne with hlt | hgt
  · have h3 : (q + 1) * d ≤ m * d := Nat.mul_le_mul_right d hlt
    rw [Nat.add_mul, Nat.one_mul] at h3
    generalize q * d = qd at *
    generalize m * d = md at *
    omega
  · have h3 : (m + 1) * d ≤ q * d := Nat.mul_le_mul_right d hgt
    rw [Nat.add_mul, Nat.one_mul] at h3
    generalize q * d = qd at *
    generalize m * d = md at *
    omega

theorem bitLengthAux_zero (fuel : Nat) : Float64.bitLengthAux fuel 0 = 0 := by
  cases fuel <;> simp [Float64.bitLengthAux]

theorem bitLengthAux_bounds (fuel : Nat) :
    ∀ n : Nat, 0 < n → n ≤ fuel →
      2 ^ (Float64.bitLengthAux fuel n - 1) ≤ n ∧ n < 2 ^ Float64.bitLengthAux fuel n := by
  induction fuel with
  | zero => intro n h1 h2; omega
  | succ fuel ih =>
    intro n hn hle
    unfold Float64.bitLengthAux
    rw [if_neg (by omega)]
    by_cases h2 : n / 2 = 0
    · rw [h2, bitLengthAux_zero]
      simp
      omega
    · obtain ⟨i1, i2⟩ := ih (n / 2) (by omega) (by omega)
      generalize Float64.bitLengthAux fuel (n / 2) = b at *
      have hb : 1 ≤ b := by
        by_contra hb0
        have : b = 0 := by omega
        rw [this] at i2
        simp at i2
        omega
      have e : b + 1 - 1 = (b - 1) + 1 := by omega
      rw [e, pow_succ 2 (b - 1), pow_succ 2 b]
      have e2 : 2 ^ (b - 1 + 1) = 2 ^ (b - 1) * 2 := pow_succ 2 (b - 1)
      have e3 : b - 1 + 1 = b := by omega
      rw [e3] at e2
      rw [e2] at i2 ⊢
      generalize 2 ^ (b - 1) = t at *
      omega

theorem bitLength_eq (n L : Nat) (h1 : 2 ^ L ≤ n) (h2 : n < 2 ^ (L + 1)) :
    Float64.bitLength n = L + 1 := by
  have hle := bitLength_le n (L + 1) h2
  have hpos : 0 < n := Nat.lt_of_lt_of_le (Nat.two_pow_pos L) h1
  have hb := (bitLengthAux_bounds n n hpos (le_refl n)).2
  have hge : L < Float64.bitLength n := by
    by_contra hlt
    have h3 : Float64.bitLength n ≤ L := by omega
    have h4 : 2 ^ Float64.bitLength n ≤ 2 ^ L := Nat.pow_le_pow_right (by omega) h3
    unfold Float64.bitLength at h4
    omega
  omega

theorem bitLength_bounds (n : Nat) (hn : 0 < n) :
    2 ^ (Float64.bitLength n - 1) ≤ n ∧ n < 2 ^ Float64.bitLength n :=
  bitLengthAux_bounds n n hn (le_refl n)

theorem unit_eq_mul : Float64.unit = 128 * 2 ^ 1067 := by decide!

theorem pow_mul_two_le (a e : Nat) (h : a + 1 ≤ e) : 2 ^ a * 2 ≤ 2 ^ e := by
  rw [← pow_succ]
  exact pow_le_pow_right₀ (by decide) h

theorem unit_cases_aux (U W P e : Nat) (hU : U = 128 * W) (hW : 0 < W)
    (h1 : e ≤ 1067 → P ≤ W) (h2 : 1068 ≤ e → W * 2 ≤ P) :
    100 * P < U ∨ (1068 ≤ e ∧ U ≤ 64 * P) := by
  by_cases h : e ≤ 1067
  · left
    have := h1 h
    omega
  · right
    have := h2 (by omega)
    omega

/-- A power of two is either below a hundredth of the unit `2^1074` or at least
a sixty-fourth of it. -/
theorem unit_cases (e : Nat) :
    100 * 2 ^ e < Float64.unit ∨ (1068 ≤ e ∧ Float64.unit ≤ 64 * 2 ^ e) :=
  unit_cases_aux _ _ _ e unit_eq_mul (Nat.pos_of_ne_zero (pow_ne_zero 1067 (by decide)))
    (fun h => pow_le_pow_right₀ (by decide) h) (fun h => pow_mul_two_le 1067 e h)

theorem bitLength_zero : Float64.bitLength 0 = 0 := rfl

/-- A power of two with at least 1074 binary places survives the passage
through two decimals. -/
theorem roundUnits_pow_two (j : Nat) (hj : 1074 ≤ j) :
    Float64.roundUnits (Float64.roundHalfEven (2 ^ j * 100) Float64.unit * Float64.unit) 100
      = 2 ^ j := by
  have hU : 0 < Float64.unit := unit_pos
  have hdvd : Float64.unit ∣ 2 ^ j := by
    rw [Float64.unit]
    exact pow_dvd_pow 2 hj
  have hdvd2 : Float64.unit ∣ 2 ^ j * 100 := Dvd.dvd.mul_right hdvd 100
  rw [roundHalfEven_of_dvd _ _ hU hdvd2, Nat.div_mul_cancel hdvd2]
  have hq : 2 ^ j * 100 / 100 = 2 ^ j := Nat.mul_div_cancel _ (by omega)
  have hbl : Float64.bitLength (2 ^ j) ≤ j + 1 :=
    bitLength_le _ _ (Nat.pow_lt_pow_right (by omega) (by omega))
  have hsh : 2 ^ (Float64.bitLength (2 ^ j) - 53) ∣ 2 ^ j := pow_dvd_pow 2 (by omega)
  rw [roundUnits_exact _ _ (by omega : 0 < 100), hq]
  rw [hq, Nat.mul_comm (2 ^ j) 100]
  exact Nat.mul_dvd_mul_left 100 hsh

/-- Rounding to `float64` the two-decimal rendering of a rounded two-decimal
amount gives the same `float64`: in units of `2^(-1074)`, with `k` the rounding
of `n / 100`, the rounding of `roundHalfEven (k * 100) unit / 100` is `k`. -/
theorem roundUnits_again (n : Nat) :
    Float64.roundUnits
        (Float64.roundHalfEven (Float64.roundUnits (n * Float64.unit) 100 * 100) Float64.unit
          * Float64.unit) 100
      = Float64.roundUnits (n * Float64.unit) 100 := by
  have hU : 0 < Float64.unit := unit_pos
  have hk : Float64.roundUnits (n * Float64.unit) 100
      = Float64.roundHalfEven (n * Float64.unit)
          (100 * 2 ^ (Float64.bitLength (n * Float64.unit / 100) - 53))
        * 2 ^ (Float64.bitLength (n * Float64.unit / 100) - 53) := rfl
  have hP : 0 < 2 ^ (Float64.bitLength (n * Float64.unit / 100) - 53) := Nat.two_pow_pos _
  obtain ⟨b1, b2⟩ := roundHalfEven_bounds (n * Float64.unit)
    (100 * 2 ^ (Float64.bitLength (n * Float64.unit / 100) - 53)) (by omega)
  obtain ⟨c1, c2⟩ := roundHalfEven_between (n * Float64.unit)
    (100 * 2 ^ (Float64.bitLength (n * Float64.unit / 100) - 53))
  rcases unit_cases (Float64.bitLength (n * Float64.unit / 100) - 53) with hA | ⟨he, hUP⟩
  · -- the rendering is `n / 100` itself
    have hM : Float64.roundHalfEven (Float64.roundUnits (n * Float64.unit) 100 * 100)
        Float64.unit = n := by
      apply roundHalfEven_unique _ _ _ hU
      · rw [hk]
        generalize Float64.roundHalfEven (n * Float64.unit)
          (100 * 2 ^ (Float64.bitLength (n * Float64.unit / 100) - 53)) = q at *
        generalize 2 ^ (Float64.bitLength (n * Float64.unit / 100) - 53) = P at *
        have e : q * (100 * P) = q * P * 100 := by ring
        rw [e] at b1 b2
        generalize q * P * 100 = k100 at *
        generalize n * Float64.unit = nU at *
        omega
      · rw [hk]
        generalize Float64.roundHalfEven (n * Float64.unit)
          (100 * 2 ^ (Float64.bitLength (n * Float64.unit / 100) - 53)) = q at *
        generalize 2 ^ (Float64.bitLength (n * Float64.unit / 100) - 53) = P at *
        have e : q * (100 * P) = q * P * 100 := by ring
        rw [e] at b1 b2
        generalize q * P * 100 = k100 at *
        generalize n * Float64.unit = nU at *
        omega
    rw [hM]
  · -- the amount is at least `2^46`: its spacing exceeds one cent
    have hfpos : 0 < n * Float64.unit / 100 := by
      by_contra h0
      have : n * Float64.unit / 100 = 0 := by omega
      rw [this, bitLength_zero] at he
      omega
    obtain ⟨f1, f2⟩ := bitLength_bounds _ hfpos
    have hL1 : Float64.bitLength (n * Float64.unit / 100) - 1
        = 52 + (Float64.bitLength (n * Float64.unit / 100) - 53) := by omega
    have hL2 : Float64.bitLength (n * Float64.unit / 100)
        = 53 + (Float64.bitLength (n * Float64.unit / 100) - 53) := by omega
    rw [hL1, pow_add] at f1
    rw [hL2, pow_add] at f2
    have hdiv : n * Float64.unit / (100 * 2 ^ (Float64.bitLength (n * Float64.unit / 100) - 53))
        = n * Float64.unit / 100 / 2 ^ (Float64.bitLength (n * Float64.unit / 100) - 53) :=
      (Nat.div_div_eq_div_mul _ _ _).symm
    have hq1 : 2 ^ 52 ≤ Float64.roundHalfEven (n * Float64.unit)
        (100 * 2 ^ (Float64.bitLength (n * Float64.unit / 100) - 53)) := by
      refine le_trans ?_ c1
      rw [hdiv]
      exact (Nat.le_div_iff_mul_le hP).mpr f1
    have hq2 : Float64.roundHalfEven (n * Float64.unit)
        (100 * 2 ^ (Float64.bitLength (n * Float64.unit / 100) - 53)) ≤ 2 ^ 53 := by
      refine le_trans c2 ?_
      rw [hdiv]
      have : n * Float64.unit / 100 / 2 ^ (Float64.bitLength (n * Float64.unit / 100) - 53)
          < 2 ^ 53 := (Nat.div_lt_iff_lt_mul hP).mpr f2
      omega
    rw [hk]
    generalize he2 : Float64.bitLength (n * Float64.unit / 100) - 53 = e at *
    generalize hq : Float64.roundHalfEven (n * Float64.unit) (100 * 2 ^ e) = q at *
    by_cases hpow : q = 2 ^ 52 ∨ q = 2 ^ 53
    · rcases hpow with rfl | rfl
      · rw [← pow_add]
        exact roundUnits_pow_two (52 + e) (by omega)
      · rw [← pow_add]
        exact roundUnits_pow_two (53 + e) (by omega)
    · have hq3 : 2 ^ 52 + 1 ≤ q := by omega
      have hq4 : q + 1 ≤ 2 ^ 53 := by omega
      have k1 : (2 ^ 52 + 1) * 2 ^ e ≤ q * 2 ^ e := Nat.mul_le_mul_right _ hq3
      have k2 : (q + 1) * 2 ^ e ≤ 2 ^ 53 * 2 ^ e := Nat.mul_le_mul_right _ hq4
      rw [Nat.add_mul, Nat.one_mul] at k1 k2
      obtain ⟨m1, m2⟩ := roundHalfEven_bounds (q * 2 ^ e * 100) Float64.unit hU
      -- the rendering lies in the binade of the amount
      have g1 : 2 ^ (52 + e) ≤ Float64.roundHalfEven (q * 2 ^ e * 100) Float64.unit
          * Float64.unit / 100 := by
        rw [pow_add]
        apply (Nat.le_div_iff_mul_le (by omega)).mpr
        generalize Float64.roundHalfEven (q * 2 ^ e * 100) Float64.unit * Float64.unit = MU at *
        generalize q * 2 ^ e = k at *
        generalize 2 ^ 52 * 2 ^ e = A at *
        generalize 2 ^ e = P at *
        omega
      have g2 : Float64.roundHalfEven (q * 2 ^ e * 100) Float64.unit * Float64.unit / 100
          < 2 ^ (52 + e + 1) := by
        have e3 : 52 + e + 1 = 53 + e := by omega
        rw [e3, pow_add]
        apply (Nat.div_lt_iff_lt_mul (by omega)).mpr
        generalize Float64.roundHalfEven (q * 2 ^ e * 100) Float64.unit * Float64.unit = MU at *
        generalize q * 2 ^ e = k at *
        generalize 2 ^ 53 * 2 ^ e = B at *
        generalize 2 ^ e = P at *
        omega
      have hbl := bitLength_eq _ _ g1 g2
      have hsh : Float64.bitLength (Float64.roundHalfEven (q * 2 ^ e * 100) Float64.unit
          * Float64.unit / 100) - 53 = e := by omega
      have hr : Float64.roundHalfEven
          (Float64.roundHalfEven (q * 2 ^ e * 100) Float64.unit * Float64.unit) (100 * 2 ^ e)
          = q := by
        have e4 : q * (100 * 2 ^ e) = q * 2 ^ e * 100 := by ring
        apply roundHalfEven_unique _ _ _ (by omega)
        · rw [e4]
          generalize Float64.roundHalfEven (q * 2 ^ e * 100) Float64.unit * Float64.unit = MU at *
          generalize q * 2 ^ e * 100 = k100 at *
          generalize 2 ^ e = P at *
          omega
        · rw [e4]
          generalize Float64.roundHalfEven (q * 2 ^ e * 100) Float64.unit * Float64.unit = MU at *
          generalize q * 2 ^ e * 100 = k100 at *
          generalize 2 ^ e = P at *
          omega
      unfold Float64.roundUnits
      rw [hsh, hr]

/-! ## Encoding and decoding prices -/

theorem ofFraction_eq_fin (s : Bool) (p q k : Nat)
    (h : Float64.ofFraction s p q = Float64.fin s k) :
    k = Float64.roundUnits (p * Float64.unit) q
    ∧ Float64.roundUnits (p * Float64.unit) q < 2 ^ 2098 := by
  unfold Float64.ofFraction Float64.round at h
  by_cases hlt : Float64.roundUnits (p * Float64.unit) q < 2 ^ 2098
  · rw [if_pos hlt] at h
    simp only [Float64.fin.injEq, true_and] at h
    exact ⟨h.symm, hlt⟩
  · rw [if_neg hlt] at h
    cases h

theorem ofFraction_of_lt (s : Bool) (p q : Nat)
    (h : Float64.roundUnits (p * Float64.unit) q < 2 ^ 2098) :
    Float64.ofFraction s p q = Float64.fin s (Float64.roundUnits (p * Float64.unit) q) := by
  unfold Float64.ofFraction Float64.round
  rw [if_pos h]

/-- The text `%.2f` gives for a finite value, as a numeral: the sign, the digits
of the whole part of the rounded hundredths, a point and two digits. -/
theorem format2_fin (s : Bool) (k : Nat) :
    Float64.format2 (Float64.fin s k)
      = String.mk ((if s then [Char.ofNat 0x2D] else [])
          ++ Nat.toDigits 10 (Float64.roundHalfEven (k * 100) Float64.unit / 100)
          ++ Char.ofNat 0x2E ::
            [Nat.digitChar (Float64.roundHalfEven (k * 100) Float64.unit % 100 / 10),
             Nat.digitChar (Float64.roundHalfEven (k * 100) Float64.unit % 10)]) := by
  apply String.ext
  show ((if s then "-" else "")
    ++ toString (Float64.roundHalfEven (k * 100) Float64.unit / 100) ++ "."
    ++ toString (Float64.roundHalfEven (k * 100) Float64.unit % 100 / 10)
    ++ toString (Float64.roundHalfEven (k * 100) Float64.unit % 10)).data = _
  generalize Float64.roundHalfEven (k * 100) Float64.unit = m
  have h1 : m % 100 / 10 < 10 := by omega
  have h2 : m % 10 < 10 := by omega
  simp only [String.data_append, toString_nat_data, toDigits_digit _ h1, toDigits_digit _ h2]
  cases s <;> simp

/-- Parsing the text `%.2f` gives for a finite value: the `float64` nearest to
the rounded hundredths. -/
theorem decimalParseFloat_format2 (s : Bool) (k j : Nat)
    (h : Float64.ofFraction s (Float64.roundHalfEven (k * 100) Float64.unit) 100
      = Float64.fin s j) :
    decimalParseFloat (Float64.format2 (Float64.fin s k)) = (Float64.fin s j, GoError.nil) := by
  generalize hm : Float64.roundHalfEven (k * 100) Float64.unit = m at h
  have h1 : m % 100 / 10 < 10 := by omega
  have h2 : m % 10 < 10 := by omega
  obtain ⟨w1, w2, w3⟩ := toDigits_spec (m / 100)
  have d1 := digitChar_digit _ h1
  have d2 := digitChar_digit _ h2
  have hsplit := splitDecimal_numeral s (Nat.toDigits 10 (m / 100))
    [Nat.digitChar (m % 100 / 10), Nat.digitChar (m % 10)] w1 w2 (by simp [d1.1, d2.1])
  have hval : digitsValue (Nat.toDigits 10 (m / 100)
      ++ [Nat.digitChar (m % 100 / 10), Nat.digitChar (m % 10)]) = m := by
    rw [digitsValue_append_two, w3, d1.2, d2.2]
    omega
  unfold decimalParseFloat
  rw [format2_fin, hm, hsplit]
  simp only [hval, List.length_cons, List.length_nil]
  have h100 : 10 ^ (0 + 1 + 1) = 100 := by norm_num
  rw [h100, h]

/-- On the `float64` nearest to an amount of `n` hundredths, parsing undoes
`%.2f`. -/
theorem decimalParseFloat_format2_amount (s : Bool) (n k : Nat)
    (h : Float64.ofFraction s n 100 = Float64.fin s k) :
    decimalParseFloat (Float64.format2 (Float64.fin s k)) = (Float64.fin s k, GoError.nil) := by
  obtain ⟨hk, hlt⟩ := ofFraction_eq_fin s n 100 k h
  apply decimalParseFloat_format2
  have hagain := roundUnits_again n
  rw [← hk] at hagain hlt
  rw [ofFraction_of_lt s _ 100 (by rw [hagain]; exact hlt), hagain]

theorem isAmount_fin (p : Float64) (h : p.IsAmount) :
    ∃ (neg : Bool) (n k : Nat),
      Float64.ofFraction neg n 100 = Float64.fin neg k ∧ p = Float64.fin neg k := by
  obtain ⟨neg, n, hp, hne⟩ := h
  by_cases hlt : Float64.roundUnits (n * Float64.unit) 100 < 2 ^ 2098
  · have := ofFraction_of_lt neg n 100 hlt
    exact ⟨neg, n, _, this, hp.trans this⟩
  · exfalso
    apply hne
    rw [hp]
    unfold Float64.ofFraction Float64.round
    rw [if_neg hlt]

/-- `Price.UnmarshalJSON` undoes `Price.MarshalJSON` on an amount, whatever the
receiver held. -/
theorem price_round_trip (lib : GoLibrary)
    (hlib : ∀ str, (decimalParseFloat str).2 = GoError.nil →
      lib.ParseFloat str = decimalParseFloat str)
    (p q : Float64) (hp : p.IsAmount) :
    Price.UnmarshalJSON lib q (Price.MarshalJSON p) = (p, GoError.nil) := by
  obtain ⟨neg, n, k, hk, rfl⟩ := isAmount_fin p hp
  have hparse := decimalParseFloat_format2_amount neg n k hk
  have hl : lib.ParseFloat (Float64.format2 (Float64.fin neg k))
      = (Float64.fin neg k, GoError.nil) := by
    rw [hlib _ (by rw [hparse]), hparse]
  unfold Price.UnmarshalJSON Price.MarshalJSON
  rw [hl]
  simp

theorem decodeItems_encode (lib : GoLibrary)
    (hlib : ∀ str, (decimalParseFloat str).2 = GoError.nil →
      lib.ParseFloat str = decimalParseFloat str)
    (items : List Item) (h : ∀ item ∈ items, item.Price.IsAmount) :
    decodeItems lib (items.map (fun item => (item.ShortDescription, Price.MarshalJSON item.Price)))
      = Except.ok items := by
  induction items with
  | nil => rfl
  | cons item rest ih =>
    have h1 := price_round_trip lib hlib item.Price (Float64.fin false 0)
      (h item (List.mem_cons_self _ _))
    have h2 := ih (fun i hi => h i (List.mem_cons_of_mem _ hi))
    simp only [List.map_cons, decodeItems, h1, h2]
    simp

/-- C29. For every receipt whose total and item prices are amounts with at most
two decimal places, decoding the JSON document that encoding produces gives the
receipt back, with the same retailer, purchase date, purchase time, total and
items; and `Price.UnmarshalJSON` undoes `Price.MarshalJSON` on every such
amount. `strconv.ParseFloat` is taken to return, on a plain decimal numeral
with a finite nearest `float64`, that nearest value and a nil error. -/
theorem C29_json_round_trip (lib : GoLibrary)
    (hlib : ∀ str, (decimalParseFloat str).2 = GoError.nil →
      lib.ParseFloat str = decimalParseFloat str)
    (r : Receipt) (hT : r.Total.IsAmount) (hI : ∀ item ∈ r.Items, item.Price.IsAmount) :
    decodeReceipt lib (encodeReceipt r) = Except.ok r
    ∧ (∀ p q : Float64, p.IsAmount →
        Price.UnmarshalJSON lib q (Price.MarshalJSON p) = (p, GoError.nil)) := by
  refine ⟨?_, fun p q hp => price_round_trip lib hlib p q hp⟩
  have h1 := price_round_trip lib hlib r.Total (Float64.fin false 0) hT
  have h2 := decodeItems_encode lib hlib r.Items hI
  simp only [decodeReceipt, encodeReceipt, h1, h2]
  simp

/-- C29, witness: the receipt of the test, with prices 5.99 and 10.00 and total
15.99, is encoded with the texts "5.99", "10.00" and "15.99" and decoded to
itself. -/
theorem C29_json_round_trip_witness :
    jsonTestReceipt.Total.IsAmount
    ∧ encodeReceipt jsonTestReceipt
        = ⟨"Target", "2022-01-01", "13:01", [("Item 1", "5.99"), ("Item 2", "10.00")], "15.99"⟩
    ∧ decodeReceipt sampleLibrary (encodeReceipt jsonTestReceipt) = Except.ok jsonTestReceipt :=
  ⟨⟨false, 1599, by decide!, by decide!⟩, by decide!,
    (C29_json_round_trip sampleLibrary (fun _ _ => rfl) jsonTestReceipt
      ⟨false, 1599, by decide!, by decide!⟩
      (List.forall_mem_cons.mpr ⟨⟨false, 599, by decide!, by decide!⟩,
        List.forall_mem_cons.mpr ⟨⟨false, 1000, by decide!, by decide!⟩,
          fun _ h => absurd h (List.not_mem_nil _)⟩⟩)).1⟩

/-! ## Determinism -/

/-- C30. For every receipt, two calls of `CalculatePoints` with contexts that no
poll finds cancelled return the same score, both with a nil error; the two
calls also produce the same log records. -/
theorem C30_deterministic (rt : GoRuntime) (ctx ctx2 : Context) (receipt : Receipt)
    (h : ∀ i, i ≤ 7 → ctx.Err i = GoError.nil) (h2 : ∀ i, i ≤ 7 → ctx2.Err i = GoError.nil) :
    (CalculatePoints rt ctx receipt).points = (CalculatePoints rt ctx2 receipt).points
    ∧ (CalculatePoints rt ctx receipt).err = GoError.nil
    ∧ (CalculatePoints rt ctx2 receipt).err = GoError.nil
    ∧ CalculatePoints rt ctx receipt = CalculatePoints rt ctx2 receipt := by
  have heq := CalculatePoints_ctx_congr rt ctx ctx2 receipt
    (fun i hi => (h i hi).trans (h2 i hi).symm)
  exact ⟨congrArg Outcome.points heq, (CalculatePoints_not_cancelled rt ctx receipt h).1,
    (CalculatePoints_not_cancelled rt ctx2 receipt h2).1, heq⟩

/-- C30, witness: the reference receipt under the background context and under a
context cancelled only after the call gives 28 both times. -/
theorem C30_deterministic_witness :
    (∀ i, i ≤ 7 → (Context.cancelledFrom 8 GoError.Canceled).Err i = GoError.nil)
    ∧ (CalculatePoints sampleRuntime Context.Background targetReceipt).points = 28
    ∧ (CalculatePoints sampleRuntime (Context.cancelledFrom 8 GoError.Canceled)
        targetReceipt).points = 28 :=
  ⟨by decide, by decide!,
    (C30_deterministic sampleRuntime Context.Background
      (Context.cancelledFrom 8 GoError.Canceled) targetReceipt (fun _ _ => rfl)
      (by decide)).1.symm.trans (by decide!)⟩

/-! ## The declared error codes -/

/-- C31. The `const` block declares 17 codes, pairwise distinct, and they are
exactly the keys of `errorMap`. Each of them starts with "RP" and has in
`errorMap` a message that is not empty, and `Error`, `New` and `Wrap` give that
message, which is not "Unknown error". -/
theorem C31_declared_codes :
    declaredCodes.length = 17
    ∧ declaredCodes.Nodup
    ∧ errorMap.map Prod.fst = declaredCodes
    ∧ (∀ code ∈ declaredCodes,
        code.data.take 2 = "RP".data
        ∧ (code, Error code) ∈ errorMap
        ∧ Error code ≠ ""
        ∧ Error code ≠ "Unknown error")
    ∧ (∀ (code : ErrorCode) (detail : String) (err : GoError),
        (New code detail).Message = Error code ∧ (Wrap code err detail).Message = Error code) := by
  refine ⟨rfl, by decide, by decide, by decide, fun _ _ _ => ⟨rfl, rfl⟩⟩

/-! ## The error body -/

/-- C34. The response `handleError` writes for an `*AppError` depends on its code
and message only: two errors with the same code and the same message get the
same status and the same body, whatever their details and wrapped errors, and
the body holds the code and the message and nothing else. -/
theorem C34_error_body (e1 e2 : AppError) (hc : e1.Code = e2.Code)
    (hm : e1.Message = e2.Message) :
    handleError e1.toError = handleError e2.toError
    ∧ (handleError e1.toError).body = Body.apiError e1.Code e1.Message := by
  rw [handleError_appError, handleError_appError, hc, hm]
  exact ⟨rfl, rfl⟩

/-- C34, witness: a not-found error with a detail and one that wraps another
error get the same response. -/
theorem C34_error_body_witness :
    handleError (New ErrReceiptNotFound "receipt with ID abc not found").toError
      = handleError (Wrap ErrReceiptNotFound (GoError.errorString "disk failure") "").toError :=
  (C34_error_body (New ErrReceiptNotFound "receipt with ID abc not found")
    (Wrap ErrReceiptNotFound (GoError.errorString "disk failure") "") rfl rfl).1

/-! ## The points handler -/

theorem handleError_internal (err : GoError) (detail : String) :
    handleError (Wrap ErrInternal err detail).toError
      = { status := 500, body := Body.apiError "RP0001" "Internal server error" } := by
  rw [handleError_appError]
  rfl

/-- C39. In the `GetPoints` handler every error of the store whose code is not
`ErrReceiptNotFound` is wrapped as `ErrInternal` and answered with status 500
and code RP0001; this is the case of the cancellation error of the store, for
every id that is not empty. In `ProcessReceipt` the cancellation error of the
store is answered with 408 and code RP0003. -/
theorem C39_get_points_store_error :
    (∀ (store : MemoryStore) (ctx : Context) (id : String), id ≠ "" →
      (store.GetPoints ctx id).1.2 ≠ GoError.nil →
      IsCode (store.GetPoints ctx id).1.2 ErrReceiptNotFound = false →
      (ReceiptHandler.GetPoints store ctx id).1
        = { status := 500, body := Body.apiError "RP0001" "Internal server error" })
    ∧ (∀ (store : MemoryStore) (ctx : Context) (id : String), id ≠ "" →
        ctx.Err 0 ≠ GoError.nil →
        IsCode (store.GetPoints ctx id).1.2 ErrContextCancelled = true
        ∧ ReceiptHandler.GetPoints store ctx id
          = ({ status := 500, body := Body.apiError "RP0001" "Internal server error" }, store))
    ∧ (∀ (rt : GoRuntime) (store : MemoryStore) (ctx : Context) (receipt : Receipt) (u : UUID),
        (∀ i, i ≤ 7 → ctx.Err i = GoError.nil) → ctx.Err 8 ≠ GoError.nil →
        ReceiptHandler.ProcessReceipt rt store ctx (some (GinValue.receipt receipt)) u
          = ({ status := 408, body := Body.apiError "RP0003" "Request cancelled or timed out" },
             store))
    ∧ ReceiptHandler.GetPoints (MemoryStore.mk [("123e4567-e89b-42d3-a456-426614174000", 100)])
        (Context.cancelledFrom 0 GoError.Canceled) "123e4567-e89b-42d3-a456-426614174000"
        = ({ status := 500, body := Body.apiError "RP0001" "Internal server error" },
           MemoryStore.mk [("123e4567-e89b-42d3-a456-426614174000", 100)])
    ∧ (ReceiptHandler.GetPoints (MemoryStore.mk [("123e4567-e89b-42d3-a456-426614174000", 100)])
        Context.Background "non-existent-id").1
        = { status := 404, body := Body.apiError "RP0201" "Receipt not found" }
    ∧ (ReceiptHandler.GetPoints (MemoryStore.mk [("123e4567-e89b-42d3-a456-426614174000", 100)])
        Context.Background "123e4567-e89b-42d3-a456-426614174000").1
        = { status := 200, body := Body.pointsResponse 100 } := by
  refine ⟨?_, ?_, ?_, by decide, by decide, by decide⟩
  · intro store ctx id hid herr hcode
    unfold ReceiptHandler.GetPoints
    rw [if_neg hid, if_pos herr, hcode]
    simp only [Bool.false_eq_true, if_false]
    exact handleError_internal _ _
  · intro store ctx id hid hc
    have hg : store.GetPoints ctx id
        = ((0, (Wrap ErrContextCancelled (ctx.Err 0)
            "context canceled before retrieving points").toError), store) := by
      unfold MemoryStore.GetPoints
      rw [if_pos hc]
    refine ⟨by rw [hg]; rfl, ?_⟩
    unfold ReceiptHandler.GetPoints
    rw [if_neg hid, hg]
    simp only [ne_eq, AppError.toError, Wrap, reduceCtorEq, not_false_eq_true, if_true]
    rw [if_neg (by simp [IsCode, ErrContextCancelled, ErrReceiptNotFound])]
    exact congrArg (fun r => (r, store)) (handleError_internal _ _)
  · intro rt store ctx receipt u h h8
    have hnil := (CalculatePoints_not_cancelled rt ctx receipt h).1
    have hs : store.SaveReceipt (ctx.after 8) (CalculatePoints rt ctx receipt).points u
        = (("", (Wrap ErrContextCancelled (ctx.Err 8)
            "context canceled before saving receipt").toError), store) :=
      SaveReceipt_cancelled store (ctx.after 8) _ u h8
    unfold ReceiptHandler.ProcessReceipt
    simp only [hnil, hs]
    rfl

/-! ## `Count` under cancellation -/

/-- C33, failing input. `Count` is called with a context that is already
cancelled, the goroutine has sent the count when the `select` is evaluated, and
the `select`, which then has two cases that can proceed, picks the receive: the
call returns the number of entries and a nil error. Under every other schedule
the call returns 0 and the `*AppError` of code `ErrContextCancelled`. -/
theorem C33_count_cancelled_failing_input :
    (NewMemoryStorage.Count (Context.cancelledFrom 0 GoError.Canceled)
        ⟨true, true, false, GoError.Canceled⟩).1 = (0, GoError.nil)
    ∧ (∀ (s : MemoryStore) (ctx : Context) (sched : CountSchedule), ctx.Err 0 ≠ GoError.nil →
        sched.sent = true → sched.pickChannel = true →
        (s.Count ctx sched).1 = (Int.ofNat s.points.length, GoError.nil))
    ∧ (∀ (s : MemoryStore) (ctx : Context) (sched : CountSchedule), ctx.Err 0 ≠ GoError.nil →
        sched.sent = false ∨ sched.pickChannel = false →
        (s.Count ctx sched).1
          = (0, (Wrap ErrContextCancelled (ctx.Err 0)
              "timeout or cancellation while counting receipts").toError))
    ∧ (∀ (s : MemoryStore) (points : Int) (u : UUID) (id : String),
        (s.SaveReceipt (Context.cancelledFrom 0 GoError.Canceled) points u).1.2 ≠ GoError.nil
        ∧ (s.GetPoints (Context.cancelledFrom 0 GoError.Canceled) id).1.2 ≠ GoError.nil) := by
  refine ⟨by decide, ?_, ?_, ?_⟩
  · intro s ctx sched hc h1 h2
    unfold MemoryStore.Count
    rw [if_pos hc, if_pos ⟨h1, h2⟩]
  · intro s ctx sched hc h
    unfold MemoryStore.Count
    rw [if_pos hc, if_neg (by
      rintro ⟨h1, h2⟩
      rcases h with h | h
      · rw [h] at h1; cases h1
      · rw [h] at h2; cases h2)]
  · intro s points u id
    constructor
    · rw [SaveReceipt_cancelled s _ points u (by decide)]
      simp [AppError.toError]
    · unfold MemoryStore.GetPoints
      rw [if_pos (by decide)]
      simp [AppError.toError]

/-! ## Bytes and characters -/

/-- C37. The item-description rule measures the trimmed description in bytes:
the description "éa" has two characters and three bytes, and the rule awards its
item `int(ceil(price * 0.2))`; the description "éab" has three characters and
four bytes, and the rule awards its item 0. At the price 5.00 the first item is
awarded 1. -/
theorem C37_bytes_not_characters (rt : GoRuntime) (receipt : Receipt) (price : Float64) :
    ("\u00e9a".length = 2 ∧ len "\u00e9a" = 3)
    ∧ ("\u00e9ab".length = 3 ∧ len "\u00e9ab" = 4)
    ∧ (ItemDescriptionLengthRule rt).Apply { receipt with Items := [⟨"\u00e9a", price⟩] }
        = rt.intOfFloat (Float64.ceil (Float64.mul price (Float64.ofFraction false 2 10)))
    ∧ (ItemDescriptionLengthRule rt).Apply { receipt with Items := [⟨"\u00e9ab", price⟩] } = 0
    ∧ (ItemDescriptionLengthRule rt).Apply
        { receipt with Items := [⟨"\u00e9a", Float64.ofFraction false 500 100⟩] } = 1 := by
  have h1 : ∀ p : Float64, (ItemDescriptionLengthRule rt).Apply
      { receipt with Items := [⟨"\u00e9a", p⟩] } = itemPoints rt ⟨"\u00e9a", p⟩ := by
    intro p
    show itemDescriptionStep rt 0 ⟨"\u00e9a", p⟩ = _
    rw [itemDescriptionStep_zero, if_pos (by unfold Item.counted; dsimp only; decide)]
  refine ⟨by decide, by decide, h1 price, ?_, ?_⟩
  · show itemDescriptionStep rt 0 ⟨"\u00e9ab", price⟩ = 0
    rw [itemDescriptionStep_zero, if_neg (by unfold Item.counted; dsimp only; decide)]
  · rw [h1, itemPoints_of_inRange rt sampleRuntime _ (by decide!)]
    decide!

/-! ## The validation middleware -/

theorem ne_of_take_ne (s t : String) (n : Nat) (h : s.data.take n ≠ t.data.take n) : s ≠ t := by
  intro e
  rw [e] at h
  exact h rfl

theorem take_append_literal (a x : String) : (a ++ x).data.take a.data.length = a.data := by
  rw [String.data_append, List.take_left]

/-- The text of a failed date validation is none of the four texts the
middleware compares with. -/
theorem dateError_text (x : String) :
    "invalid date format: " ++ x ≠ "retailer is required"
    ∧ "invalid date format: " ++ x ≠ "at least one item is required"
    ∧ "invalid date format: " ++ x ≠ "invalid date format"
    ∧ "invalid date format: " ++ x ≠ "invalid time format" := by
  have h := take_append_literal "invalid date format: " x
  refine ⟨?_, ?_, ?_, ?_⟩ <;>
    exact ne_of_take_ne _ _ ("invalid date format: ".data.length) (by rw [h]; decide)

theorem timeError_text (x : String) :
    "invalid time format: " ++ x ≠ "retailer is required"
    ∧ "invalid time format: " ++ x ≠ "at least one item is required"
    ∧ "invalid time format: " ++ x ≠ "invalid date format"
    ∧ "invalid time format: " ++ x ≠ "invalid time format" := by
  have h := take_append_literal "invalid time format: " x
  refine ⟨?_, ?_, ?_, ?_⟩ <;>
    exact ne_of_take_ne _ _ ("invalid time format: ".data.length) (by rw [h]; decide)

theorem itemError_text (x : String) :
    "item " ++ x ≠ "retailer is required"
    ∧ "item " ++ x ≠ "at least one item is required"
    ∧ "item " ++ x ≠ "invalid date format"
    ∧ "item " ++ x ≠ "invalid time format" := by
  have h := take_append_literal "item " x
  refine ⟨?_, ?_, ?_, ?_⟩ <;>
    exact ne_of_take_ne _ _ ("item ".data.length) (by rw [h]; decide)

theorem validateItems_text (items : List Item) :
    ∀ i : Nat, validateItems items i = GoError.nil
      ∨ ∃ x : String, validateItems items i = GoError.errorString ("item " ++ x) := by
  induction items with
  | nil => intro i; left; rfl
  | cons item rest ih =>
    intro i
    unfold validateItems
    by_cases h : item.Validate ≠ GoError.nil
    · rw [if_pos h]
      right
      exact ⟨fmtInt (Int.ofNat i + 1) ++ (": " ++ item.Validate.Error), by
        simp only [String.append_assoc]⟩
    · rw [if_neg h]
      exact ih (i + 1)

/-- The code the middleware answers with, by the check of `Receipt.Validate`
that fails. -/
theorem middleware_code (lib : GoLibrary) (maxBodySize ContentLength : Int) (receipt : Receipt)
    (hsize : ¬ ContentLength > maxBodySize) (hv : receipt.Validate lib ≠ GoError.nil) :
    ∃ code : ErrorCode,
      JSONValidationMiddleware lib maxBodySize ContentLength "POST" "/receipts/process"
          (Except.ok receipt)
        = MiddlewareResult.abort { status := 400, body := Body.apiError code (Error code) }
      ∧ (TrimSpace receipt.Retailer = "" → code = "RP0102")
      ∧ (TrimSpace receipt.Retailer ≠ "" → parseDate receipt.PurchaseDate = none →
          code = "RP0101")
      ∧ (TrimSpace receipt.Retailer ≠ "" → parseDate receipt.PurchaseDate ≠ none →
          parseClock receipt.PurchaseTime = none → code = "RP0101")
      ∧ (TrimSpace receipt.Retailer ≠ "" → parseDate receipt.PurchaseDate ≠ none →
          parseClock receipt.PurchaseTime ≠ none → receipt.Items.length = 0 → code = "RP0106")
      ∧ (TrimSpace receipt.Retailer ≠ "" → parseDate receipt.PurchaseDate ≠ none →
          parseClock receipt.PurchaseTime ≠ none → receipt.Items.length ≠ 0 → code = "RP0101") := by
  refine ⟨if (receipt.Validate lib).Error = "retailer is required" then ErrInvalidRetailer
      else if (receipt.Validate lib).Error = "at least one item is required" then ErrMissingItems
      else if (receipt.Validate lib).Error = "invalid date format" then ErrInvalidPurchaseDate
      else if (receipt.Validate lib).Error = "invalid time format" then ErrInvalidPurchaseTime
      else ErrInvalidReceiptData, ?_, ?_, ?_, ?_, ?_, ?_⟩
  · unfold JSONValidationMiddleware
    rw [if_neg hsize, if_pos ⟨rfl, rfl⟩]
    simp only [if_pos hv]
  · intro h1
    have : receipt.Validate lib = GoError.errorString "retailer is required" := by
      unfold Receipt.Validate
      rw [if_pos h1]
    rw [this]
    rfl
  · intro h1 h2
    have : receipt.Validate lib = GoError.errorString
        ("invalid date format: " ++ lib.timeParseErrorText "2006-01-02" receipt.PurchaseDate) := by
      unfold Receipt.Validate
      have hd : Date.Validate lib receipt.PurchaseDate = GoError.errorString
          ("invalid date format: " ++ lib.timeParseErrorText "2006-01-02" receipt.PurchaseDate) := by
        unfold Date.Validate
        rw [h2]
      rw [if_neg h1, hd, if_pos (by simp)]
    obtain ⟨t1, t2, t3, t4⟩ := dateError_text (lib.timeParseErrorText "2006-01-02" receipt.PurchaseDate)
    rw [this]
    simp only [GoError.Error, if_neg t1, if_neg t2, if_neg t3, if_neg t4]
    rfl
  · intro h1 h2 h3
    have hd : Date.Validate lib receipt.PurchaseDate = GoError.nil := by
      unfold Date.Validate
      cases hp : parseDate receipt.PurchaseDate with
      | none => exact absurd hp h2
      | some _ => rfl
    have : receipt.Validate lib = GoError.errorString
        ("invalid time format: " ++ lib.timeParseErrorText "15:04" receipt.PurchaseTime) := by
      unfold Receipt.Validate
      have ht : Time.Validate lib receipt.PurchaseTime = GoError.errorString
          ("invalid time format: " ++ lib.timeParseErrorText "15:04" receipt.PurchaseTime) := by
        unfold Time.Validate
        rw [h3]
      rw [if_neg h1, hd, if_neg (by simp), ht, if_pos (by simp)]
    obtain ⟨t1, t2, t3, t4⟩ := timeError_text (lib.timeParseErrorText "15:04" receipt.PurchaseTime)
    rw [this]
    simp only [GoError.Error, if_neg t1, if_neg t2, if_neg t3, if_neg t4]
    rfl
  · intro h1 h2 h3 h4
    have hd : Date.Validate lib receipt.PurchaseDate = GoError.nil := by
      unfold Date.Validate
      cases hp : parseDate receipt.PurchaseDate with
      | none => exact absurd hp h2
      | some _ => rfl
    have ht : Time.Validate lib receipt.PurchaseTime = GoError.nil := by
      unfold Time.Validate
      cases hp : parseClock receipt.PurchaseTime with
      | none => exact absurd hp h3
      | some _ => rfl
    have : receipt.Validate lib = GoError.errorString "at least one item is required" := by
      unfold Receipt.Validate
      rw [if_neg h1, hd, if_neg (by simp), ht, if_neg (by simp), if_pos h4]
    rw [this]
    rfl
  · intro h1 h2 h3 h4
    have hd : Date.Validate lib receipt.PurchaseDate = GoError.nil := by
      unfold Date.Validate
      cases hp : parseDate receipt.PurchaseDate with
      | none => exact absurd hp h2
      | some _ => rfl
    have ht : Time.Validate lib receipt.PurchaseTime = GoError.nil := by
      unfold Time.Validate
      cases hp : parseClock receipt.PurchaseTime with
      | none => exact absurd hp h3
      | some _ => rfl
    have hval : receipt.Validate lib = validateItems receipt.Items 0 := by
      unfold Receipt.Validate
      rw [if_neg h1, hd, if_neg (by simp), ht, if_neg (by simp), if_neg h4]
    rcases validateItems_text receipt.Items 0 with h0 | ⟨x, hx⟩
    · rw [hval] at hv
      exact absurd h0 hv
    · obtain ⟨t1, t2, t3, t4⟩ := itemError_text x
      rw [hval, hx]
      simp only [GoError.Error, if_neg t1, if_neg t2, if_neg t3, if_neg t4]
      rfl

/-- C32, failing input. The receipt of the tests with the purchase date
"01/01/2022" is bound and fails `Receipt.Validate`; the middleware answers 400
with code RP0101, not RP0103, and the receipt with the purchase time "1:01 PM"
gets RP0101, not RP0104. For every bound receipt that fails the validation the
middleware aborts with status 400, so the handler is not run; the code is
RP0102 for a blank retailer and RP0106 for an empty item list, and RP0101 for
every malformed date, every malformed time and every item without description:
the text of a date or time error continues after "invalid date format" or
"invalid time format", so the comparisons for RP0103 and RP0104 never hold. -/
theorem C32_middleware_failing_input :
    parseDate badDateReceipt.PurchaseDate = none
    ∧ JSONValidationMiddleware sampleLibrary 1048576 100 "POST" "/receipts/process"
        (Except.ok badDateReceipt)
        = MiddlewareResult.abort
            { status := 400, body := Body.apiError "RP0101" "Invalid or missing receipt data" }
    ∧ parseClock badTimeReceipt.PurchaseTime = none
    ∧ JSONValidationMiddleware sampleLibrary 1048576 100 "POST" "/receipts/process"
        (Except.ok badTimeReceipt)
        = MiddlewareResult.abort
            { status := 400, body := Body.apiError "RP0101" "Invalid or missing receipt data" }
    ∧ (∀ (lib : GoLibrary) (maxBodySize ContentLength : Int) (receipt : Receipt),
        ¬ ContentLength > maxBodySize → receipt.Validate lib ≠ GoError.nil →
        ∃ code : ErrorCode,
          JSONValidationMiddleware lib maxBodySize ContentLength "POST" "/receipts/process"
              (Except.ok receipt)
            = MiddlewareResult.abort { status := 400, body := Body.apiError code (Error code) }
          ∧ (TrimSpace receipt.Retailer = "" → code = "RP0102")
          ∧ (TrimSpace receipt.Retailer ≠ "" → parseDate receipt.PurchaseDate = none →
              code = "RP0101")
          ∧ (TrimSpace receipt.Retailer ≠ "" → parseDate receipt.PurchaseDate ≠ none →
              parseClock receipt.PurchaseTime = none → code = "RP0101")
          ∧ (TrimSpace receipt.Retailer ≠ "" → parseDate receipt.PurchaseDate ≠ none →
              parseClock receipt.PurchaseTime ≠ none → receipt.Items.length = 0 →
              code = "RP0106")
          ∧ (TrimSpace receipt.Retailer ≠ "" → parseDate receipt.PurchaseDate ≠ none →
              parseClock receipt.PurchaseTime ≠ none → receipt.Items.length ≠ 0 →
              code = "RP0101")) := by
  refine ⟨by decide, by decide!, by decide, by decide!, ?_⟩
  intro lib maxBodySize ContentLength receipt hsize hv
  exact middleware_code lib maxBodySize ContentLength receipt hsize hv

/-! ## Round dollars and quarters -/

/-- On a total of `j` whole dollars with `100 * j` below `2^53`, both rules
award. -/
theorem roundDollar_quarter_exact (receipt : Receipt) (s : Bool) (j : Nat)
    (hj : 100 * j < 2 ^ 53) (hT : receipt.Total = Float64.fin s (j * Float64.unit)) :
    RoundDollarRule.Apply receipt = 50 ∧ QuarterMultipleRule.Apply receipt = 25 := by
  constructor
  · rw [RoundDollarRule_apply, hT, if_pos ((eq_floor_iff s _).mpr (Dvd.intro_left j rfl))]
  · have hU4 : 4 * (Float64.unit / 4) = Float64.unit := Nat.mul_div_cancel' four_dvd_unit
    have hT2 : receipt.Total = Float64.fin s (4 * j * (Float64.unit / 4)) := by
      rw [hT, Nat.mul_comm 4 j, Nat.mul_assoc, hU4]
    exact QuarterMultipleRule_exact receipt s (4 * j) (by omega) hT2

/-- C35, failing input. The total 9007199254740991.00 is a non-negative amount
with two decimal places and a `float64` exactly. `RoundDollarRule` awards 50;
the product `total * 100` is not a `float64` and rounds to a value whose
remainder modulo 25 is 22, so `QuarterMultipleRule` awards 0, and the two rules
together contribute exactly 50. On every total of `j` whole dollars, of either
sign, with `100 * j < 2^53`, that is, below 90071992547409.92, the two rules
award 50 and 25. -/
theorem C35_round_dollar_quarter_failing_input :
    largeRoundReceipt.Total.IsAmount
    ∧ Float64.le (Float64.ofNat 0) largeRoundReceipt.Total = true
    ∧ largeRoundReceipt.Total = Float64.fin false (9007199254740991 * Float64.unit)
    ∧ RoundDollarRule.Apply largeRoundReceipt = 50
    ∧ Float64.mod (Float64.mul largeRoundReceipt.Total (Float64.ofNat 100)) (Float64.ofNat 25)
        = Float64.fin false (22 * Float64.unit)
    ∧ QuarterMultipleRule.Apply largeRoundReceipt = 0
    ∧ RoundDollarRule.Apply largeRoundReceipt + QuarterMultipleRule.Apply largeRoundReceipt = 50
    ∧ (∀ (receipt : Receipt) (s : Bool) (j : Nat), 100 * j < 2 ^ 53 →
        receipt.Total = Float64.fin s (j * Float64.unit) →
        RoundDollarRule.Apply receipt = 50 ∧ QuarterMultipleRule.Apply receipt = 25) := by
  refine ⟨⟨false, 900719925474099100, by decide!, by decide!⟩, by decide!, by decide!,
    by decide!, by decide!, by decide!, by decide!, ?_⟩
  intro receipt s j hj hT
  exact roundDollar_quarter_exact receipt s j hj hT

/-! ## The order of the items -/

theorem rulesLoop_receipt_congr (ctx : Context) (r r2 : Receipt) (rules : List PointRule)
    (hret : r.Retailer = r2.Retailer)
    (h : ∀ rule ∈ rules, rule.Apply r = rule.Apply r2
      ∧ ∀ p, rule.FormatLogMessage p r = rule.FormatLogMessage p r2) :
    ∀ (i : Nat) (totalPoints : Int) (trace : List Event),
      rulesLoop ctx r rules i totalPoints trace = rulesLoop ctx r2 rules i totalPoints trace := by
  induction rules with
  | nil =>
    intro i totalPoints trace
    simp only [rulesLoop, hret]
  | cons rule rest ih =>
    intro i totalPoints trace
    obtain ⟨ha, hf⟩ := h rule (List.mem_cons_self _ _)
    have ih2 := ih (fun x hx => h x (List.mem_cons_of_mem _ hx))
    simp only [rulesLoop, ha, hf]
    rw [ih2, ih2]

theorem calculateItemDescriptionPoints_perm (rt : GoRuntime) (r r2 : Receipt)
    (h : List.Perm r.Items r2.Items) :
    calculateItemDescriptionPoints rt r = calculateItemDescriptionPoints rt r2 := by
  rw [calculateItemDescriptionPoints_eq, calculateItemDescriptionPoints_eq]
  exact congrArg wrap64 (((h.filter _).map _).sum_eq)

/-- Two receipts that differ only in the order of their items get the same
outcome of `CalculatePoints`. -/
theorem CalculatePoints_perm (rt : GoRuntime) (ctx : Context) (receipt : Receipt)
    (items : List Item) (h : List.Perm receipt.Items items) :
    CalculatePoints rt ctx { receipt with Items := items } = CalculatePoints rt ctx receipt := by
  have hlen : items.length = receipt.Items.length := h.length_eq.symm
  have hrules : ∀ rule ∈ GetAllRules rt,
      rule.Apply { receipt with Items := items } = rule.Apply receipt
      ∧ ∀ p, rule.FormatLogMessage p { receipt with Items := items }
          = rule.FormatLogMessage p receipt := by
    intro rule hrule
    simp only [GetAllRules, List.mem_cons, List.mem_singleton, List.not_mem_nil, or_false] at hrule
    rcases hrule with rfl | rfl | rfl | rfl | rfl | rfl | rfl
    · exact ⟨rfl, fun _ => rfl⟩
    · exact ⟨rfl, fun _ => rfl⟩
    · exact ⟨rfl, fun _ => rfl⟩
    · constructor
      · show (Int.ofNat items.length / 2) * 5 = (Int.ofNat receipt.Items.length / 2) * 5
        rw [hlen]
      · intro p
        show "Rule 4: Added " ++ fmtInt p ++ " points for " ++ fmtInt (Int.ofNat items.length / 2)
            ++ " pairs of items (" ++ fmtInt (Int.ofNat items.length) ++ " items total)"
          = "Rule 4: Added " ++ fmtInt p ++ " points for "
            ++ fmtInt (Int.ofNat receipt.Items.length / 2)
            ++ " pairs of items (" ++ fmtInt (Int.ofNat receipt.Items.length) ++ " items total)"
        rw [hlen]
    · exact ⟨calculateItemDescriptionPoints_perm rt _ _ h.symm, fun _ => rfl⟩
    · exact ⟨rfl, fun _ => rfl⟩
    · exact ⟨rfl, fun _ => rfl⟩
  unfold CalculatePoints
  rw [rulesLoop_receipt_congr ctx { receipt with Items := items } receipt (GetAllRules rt) rfl
    hrules]
  simp only [hlen]

/-- C38. For every receipt and every permutation of its items, `CalculatePoints`
returns the same score and the same error, under every context; the log
records are the same too. -/
theorem C38_item_order (rt : GoRuntime) (ctx : Context) (receipt : Receipt) (items : List Item)
    (h : List.Perm receipt.Items items) :
    (CalculatePoints rt ctx { receipt with Items := items }).points
        = (CalculatePoints rt ctx receipt).points
    ∧ (CalculatePoints rt ctx { receipt with Items := items }).err
        = (CalculatePoints rt ctx receipt).err
    ∧ CalculatePoints rt ctx { receipt with Items := items } = CalculatePoints rt ctx receipt := by
  have heq := CalculatePoints_perm rt ctx receipt items h
  exact ⟨congrArg Outcome.points heq, congrArg Outcome.err heq, heq⟩

/-- C38, witness: the reference receipt with its items in reverse order scores
28 as well. -/
theorem C38_item_order_witness :
    List.Perm targetReceipt.Items targetReceipt.Items.reverse
    ∧ targetReceipt.Items.reverse ≠ targetReceipt.Items
    ∧ (CalculatePoints sampleRuntime Context.Background
        { targetReceipt with Items := targetReceipt.Items.reverse }).points = 28 :=
  ⟨(List.reverse_perm _).symm, by decide!,
    (C38_item_order sampleRuntime Context.Background targetReceipt targetReceipt.Items.reverse
      (List.reverse_perm _).symm).1.trans (by decide!)⟩

/-! ## Receipts with non-negative prices -/

/-- A quotient of at least one does not round to zero. -/
theorem roundUnits_pos (n d : Nat) (hd : 0 < d) (h : d ≤ n) : 0 < Float64.roundUnits n d := by
  have hq : 0 < n / d := Nat.div_pos h hd
  obtain ⟨b1, _⟩ := bitLength_bounds (n / d) hq
  have hL : 1 ≤ Float64.bitLength (n / d) := by
    by_contra h0
    have h1 : Float64.bitLength (n / d) = 0 := by omega
    have h2 := (bitLength_bounds (n / d) hq).2
    rw [h1] at h2
    simp at h2
    omega
  have hsh : 2 ^ (Float64.bitLength (n / d) - 53) ≤ 2 ^ (Float64.bitLength (n / d) - 1) :=
    pow_le_pow_right₀ (by decide) (by omega)
  have hP : 0 < 2 ^ (Float64.bitLength (n / d) - 53) := Nat.two_pow_pos _
  unfold Float64.roundUnits
  apply Nat.mul_pos _ hP
  have hb := (roundHalfEven_between n (d * 2 ^ (Float64.bitLength (n / d) - 53))).1
  have hdiv : n / (d * 2 ^ (Float64.bitLength (n / d) - 53))
      = n / d / 2 ^ (Float64.bitLength (n / d) - 53) := (Nat.div_div_eq_div_mul _ _ _).symm
  have hge : 0 < n / d / 2 ^ (Float64.bitLength (n / d) - 53) :=
    Nat.div_pos (le_trans hsh b1) hP
  omega

/-- The constant `0.2` in units of `2^(-1074)`: five times it is at least one,
and three or four units times it round to one unit. -/
theorem pointTwo_units : ∃ c : Nat, Float64.ofFraction false 2 10 = Float64.fin false c
    ∧ Float64.unit ≤ 5 * c
    ∧ Float64.roundUnits (3 * c) Float64.unit = 1
    ∧ Float64.roundUnits (4 * c) Float64.unit = 1 :=
  ⟨3602879701896397 * 2 ^ 1020, by decide!, by decide!, by decide!, by decide!⟩

/-- A price of at least three units of `2^(-1074)`, whose `ceil(price * 0.2)`
is in the range of `int`, contributes at least 1. -/
theorem itemPoints_pos (rt : GoRuntime) (item : Item) (k : Nat)
    (hk : item.Price = Float64.fin false k) (h3 : 3 ≤ k) (hr : item.pointsInRange = true) :
    1 ≤ itemPoints rt item := by
  obtain ⟨c, hc, h5, r3, r4⟩ := pointTwo_units
  have hU : 0 < Float64.unit := unit_pos
  have hm : 0 < Float64.roundUnits (k * c) Float64.unit := by
    by_cases hk5 : 5 ≤ k
    · apply roundUnits_pos _ _ hU
      have : 5 * c ≤ k * c := Nat.mul_le_mul_right c hk5
      omega
    · have : k = 3 ∨ k = 4 := by omega
      rcases this with rfl | rfl
      · rw [r3]; omega
      · rw [r4]; omega
  unfold Item.pointsInRange at hr
  unfold itemPoints GoRuntime.intOfFloat
  rw [hk, hc] at hr ⊢
  have hmul : Float64.mul (Float64.fin false k) (Float64.fin false c)
      = Float64.round false (k * c) Float64.unit := rfl
  rw [hmul] at hr ⊢
  unfold Float64.round at hr ⊢
  by_cases hlt : Float64.roundUnits (k * c) Float64.unit < 2 ^ 2098
  · rw [if_pos hlt] at hr ⊢
    generalize Float64.roundUnits (k * c) Float64.unit = m at *
    have ht : (Float64.ceil (Float64.fin false m)).truncate
        = some (Int.ofNat ((m + (Float64.unit - 1)) / Float64.unit)) := by
      show some (Int.ofNat ((m + (Float64.unit - 1)) / Float64.unit * Float64.unit
        / Float64.unit)) = _
      rw [Nat.mul_div_cancel _ hU]
    rw [ht] at hr ⊢
    have hin : InInt64 (Int.ofNat ((m + (Float64.unit - 1)) / Float64.unit)) := by
      simpa using hr
    simp only [if_pos hin]
    have hq : 1 ≤ (m + (Float64.unit - 1)) / Float64.unit :=
      (Nat.le_div_iff_mul_le hU).mpr (by omega)
    show (1 : Int) ≤ ((((m + (Float64.unit - 1)) / Float64.unit : Nat)) : Int)
    exact_mod_cast hq
  · rw [if_neg hlt] at hr
    simp [Float64.ceil, Float64.truncate] at hr

theorem itemRule_nonneg (rt : GoRuntime) (receipt : Receipt)
    (hitems : ∀ item ∈ receipt.Items,
      Float64.le (Float64.ofNat 0) item.Price = true ∧ item.pointsInRange = true)
    (hsum : ((receipt.Items.filter Item.counted).map (itemPoints rt)).sum < 2 ^ 63) :
    0 ≤ (ItemDescriptionLengthRule rt).Apply receipt := by
  show 0 ≤ calculateItemDescriptionPoints rt receipt
  have hnonneg : 0 ≤ (receipt.Items.map (itemDescriptionStep rt 0)).sum :=
    List.sum_nonneg (by
      intro x hx
      obtain ⟨item, hitem, rfl⟩ := List.mem_map.mp hx
      exact itemDescriptionStep_zero_nonneg rt item (hitems item hitem).1 (hitems item hitem).2)
  rw [sum_map_counted] at hnonneg
  rw [calculateItemDescriptionPoints_eq, wrap64_of_inInt64 _ ⟨by omega, hsum⟩]
  exact hnonneg

/-- The six rules other than the item-description rule never return a negative
value. -/
theorem rules_nonneg (rt : GoRuntime) (receipt : Receipt)
    (h5 : 0 ≤ (ItemDescriptionLengthRule rt).Apply receipt) :
    ∀ rule ∈ GetAllRules rt, 0 ≤ rule.Apply receipt := by
  intro rule hrule
  simp only [GetAllRules, List.mem_cons, List.mem_singleton, List.not_mem_nil, or_false] at hrule
  rcases hrule with rfl | rfl | rfl | rfl | rfl | rfl | rfl
  · show 0 ≤ countAlphanumericChars rt receipt.Retailer
    unfold countAlphanumericChars
    rw [countAlphanumericChars_foldl]
    simp
  · show 0 ≤ (if Float64.eq receipt.Total (Float64.floor receipt.Total) then (50 : Int) else 0)
    split <;> omega
  · show 0 ≤ (if Float64.eq (Float64.mod (Float64.mul receipt.Total (Float64.ofNat 100))
      (Float64.ofNat 25)) (Float64.ofNat 0) then (25 : Int) else 0)
    split <;> omega
  · show 0 ≤ (Int.ofNat receipt.Items.length / 2) * 5
    have : (0 : Int) ≤ Int.ofNat receipt.Items.length := Int.ofNat_nonneg _
    omega
  · exact h5
  · simp only [OddDayRule]
    split
    · omega
    · split <;> omega
  · simp only [AfternoonTimeRule, calculateAfternoonTimePoints]
    split
    · omega
    · split <;> omega

/-- C36, counterexample. Three receipts whose item prices are all at least 0.
With two items priced 46116860184273870848.00 the item-description rule returns
-2048. With the prices 46116860184273870848.00 and 5114.00 every rule returns a
value that is at least 0, their sum is 9223372036854775818, and
`CalculatePoints` returns -9223372036854775798. With one item "abc" whose price
is the smallest positive `float64`, 5e-324, the item is counted, its price is
greater than 0, and it contributes 0. -/
theorem C36_nonneg_prices_counterexample :
    (doubleOverflowReceipt.Items.all (fun item => Float64.le (Float64.ofNat 0) item.Price) = true
      ∧ (ItemDescriptionLengthRule sampleRuntime).Apply doubleOverflowReceipt = -2048)
    ∧ (overflowReceipt.Items.all (fun item => Float64.le (Float64.ofNat 0) item.Price) = true
      ∧ (GetAllRules sampleRuntime).all (fun rule => decide (0 ≤ rule.Apply overflowReceipt))
          = true
      ∧ ((GetAllRules sampleRuntime).map (fun rule => rule.Apply overflowReceipt)).sum
          = 9223372036854775818
      ∧ (CalculatePoints sampleRuntime Context.Background overflowReceipt).err = GoError.nil
      ∧ (CalculatePoints sampleRuntime Context.Background overflowReceipt).points
          = -9223372036854775798)
    ∧ (tinyPriceReceipt.Items = [⟨"abc", Float64.fin false 1⟩]
      ∧ Float64.le (Float64.ofNat 0) (Float64.fin false 1) = true
      ∧ Float64.eq (Float64.fin false 1) (Float64.ofNat 0) = false
      ∧ Item.counted ⟨"abc", Float64.fin false 1⟩ = true
      ∧ itemPoints sampleRuntime ⟨"abc", Float64.fin false 1⟩ = 0
      ∧ (ItemDescriptionLengthRule sampleRuntime).Apply tinyPriceReceipt = 0) := by
  decide!

/-- C36, amended. For every receipt whose item prices are all at least 0 and
have a `ceil(price * 0.2)` in the range of `int`: when the item contributions
sum to less than `2^63`, every rule returns a value that is at least 0, whatever
the seven contributions sum to; when moreover the seven contributions sum to
less than `2^63`, `CalculatePoints` under any context that no poll finds
cancelled returns their sum and a nil error. And, with no bound on any sum, each
counted item whose price is at least three units of `2^(-1074)`, that is, every
positive price but the two smallest `float64` values, contributes at least 1. -/
theorem C36_nonneg_prices (rt : GoRuntime) (receipt : Receipt)
    (hitems : ∀ item ∈ receipt.Items,
      Float64.le (Float64.ofNat 0) item.Price = true ∧ item.pointsInRange = true) :
    (((receipt.Items.filter Item.counted).map (itemPoints rt)).sum < 2 ^ 63 →
      (∀ rule ∈ GetAllRules rt, 0 ≤ rule.Apply receipt)
      ∧ (((GetAllRules rt).map (fun rule => rule.Apply receipt)).sum < 2 ^ 63 →
          ∀ ctx : Context, (∀ i, i ≤ 7 → ctx.Err i = GoError.nil) →
            (CalculatePoints rt ctx receipt).err = GoError.nil
            ∧ (CalculatePoints rt ctx receipt).points
                = ((GetAllRules rt).map (fun rule => rule.Apply receipt)).sum))
    ∧ (∀ item ∈ receipt.Items, item.counted = true →
        ∀ k : Nat, item.Price = Float64.fin false k → 3 ≤ k → 1 ≤ itemPoints rt item) := by
  refine ⟨fun hisum => ?_, ?_⟩
  · have hnonneg := rules_nonneg rt receipt (itemRule_nonneg rt receipt hitems hisum)
    refine ⟨hnonneg, fun hsum ctx h => ?_⟩
    have hc := CalculatePoints_not_cancelled rt ctx receipt h
    refine ⟨hc.1, ?_⟩
    have hmap : (GetAllRules rt).map (fun rule => max (rule.Apply receipt) 0)
        = (GetAllRules rt).map (fun rule => rule.Apply receipt) :=
      List.map_congr_left (fun rule hrule => max_eq_left (hnonneg rule hrule))
    have hsum0 : 0 ≤ ((GetAllRules rt).map (fun rule => rule.Apply receipt)).sum :=
      List.sum_nonneg (by
        intro x hx
        obtain ⟨rule, hrule, rfl⟩ := List.mem_map.mp hx
        exact hnonneg rule hrule)
    rw [hc.2.1, hmap]
    exact wrap64_of_inInt64 _ ⟨by omega, hsum⟩
  · intro item hitem _ k hk h3
    exact itemPoints_pos rt item k hk h3 (hitems item hitem).2

/-- C36, witness. The reference receipt: its contributions 6, 0, 0, 10, 6, 6, 0
sum to 28, which `CalculatePoints` returns. And the receipt with the prices
46116860184273870848.00 and 5114.00: its item contributions sum to `2^63 - 1`
and its seven contributions to `2^63 + 10`, so the score wraps, yet every rule
returns a value that is at least 0. -/
theorem C36_nonneg_prices_witness :
    ((∀ item ∈ targetReceipt.Items,
        Float64.le (Float64.ofNat 0) item.Price = true ∧ item.pointsInRange = true)
      ∧ (GetAllRules sampleRuntime).map (fun rule => rule.Apply targetReceipt)
          = [6, 0, 0, 10, 6, 6, 0]
      ∧ (CalculatePoints sampleRuntime Context.Background targetReceipt).err = GoError.nil
      ∧ (CalculatePoints sampleRuntime Context.Background targetReceipt).points
          = ((GetAllRules sampleRuntime).map (fun rule => rule.Apply targetReceipt)).sum)
    ∧ ((∀ item ∈ overflowReceipt.Items,
        Float64.le (Float64.ofNat 0) item.Price = true ∧ item.pointsInRange = true)
      ∧ ((overflowReceipt.Items.filter Item.counted).map (itemPoints sampleRuntime)).sum
          = 2 ^ 63 - 1
      ∧ ((GetAllRules sampleRuntime).map (fun rule => rule.Apply overflowReceipt)).sum
          = 2 ^ 63 + 10
      ∧ (∀ rule ∈ GetAllRules sampleRuntime, 0 ≤ rule.Apply overflowReceipt)) :=
  ⟨⟨by decide!, by decide!,
    ((C36_nonneg_prices sampleRuntime targetReceipt (by decide!)).1 (by decide!)).2
      (by decide!) Context.Background (fun _ _ => rfl)⟩,
   ⟨by decide!, by decide!, by decide!,
    ((C36_nonneg_prices sampleRuntime overflowReceipt (by decide!)).1 (by decide!)).1⟩⟩

end ReceiptProcessor
